import Mathlib

/-!
# SCHED_GRR: the group round-robin scheduling class

A shallow embedding of `kernel/sched/grr.c` (flo-kernel).

* A task is named by the address of its `task_struct`, a machine word; `0` is `NULL`.
* A run queue is named by the index of its CPU (`cpu_rq(i)`), so `rq->cpu` is that index.
* The intrusive list `rq->grr.queue` is the list of the tasks linked into it, head first.
  A list node is linked into at most one list, at most once.
* `unsigned long` is 32 bits wide (flo is an ARMv7 target); `u64` is 64 bits wide.
  Arithmetic on them wraps.
* Locks, interrupt masking, RCU sections and trace output have no effect on the
  sequential state and are left out.
-/

namespace GRR

/-! ## Machine integers and constants -/

/-- Number of values of an `unsigned long` (BITS_PER_LONG = 32). -/
def ULONG_SIZE : Nat := 2 ^ 32

/-- Number of values of an `unsigned int`. -/
def UINT_SIZE : Nat := 2 ^ 32

/-- Number of values of a `u64`. -/
def U64_SIZE : Nat := 2 ^ 64

/-- The `++` operator on an `unsigned long`. -/
def ulong_inc (n : Nat) : Nat := (n + 1) % ULONG_SIZE

/-- The `--` operator on an `unsigned long`: `0` wraps to the largest value. -/
def ulong_dec (n : Nat) : Nat := if n % ULONG_SIZE = 0 then ULONG_SIZE - 1 else n % ULONG_SIZE - 1

/-- The `--` operator on an `unsigned int`: `0` wraps to the largest value. -/
def uint_dec (n : Nat) : Nat := if n % UINT_SIZE = 0 then UINT_SIZE - 1 else n % UINT_SIZE - 1

/-- The difference `a - b` of two `u64` values. -/
def u64_sub (a b : Nat) : Nat :=
  if b % U64_SIZE ≤ a % U64_SIZE then a % U64_SIZE - b % U64_SIZE
  else U64_SIZE - (b % U64_SIZE - a % U64_SIZE)

/-- The constant `RLIM_INFINITY`, `~0UL`. -/
def RLIM_INFINITY : Nat := ULONG_SIZE - 1

/-- The constant `USEC_PER_SEC`. -/
def USEC_PER_SEC : Nat := 1000000

/-- Task state `TASK_RUNNING`. -/
def TASK_RUNNING : Nat := 0

/-- Task state `TASK_WAKING`. -/
def TASK_WAKING : Nat := 256

/-- Enqueue flag `ENQUEUE_WAKEUP`. -/
def ENQUEUE_WAKEUP : Nat := 1

/-- Enqueue flag `ENQUEUE_HEAD`. -/
def ENQUEUE_HEAD : Nat := 2

/-- Modelled from the spec: the policy number `SCHED_GRR` (declared in a header that is
not part of the sources); only equality with a task's `policy` is ever used. -/
def SCHED_GRR : Nat := 6

/-- Modelled from the spec: the group index `FOREGROUND`, the first scheduling group of the
balancer's loop (declared in a header that is not part of the sources). -/
def FOREGROUND : Nat := 1

/-- Modelled from the spec: the group index `BACKGROUND`, the last scheduling group of the
balancer's loop (declared in a header that is not part of the sources). -/
def BACKGROUND : Nat := 2

/-- Initial value of `minload.nr_running` in `grr_load_balance`. -/
def MINLOAD_START : Nat := 1000000

/-- Build-time configuration and the constants the sources take from headers. -/
structure Kconfig where
  /-- Value of `CONFIG_GRR_GROUPS` -/
  CONFIG_GRR_GROUPS : Bool
  /-- Value of `CONFIG_SCHEDSTATS` -/
  CONFIG_SCHEDSTATS : Bool
  /-- number of possible CPUs; `for_each_online_cpu` walks `0 .. nr_cpu_ids - 1` -/
  nr_cpu_ids : Nat
  /-- timer frequency `HZ` -/
  HZ : Nat
  /-- the time slice `GRR_TIMESLICE`, in ticks -/
  GRR_TIMESLICE : Nat

/-! ## Data model -/

/-- The scheduling classes a task can belong to (`p->sched_class`). -/
inductive sched_class_id where
  | stop_sched_class
  | rt_sched_class
  | grr_sched_class
  | fair_sched_class
  | idle_sched_class
deriving DecidableEq, Repr

/-- The fields of `struct sched_grr_entity` other than the list node `task_queue`. -/
structure sched_grr_entity where
  /-- remaining ticks, an `unsigned int` -/
  time_slice : Nat
  /-- watchdog counter, an `unsigned long` -/
  timeout : Nat
  /-- cached size of the allowed-CPU set -/
  nr_cpus_allowed : Nat

/-- The fields of `struct sched_entity` the class uses. -/
structure sched_entity where
  exec_start : Nat
  sum_exec_runtime : Nat
  /-- Value of `statistics.exec_max` -/
  exec_max : Nat

/-- The fields of `struct task_struct` the class uses. -/
structure task_struct where
  grr : sched_grr_entity
  se : sched_entity
  /-- Value of `task_cpu(p)` -/
  cpu : Nat
  /-- Value of `cpumask_test_cpu(i, &p->cpus_allowed)` -/
  cpus_allowed : Nat → Bool
  state : Nat
  /-- Whether `task_thread_info(p)->preempt_count & PREEMPT_ACTIVE` is non-zero -/
  preempt_active : Bool
  on_rq : Bool
  /-- Value of `task_running(rq, p)` on SMP -/
  on_cpu : Bool
  policy : Nat
  sched_class : sched_class_id
  /-- Value of `strlen(task_group_path(task_group(p)))` -/
  group_path_len : Nat
  /-- Value of `task_rlimit(p, RLIMIT_RTTIME)` -/
  rlim_cur : Nat
  /-- Value of `task_rlimit_max(p, RLIMIT_RTTIME)` -/
  rlim_max : Nat
  /-- Value of `cputime_expires.sched_exp` -/
  sched_exp : Nat
  /-- a reschedule was requested with `resched_task(p)` -/
  need_resched : Bool

/-- The run queue of the class inside a CPU's run queue: `struct grr_rq`. -/
structure grr_rq where
  /-- the tasks linked into `queue`, head first -/
  queue : List Nat
  /-- an `unsigned long` -/
  grr_nr_running : Nat

/-- The fields of `struct rq` the class uses. -/
structure rq where
  grr : grr_rq
  /-- an `unsigned long` -/
  nr_running : Nat
  /-- the task running on the CPU -/
  curr : Nat
  clock : Nat
  clock_task : Nat
  foreground : Bool
  background : Bool

/-- The scheduler state: the per-CPU run queues, the tasks and the online mask. -/
structure Sched where
  /-- Value of `cpu_rq(i)` -/
  rqs : Nat → rq
  /-- the task at an address -/
  tasks : Nat → task_struct
  /-- Value of `cpu_online(i)` -/
  cpu_online : Nat → Bool

/-- Store a run queue. -/
def set_rq (s : Sched) (c : Nat) (r : rq) : Sched :=
  { s with rqs := Function.update s.rqs c r }

/-- Store a task. -/
def set_task (s : Sched) (p : Nat) (t : task_struct) : Sched :=
  { s with tasks := Function.update s.tasks p t }

/-- Store the list of a CPU's queue. -/
def set_queue (s : Sched) (c : Nat) (q : List Nat) : Sched :=
  set_rq s c { s.rqs c with grr := { (s.rqs c).grr with queue := q } }

/-- Store `grr_nr_running` of a CPU's queue. -/
def set_grr_nr_running (s : Sched) (c : Nat) (n : Nat) : Sched :=
  set_rq s c { s.rqs c with grr := { (s.rqs c).grr with grr_nr_running := n } }

/-- The online CPUs in the order `for_each_online_cpu` visits them. -/
def online_cpus (K : Kconfig) (s : Sched) : List Nat :=
  (List.range K.nr_cpu_ids).filter s.cpu_online

/-! ## List primitives (`linux/list.h`) on the intrusive queue nodes -/

/-- Modelled from the spec: `list_del_init(&p->grr.task_queue)` of `linux/list.h` (not part
of the sources); it unlinks the node from the list it is in and leaves it re-insertable. -/
def list_del_init (s : Sched) (p : Nat) : Sched :=
  { s with rqs := fun c =>
      { s.rqs c with grr := { (s.rqs c).grr with queue := (s.rqs c).grr.queue.erase p } } }

/-- Modelled from the spec: `list_add(&p->grr.task_queue, &cpu_rq(c)->grr.queue)` of
`linux/list.h` (not part of the sources); it links an unlinked node at the head. -/
def list_add (s : Sched) (c p : Nat) : Sched :=
  set_queue s c (p :: (s.rqs c).grr.queue)

/-- Modelled from the spec: `list_add_tail(&p->grr.task_queue, &cpu_rq(c)->grr.queue)` of
`linux/list.h` (not part of the sources); it links an unlinked node at the tail. -/
def list_add_tail (s : Sched) (c p : Nat) : Sched :=
  set_queue s c ((s.rqs c).grr.queue ++ [p])

/-- Modelled from the spec: `list_move` of `linux/list.h` (not part of the sources); it
unlinks the node, then links it at the head. -/
def list_move (s : Sched) (c p : Nat) : Sched :=
  list_add (list_del_init s p) c p

/-- Modelled from the spec: `list_move_tail` of `linux/list.h` (not part of the sources); it
unlinks the node, then links it at the tail. -/
def list_move_tail (s : Sched) (c p : Nat) : Sched :=
  list_add_tail (list_del_init s p) c p

/-! ## Helpers of grr.c -/

/-- Function `can_move_grr_task(p, source, target)`. -/
def can_move_grr_task (s : Sched) (p source target : Nat) : Bool :=
  if !(s.tasks p).cpus_allowed target then false
  else if !s.cpu_online target then false
  else if (s.tasks p).cpu ≠ source then false
  else if (s.tasks p).on_cpu then false
  else true

/-- Function `update_curr_grr(rq)`: charge the running task for the time since `exec_start`. The
thread-group and cpuacct accounting it also feeds is outside the modelled state. -/
def update_curr_grr (K : Kconfig) (s : Sched) (c : Nat) : Sched :=
  let curr := (s.rqs c).curr
  let t := s.tasks curr
  if t.sched_class ≠ sched_class_id.grr_sched_class then s
  else
    let d := u64_sub (s.rqs c).clock_task t.se.exec_start
    let delta_exec := if 2 ^ 63 ≤ d then 0 else d
    set_task s curr
      { t with se :=
          { exec_start := (s.rqs c).clock_task
            sum_exec_runtime := (t.se.sum_exec_runtime + delta_exec) % U64_SIZE
            exec_max :=
              if K.CONFIG_SCHEDSTATS then max t.se.exec_max delta_exec else t.se.exec_max } }

/-- Function `dequeue_grr_entity(rq, grr_se)`. -/
def dequeue_grr_entity (s : Sched) (c p : Nat) : Sched :=
  let s1 := list_del_init s p
  set_grr_nr_running s1 c (ulong_dec (s1.rqs c).grr.grr_nr_running)

/-- Function `enqueue_grr_entity(rq, grr_se, head)`. -/
def enqueue_grr_entity (s : Sched) (c p : Nat) (head : Bool) : Sched :=
  let s1 := if head then list_add s c p else list_add_tail s c p
  set_grr_nr_running s1 c (ulong_inc (s1.rqs c).grr.grr_nr_running)

/-- Function `requeue_task_grr(rq, p, head)`. -/
def requeue_task_grr (s : Sched) (c p : Nat) (head : Bool) : Sched :=
  if head then list_move s c p else list_move_tail s c p

/-- Function `watchdog(rq, p)`. `DIV_ROUND_UP(n, d)` is `(n + d - 1) / d`, computed in
`unsigned long`. -/
def watchdog (K : Kconfig) (s : Sched) (p : Nat) : Sched :=
  let t := s.tasks p
  let soft := t.rlim_cur
  let hard := t.rlim_max
  if soft ≠ RLIM_INFINITY then
    let timeout := ulong_inc t.grr.timeout
    let d := USEC_PER_SEC / K.HZ
    let next := (min soft hard + (d - 1)) % ULONG_SIZE / d
    let t1 := { t with grr := { t.grr with timeout := timeout } }
    if timeout > next then set_task s p { t1 with sched_exp := t.se.sum_exec_runtime }
    else set_task s p t1
  else s

/-! ## The methods of `grr_sched_class` -/

/-- Function `init_grr_rq(&cpu_rq(c)->grr)`. -/
def init_grr_rq (s : Sched) (c : Nat) : Sched :=
  set_rq s c { s.rqs c with grr := { queue := [], grr_nr_running := 0 } }

/-- Modelled from the spec: `inc_nr_running(rq)` of `sched.h` (not part of the sources),
the ready count of the whole run queue; it increments `rq->nr_running`. -/
def inc_nr_running (s : Sched) (c : Nat) : Sched :=
  set_rq s c { s.rqs c with nr_running := ulong_inc (s.rqs c).nr_running }

/-- Modelled from the spec: `dec_nr_running(rq)` of `sched.h` (not part of the sources),
the ready count of the whole run queue; it decrements `rq->nr_running`. -/
def dec_nr_running (s : Sched) (c : Nat) : Sched :=
  set_rq s c { s.rqs c with nr_running := ulong_dec (s.rqs c).nr_running }

/-- Function `enqueue_task_grr(rq, p, flags)`. -/
def enqueue_task_grr (s : Sched) (c p flags : Nat) : Sched :=
  let s1 :=
    if flags &&& ENQUEUE_WAKEUP ≠ 0 then
      set_task s p { s.tasks p with grr := { (s.tasks p).grr with timeout := 0 } }
    else s
  inc_nr_running (enqueue_grr_entity s1 c p (decide (flags &&& ENQUEUE_HEAD ≠ 0))) c

/-- Function `dequeue_task_grr(rq, p, flags)`. -/
def dequeue_task_grr (K : Kconfig) (s : Sched) (c p : Nat) (_flags : Nat) : Sched :=
  dec_nr_running (dequeue_grr_entity (update_curr_grr K s c) c p) c

/-- Function `yield_task_grr(rq)`. -/
def yield_task_grr (s : Sched) (c : Nat) : Sched :=
  requeue_task_grr s c (s.rqs c).curr false

/-- Function `pick_next_task_grr(rq)`: the returned task pointer (`none` is `NULL`) and the state.
The outer `none` is the undefined read `list_first_entry` makes on an empty list. -/
def pick_next_task_grr (s : Sched) (c : Nat) : Option (Option Nat × Sched) :=
  if (s.rqs c).grr.grr_nr_running = 0 then some (none, s)
  else
    match (s.rqs c).grr.queue with
    | [] => none
    | p :: _ =>
      if p = 0 then some (none, s)
      else
        some (some p,
          set_task s p
            { s.tasks p with se := { (s.tasks p).se with exec_start := (s.rqs c).clock } })

/-- Function `put_prev_task_grr(rq, p)`. -/
def put_prev_task_grr (K : Kconfig) (s : Sched) (c p : Nat) : Sched :=
  let s1 := update_curr_grr K s c
  set_task s1 p { s1.tasks p with se := { (s1.tasks p).se with exec_start := 0 } }

/-- Modelled from the spec: `resched_task(p)` of the core scheduler (not part of the
sources), the reschedule request primitive; it raises the task's reschedule flag. -/
def resched_task (s : Sched) (p : Nat) : Sched :=
  set_task s p { s.tasks p with need_resched := true }

/-- Modelled from the spec: `set_task_cpu(p, cpu)` of the core scheduler (not part of the
sources); it reassigns the task's core. -/
def set_task_cpu (s : Sched) (p cpu : Nat) : Sched :=
  set_task s p { s.tasks p with cpu := cpu }

/-- Modelled from the spec: `deactivate_task(rq, p, flags)` of the core scheduler (not part
of the sources); it removes the task from the queue through the class's dequeue method. -/
def deactivate_task (K : Kconfig) (s : Sched) (c p flags : Nat) : Sched :=
  dequeue_task_grr K s c p flags

/-- Modelled from the spec: `activate_task(rq, p, flags)` of the core scheduler (not part
of the sources); it inserts the task into the queue through the class's enqueue method. -/
def activate_task (s : Sched) (c p flags : Nat) : Sched :=
  enqueue_task_grr s c p flags

/-- The group test inside the scan of `select_task_rq_grr`; `orig` is the CPU of the `rq`
variable, set before the loop. -/
def select_skip_group (K : Kconfig) (s : Sched) (p orig : Nat) : Bool :=
  if K.CONFIG_GRR_GROUPS then
    if decide (5 ≤ (s.tasks p).group_path_len) && (s.rqs orig).foreground then true
    else if decide ((s.tasks p).group_path_len < 5) && (s.rqs orig).background then true
    else false
  else false

/-- One iteration of the scan of `select_task_rq_grr` on the pair `(min_nr, min_cpu)`. -/
def select_step (K : Kconfig) (s : Sched) (p orig : Nat) (acc : Nat × Nat) (i : Nat) :
    Nat × Nat :=
  if select_skip_group K s p orig then acc
  else if !(s.tasks p).cpus_allowed i then acc
  else if (s.rqs i).grr.grr_nr_running < acc.1 then ((s.rqs i).grr.grr_nr_running, i)
  else acc

/-- Function `select_task_rq_grr(p, sd_flag, flags)`. -/
def select_task_rq_grr (K : Kconfig) (s : Sched) (p : Nat) : Nat :=
  let orig_cpu := (s.tasks p).cpu
  if (s.tasks p).grr.nr_cpus_allowed = 1 then orig_cpu
  else
    let orig_nr := (s.rqs orig_cpu).grr.grr_nr_running
    ((online_cpus K s).foldl (select_step K s p orig_cpu) (orig_nr, orig_cpu)).2

/-- The part of `task_move_group_grr` that runs with both queues locked: `source` is the
CPU of `source_rq` and `target` the CPU of `target_rq`, both computed before locking. -/
def task_move_group_grr_locked (K : Kconfig) (s : Sched) (p source target : Nat) : Sched :=
  if (s.tasks p).cpu ≠ source then s
  else if !can_move_grr_task s p source target then s
  else if target = source then s
  else if (s.tasks p).state ≠ TASK_RUNNING ∧ (s.tasks p).state ≠ TASK_WAKING
      ∧ (s.tasks p).preempt_active = false then s
  else activate_task (set_task_cpu (deactivate_task K s source p 0) p target) target p 0

/-- Function `task_move_group_grr(p, on_rq)` when another CPU runs between the unlocked choice of
the queues, made in state `s0`, and the taking of the locks, in state `s`. -/
def task_move_group_grr_after (K : Kconfig) (s0 s : Sched) (p : Nat) : Sched :=
  task_move_group_grr_locked K s p (s0.tasks p).cpu (select_task_rq_grr K s0 p)

/-- Function `task_move_group_grr(p, on_rq)`. -/
def task_move_group_grr (K : Kconfig) (s : Sched) (p : Nat) : Sched :=
  task_move_group_grr_after K s s p

/-- Function `task_tick_grr(rq, p, queued)`. The test `queue->prev != queue->next` holds exactly
when the list has at least two nodes. -/
def task_tick_grr (K : Kconfig) (s : Sched) (c p : Nat) : Sched :=
  let s1 := watchdog K (update_curr_grr K s c) p
  let ts := uint_dec (s1.tasks p).grr.time_slice
  let s2 := set_task s1 p { s1.tasks p with grr := { (s1.tasks p).grr with time_slice := ts } }
  if ts ≠ 0 then s2
  else
    let s3 :=
      set_task s2 p
        { s2.tasks p with grr := { (s2.tasks p).grr with time_slice := K.GRR_TIMESLICE } }
    if 2 ≤ (s3.rqs c).grr.queue.length then resched_task (requeue_task_grr s3 c p false) p
    else s3

/-! ## Load balancing -/

/-- Record `struct load`; `rq` is `none` until a scan stores a queue (the field `cpu` is the
same index). -/
structure load where
  nr_running : Nat
  rq : Option Nat
deriving DecidableEq, Repr

/-- The variables of the scan in `grr_load_balance`. -/
structure lb_scan where
  cpus_online : Nat
  maxload : load
  minload : load
deriving DecidableEq, Repr

/-- Whether the scan of group `j` looks at CPU `i`. -/
def lb_eligible (K : Kconfig) (s : Sched) (j i : Nat) : Bool :=
  if K.CONFIG_GRR_GROUPS then
    if decide (j = FOREGROUND) && !(s.rqs i).foreground then false
    else if decide (j = BACKGROUND) && !(s.rqs i).background then false
    else true
  else true

/-- The CPUs the balancer's scan of group `j` looks at, in the order of the scan. -/
def lb_cpus (K : Kconfig) (s : Sched) (j : Nat) : List Nat :=
  (online_cpus K s).filter (lb_eligible K s j)

/-- One iteration of the scan for the most and the least loaded CPU. -/
def lb_scan_step (K : Kconfig) (s : Sched) (j : Nat) (st : lb_scan) (i : Nat) : lb_scan :=
  if !lb_eligible K s j i then st
  else
    let nr_running := (s.rqs i).grr.grr_nr_running
    { cpus_online := st.cpus_online + 1
      maxload :=
        if nr_running > st.maxload.nr_running then { nr_running := nr_running, rq := some i }
        else st.maxload
      minload :=
        if nr_running < st.minload.nr_running then { nr_running := nr_running, rq := some i }
        else st.minload }

/-- The scan of group `j` over the online CPUs. The records `maxload` and `minload` are
variables of the whole function: before the scan of a group only `cpus_online` and the two
`nr_running` fields are set again, so the fields `rq` start as the pass before left them. -/
def lb_scan_cpus (K : Kconfig) (s : Sched) (j : Nat) (maxload minload : load) : lb_scan :=
  (online_cpus K s).foldl (lb_scan_step K s j)
    { cpus_online := 0
      maxload := { nr_running := 0, rq := maxload.rq }
      minload := { nr_running := MINLOAD_START, rq := minload.rq } }

/-- How one pass of the balancer's group loop ends. -/
inductive lb_flow where
  /-- the loop goes on with the next group, with `maxload` and `minload` as the pass leaves
  them -/
  | next (s : Sched) (maxload minload : load)
  /-- The statement `return` -/
  | ret (s : Sched)

/-- The move of task `p` from `source` to `target` that the balancer makes. -/
def lb_move (K : Kconfig) (s : Sched) (p source target : Nat) : Sched :=
  activate_task (set_task_cpu (deactivate_task K s source p 0) p target) target p 0

/-- One pass of the body of the group loop of `grr_load_balance`, for group `j`, entered
with the records `maxload` and `minload` as the pass before left them. The result is `none`
when the pass reads `maxload.rq` or `minload.rq` and no scan of this call has stored a queue
there. -/
def grr_load_balance_pass (K : Kconfig) (s : Sched) (j : Nat) (maxload minload : load) :
    Option lb_flow :=
  let sc := lb_scan_cpus K s j maxload minload
  if sc.cpus_online < 2 then some (lb_flow.ret s)
  else if sc.maxload.nr_running > (sc.minload.nr_running + 1) % ULONG_SIZE then
    match sc.maxload.rq, sc.minload.rq with
    | some source, some target =>
      if (s.rqs source).grr.grr_nr_running
          ≤ ((s.rqs target).grr.grr_nr_running + 1) % ULONG_SIZE then
        some (lb_flow.next s sc.maxload sc.minload)
      else
        match (s.rqs source).grr.queue.find? (fun p => can_move_grr_task s p source target) with
        | some p => some (lb_flow.next (lb_move K s p source target) sc.maxload sc.minload)
        | none => some (lb_flow.next s sc.maxload sc.minload)
    | _, _ => none
  else if K.CONFIG_GRR_GROUPS then some (lb_flow.next s sc.maxload sc.minload)
  else some (lb_flow.ret s)

/-- The groups the loop of `grr_load_balance` runs over. -/
def lb_groups (K : Kconfig) : List Nat :=
  if K.CONFIG_GRR_GROUPS then List.range' FOREGROUND (BACKGROUND + 1 - FOREGROUND) else [1]

/-- The group loop of `grr_load_balance`. -/
def lb_loop (K : Kconfig) : List Nat → Sched → load → load → Option Sched
  | [], s, _, _ => some s
  | j :: js, s, maxload, minload =>
    match grr_load_balance_pass K s j maxload minload with
    | none => none
    | some (lb_flow.ret s1) => some s1
    | some (lb_flow.next s1 maxload1 minload1) => lb_loop K js s1 maxload1 minload1

/-- The records `maxload` and `minload` when `grr_load_balance` is entered: no queue is
stored in `rq`; `nr_running` is set before it is read. -/
def lb_unset : load :=
  { nr_running := 0, rq := none }

/-- Function `grr_load_balance()`. -/
def grr_load_balance (K : Kconfig) (s : Sched) : Option Sched :=
  lb_loop K (lb_groups K) s lb_unset lb_unset

/-! ## Work stealing -/

/-- The place of a scheduling class in the chain `stop`, `rt`, `grr`, `fair`, `idle`
(`grr_sched_class.next` is `fair_sched_class`); a smaller number is a higher class. -/
def sched_class_rank : sched_class_id → Nat
  | sched_class_id.stop_sched_class => 0
  | sched_class_id.rt_sched_class => 1
  | sched_class_id.grr_sched_class => 2
  | sched_class_id.fair_sched_class => 3
  | sched_class_id.idle_sched_class => 4

/-- Modelled from the spec: `check_preempt_curr(rq, p, flags)` of the core scheduler (not
part of the sources), which signals the dispatcher of the CPU to consider `p`: within one
class it calls the class's own method (`check_preempt_curr_grr` does nothing), and it
requests a reschedule of the running task when `p` is of a higher class. -/
def check_preempt_curr (s : Sched) (c p _flags : Nat) : Sched :=
  let curr := (s.rqs c).curr
  if (s.tasks p).sched_class = (s.tasks curr).sched_class then s
  else if sched_class_rank (s.tasks p).sched_class < sched_class_rank (s.tasks curr).sched_class
  then resched_task s curr
  else s

/-- Whether the scan of `try_steal_task` passes over CPU `i` without looking at its queue:
its group flags differ from the target's, or it is the target. -/
def steal_skip (K : Kconfig) (s : Sched) (i target : Nat) : Bool :=
  (K.CONFIG_GRR_GROUPS
      && (((s.rqs i).background != (s.rqs target).background)
        || ((s.rqs i).foreground != (s.rqs target).foreground)))
    || decide (i = target)

/-- The task `try_steal_task` takes from the queue of `source`: the first one that
`can_move_grr_task` accepts, that has the policy `SCHED_GRR` and that is `on_rq`. -/
def steal_candidate (s : Sched) (source target : Nat) : Option Nat :=
  (s.rqs source).grr.queue.find? (fun p =>
    can_move_grr_task s p source target && decide ((s.tasks p).policy = SCHED_GRR)
      && (s.tasks p).on_rq)

/-- The move `try_steal_task` makes of task `p` from `source` to `target_rq`, with
`dest_cpu` as the new CPU of the task. -/
def steal_move (K : Kconfig) (s : Sched) (p source target dest_cpu : Nat) : Sched :=
  check_preempt_curr
    (enqueue_task_grr (set_task_cpu (dequeue_task_grr K s source p 0) p dest_cpu) target p 0)
    target p 0

/-- The loop of `try_steal_task` over the online CPUs still to visit. -/
def try_steal_loop (K : Kconfig) (target dest_cpu : Nat) : List Nat → Sched → Sched
  | [], s => s
  | i :: cpus, s =>
    if steal_skip K s i target then try_steal_loop K target dest_cpu cpus s
    else if (s.rqs i).grr.queue.isEmpty then try_steal_loop K target dest_cpu cpus s
    else
      match steal_candidate s i target with
      | some p => steal_move K s p i target dest_cpu
      | none => try_steal_loop K target dest_cpu cpus s

/-- Function `try_steal_task(target_rq, dest_cpu)`, with `target` the CPU of `target_rq`. -/
def try_steal_task (K : Kconfig) (s : Sched) (target dest_cpu : Nat) : Sched :=
  try_steal_loop K target dest_cpu (online_cpus K s) s

/-! ## Traces of queue calls -/

/-- A call of `enqueue_grr_entity` or `dequeue_grr_entity` on one run queue. -/
inductive queue_op where
  | enqueue (p : Nat) (head : Bool)
  | dequeue (p : Nat)
deriving DecidableEq, Repr

/-- Run one call on the queue of CPU `c`. -/
def apply_queue_op (c : Nat) (s : Sched) : queue_op → Sched
  | queue_op.enqueue p head => enqueue_grr_entity s c p head
  | queue_op.dequeue p => dequeue_grr_entity s c p

/-- Run a sequence of calls on the queue of CPU `c`. -/
def run_queue_ops (c : Nat) (s : Sched) (ops : List queue_op) : Sched :=
  ops.foldl (apply_queue_op c) s

/-- A task pointer: a machine word other than `NULL`. -/
def is_task_ptr (p : Nat) : Bool :=
  decide (0 < p) && decide (p < ULONG_SIZE)

/-- The sequence respects the contract of the two calls on the queue of CPU `c`: every
enqueue is of a task that is not linked in the queue, every dequeue is of a task that is
linked in it. -/
def queue_ops_valid (c : Nat) : Sched → List queue_op → Bool
  | _, [] => true
  | s, queue_op.enqueue p head :: ops =>
    is_task_ptr p && !((s.rqs c).grr.queue.contains p)
      && queue_ops_valid c (enqueue_grr_entity s c p head) ops
  | s, queue_op.dequeue p :: ops =>
    (s.rqs c).grr.queue.contains p && queue_ops_valid c (dequeue_grr_entity s c p) ops

/-- A state with `n` CPUs' worth of empty queues and idle tasks, used to build examples. -/
def blank_task : task_struct :=
  { grr := { time_slice := 0, timeout := 0, nr_cpus_allowed := 0 }
    se := { exec_start := 0, sum_exec_runtime := 0, exec_max := 0 }
    cpu := 0
    cpus_allowed := fun _ => true
    state := TASK_RUNNING
    preempt_active := false
    on_rq := false
    on_cpu := false
    policy := SCHED_GRR
    sched_class := sched_class_id.grr_sched_class
    group_path_len := 1
    rlim_cur := RLIM_INFINITY
    rlim_max := RLIM_INFINITY
    sched_exp := 0
    need_resched := false }

/-- An empty run queue, used to build examples. -/
def blank_rq : rq :=
  { grr := { queue := [], grr_nr_running := 0 }
    nr_running := 0
    curr := 0
    clock := 0
    clock_task := 0
    foreground := true
    background := false }

/-- The state in which every queue is empty and every CPU online, used to build
examples. -/
def blank_sched : Sched :=
  { rqs := fun _ => blank_rq
    tasks := fun _ => blank_task
    cpu_online := fun _ => true }

/-- What every valid sequence of calls keeps true of a queue. -/
def queue_inv (s : Sched) (c : Nat) : Prop :=
  (s.rqs c).grr.queue.Nodup ∧ (∀ x ∈ (s.rqs c).grr.queue, is_task_ptr x = true)
    ∧ (s.rqs c).grr.grr_nr_running = (s.rqs c).grr.queue.length


/-! ## The dispatcher's round-robin loop on one CPU -/

/-- Timer ticks on the running task `p` of CPU `c`, repeated until a tick has moved `p`
away from the head of the queue, at most `fuel` times. The result is the number of ticks
and the state then. -/
def tick_until_requeued (K : Kconfig) (c p : Nat) : Nat → Sched → Option (Nat × Sched)
  | 0, _ => none
  | fuel + 1, s =>
    let s1 := task_tick_grr K s c p
    if (s1.rqs c).grr.queue.head? ≠ some p then some (1, s1)
    else
      match tick_until_requeued K c p fuel s1 with
      | none => none
      | some (k, s2) => some (k + 1, s2)

/-- What one turn of the loop did: the task that ran, the ticks it received, and whether a
reschedule of it was requested when it left the head of the queue. -/
structure rr_turn_log where
  task : Nat
  ticks : Nat
  resched : Bool
deriving DecidableEq, Repr

/-- The dispatcher switches CPU `c` to task `p`: `p` becomes `rq->curr`, and no reschedule
of it is pending any more. -/
def rr_make_current (s : Sched) (c p : Nat) : Sched :=
  set_task (set_rq s c { s.rqs c with curr := p }) p { s.tasks p with need_resched := false }

/-- One turn on CPU `c`: the task `pick_next_task_grr` returns becomes the current task and
is ticked until it is requeued. -/
def rr_turn (K : Kconfig) (c fuel : Nat) (s : Sched) : Option (rr_turn_log × Sched) :=
  match pick_next_task_grr s c with
  | some (some p, s1) =>
    match tick_until_requeued K c p fuel (rr_make_current s1 c p) with
    | some (k, s2) =>
      some ({ task := p, ticks := k, resched := (s2.tasks p).need_resched }, s2)
    | none => none
  | _ => none

/-- The first `m` turns on CPU `c`, oldest first, and the state after them. -/
def rr_run (K : Kconfig) (c fuel : Nat) : Nat → Sched → Option (List rr_turn_log × Sched)
  | 0, s => some ([], s)
  | m + 1, s =>
    match rr_turn K c fuel s with
    | none => none
    | some (e, s1) =>
      match rr_run K c fuel m s1 with
      | none => none
      | some (log, s2) => some (e :: log, s2)

/-- What the round-robin loop keeps true at the start of every turn: the queue holds `q`,
the running count is not zero, and every queued task is a task pointer with a full time
slice. -/
def rr_inv (K : Kconfig) (s : Sched) (c : Nat) (q : List Nat) : Prop :=
  (s.rqs c).grr.queue = q ∧ (s.rqs c).grr.grr_nr_running ≠ 0
    ∧ ∀ x ∈ q, x ≠ 0 ∧ (s.tasks x).grr.time_slice = K.GRR_TIMESLICE

/-! ## Example states -/

/-- A configuration with four CPUs, groups enabled, `HZ = 100` and a slice of 10 ticks,
used to build examples. -/
def example_K : Kconfig :=
  { CONFIG_GRR_GROUPS := true
    CONFIG_SCHEDSTATS := false
    nr_cpu_ids := 4
    HZ := 100
    GRR_TIMESLICE := 10 }

/-- The same configuration with groups disabled, used to build examples. -/
def example_K_nogroups : Kconfig :=
  { example_K with CONFIG_GRR_GROUPS := false }

/-- A task on CPU `cpu` with a full time slice, allowed on the CPUs `allowed`, used to
build examples. -/
def example_task (cpu : Nat) (allowed : List Nat) : task_struct :=
  { blank_task with
    grr := { time_slice := 10, timeout := 0, nr_cpus_allowed := allowed.length }
    cpu := cpu
    cpus_allowed := fun i => allowed.contains i
    on_rq := true }

/-- A run queue holding `q`, used to build examples. -/
def example_rq (q : List Nat) : rq :=
  { blank_rq with grr := { queue := q, grr_nr_running := q.length } }

/-- CPU 0 holds the tasks 3, 5 and 8, each with a full slice; the other queues are
empty. -/
def rr_example : Sched :=
  { rqs := fun c => if c = 0 then example_rq [3, 5, 8] else blank_rq
    tasks := fun _ => example_task 0 [0, 1, 2, 3]
    cpu_online := fun _ => true }

/-- CPU 0 holds task 3 alone, on the last tick of its slice. -/
def single_example : Sched :=
  { rqs := fun c => if c = 0 then example_rq [3] else blank_rq
    tasks := fun _ =>
      { example_task 0 [0, 1, 2, 3] with
        grr := { time_slice := 1, timeout := 0, nr_cpus_allowed := 4 } }
    cpu_online := fun _ => true }

/-- A configuration with three CPUs and groups disabled, used to build examples. -/
def example_K3 : Kconfig :=
  { CONFIG_GRR_GROUPS := false
    CONFIG_SCHEDSTATS := false
    nr_cpu_ids := 3
    HZ := 100
    GRR_TIMESLICE := 10 }

/-- Task 7 is on CPU 0 and allowed on CPU 1 only. -/
def pinned_example : Sched :=
  { rqs := fun _ => blank_rq
    tasks := fun _ => example_task 0 [1]
    cpu_online := fun _ => true }

/-- The CPUs 0, 1 and 2 hold 3, 1 and 2 tasks; every task is on CPU `orig` and allowed
everywhere. -/
def load_example (orig : Nat) : Sched :=
  { rqs := fun c =>
      if c = 0 then example_rq [11, 12, 13]
      else if c = 1 then example_rq [21]
      else if c = 2 then example_rq [31, 32]
      else blank_rq
    tasks := fun _ => example_task orig [0, 1, 2]
    cpu_online := fun _ => true }

/-- A task is in the background group when the path of its group has five characters or
more: those are the tasks for which the scan of `select_task_rq_grr` tests the
`foreground` flag. The other tasks are in the foreground group. -/
def task_is_background (s : Sched) (p : Nat) : Bool :=
  decide (5 ≤ (s.tasks p).group_path_len)

/-- Whether a CPU serves the group of a task. -/
def cpu_serves_group_of (s : Sched) (p i : Nat) : Bool :=
  if task_is_background s p then (s.rqs i).background else (s.rqs i).foreground

/-- Groups are enabled; CPU 0 serves the background group only and holds the background
task 7 and two more; CPU 1 serves the foreground group only and is empty. -/
def group_example : Sched :=
  { rqs := fun c =>
      if c = 0 then { example_rq [7, 8, 9] with foreground := false, background := true }
      else { blank_rq with foreground := true, background := false }
    tasks := fun _ => { example_task 0 [0, 1, 2, 3] with group_path_len := 24 }
    cpu_online := fun _ => true }

/-- A configuration with two CPUs and groups enabled, used to build examples. -/
def example_K2 : Kconfig :=
  { example_K with nr_cpu_ids := 2 }

/-- The configuration with two CPUs and groups disabled, used to build examples. -/
def example_K2_nogroups : Kconfig :=
  { example_K2 with CONFIG_GRR_GROUPS := false }

/-- CPU 0 holds the tasks 11 and 12, which are allowed on CPU 0 only; CPU 1 is empty. -/
def affinity_example : Sched :=
  { rqs := fun c => if c = 0 then example_rq [11, 12] else blank_rq
    tasks := fun _ => example_task 0 [0]
    cpu_online := fun _ => true }

/-- CPU 0 holds the tasks 11, 12, 13 and 14, allowed on both CPUs; CPU 1 is empty. -/
def burst_example : Sched :=
  { rqs := fun c => if c = 0 then example_rq [11, 12, 13, 14] else blank_rq
    tasks := fun _ => example_task 0 [0, 1]
    cpu_online := fun _ => true }

/-- CPU 0 holds the tasks 11 and 12, allowed on both CPUs; CPU 1 is empty. -/
def gap_example : Sched :=
  { rqs := fun c => if c = 0 then example_rq [11, 12] else blank_rq
    tasks := fun _ => example_task 0 [0, 1]
    cpu_online := fun _ => true }

/-- The queues of the CPUs 0 and 1, for reading off examples. -/
def queues01 (s : Sched) : List Nat × List Nat :=
  ((s.rqs 0).grr.queue, (s.rqs 1).grr.queue)

/-- The running counts of the CPUs 0 and 1, for reading off examples. -/
def counts01 (s : Sched) : Nat × Nat :=
  ((s.rqs 0).grr.grr_nr_running, (s.rqs 1).grr.grr_nr_running)

/-- CPU 0 holds the tasks 11 and 12 and CPU 1 the task 21, all allowed on both CPUs. -/
def even_example : Sched :=
  { rqs := fun c =>
      if c = 0 then example_rq [11, 12] else if c = 1 then example_rq [21] else blank_rq
    tasks := fun p => example_task (if p < 20 then 0 else 1) [0, 1]
    cpu_online := fun _ => true }

/-- A sequence of migrations `(p, source, target)`, made one after the other. -/
def apply_moves (K : Kconfig) (s : Sched) (moves : List (Nat × Nat × Nat)) : Sched :=
  moves.foldl (fun t m => lb_move K t m.1 m.2.1 m.2.2) s

/-! ## Well-formed states -/

/-- Every task is linked in at most one run queue, and at most once in it. -/
def linked_once (s : Sched) : Prop :=
  (∀ c, (s.rqs c).grr.queue.Nodup)
    ∧ ∀ c1 c2 x, x ∈ (s.rqs c1).grr.queue → x ∈ (s.rqs c2).grr.queue → c1 = c2

/-- Every queued task is assigned to the CPU of the queue that holds it. -/
def queued_on_own_cpu (s : Sched) : Prop :=
  ∀ c x, x ∈ (s.rqs c).grr.queue → (s.tasks x).cpu = c

/-- The running count of every queue is the length of the queue. -/
def counts_match (s : Sched) : Prop :=
  ∀ c, (s.rqs c).grr.grr_nr_running = (s.rqs c).grr.queue.length

/-- Every queued task is a task pointer. -/
def queued_are_ptrs (s : Sched) : Prop :=
  ∀ c x, x ∈ (s.rqs c).grr.queue → is_task_ptr x = true

/-! ## Example states for stealing, migration, wakeup and the watchdog -/

/-- CPU 0 is empty, CPU 1 holds task 11 and CPU 2 the tasks 21, 22 and 23; every task is
assigned to the CPU that holds it and allowed everywhere. -/
def steal_example : Sched :=
  { rqs := fun c =>
      if c = 1 then example_rq [11]
      else if c = 2 then example_rq [21, 22, 23]
      else blank_rq
    tasks := fun p => example_task (p / 10) [0, 1, 2, 3]
    cpu_online := fun _ => true }

/-- CPU 0 holds task 5; task 7 is assigned to CPU 0, runnable and allowed on both CPUs,
but linked in no queue; CPU 1 is empty. -/
def unqueued_example : Sched :=
  { rqs := fun c => if c = 0 then example_rq [5] else blank_rq
    tasks := fun _ => example_task 0 [0, 1]
    cpu_online := fun _ => true }

/-- Task 7 went to sleep with 4 ticks of its slice left and 9 ticks on its watchdog
counter; all queues are empty. -/
def sleeper_example : Sched :=
  { rqs := fun _ => blank_rq
    tasks := fun _ =>
      { example_task 0 [0, 1] with
        grr := { time_slice := 4, timeout := 9, nr_cpus_allowed := 2 } }
    cpu_online := fun _ => true }

/-- Task 7 has the soft limit 4294967294 microseconds (finite) and no hard limit; its
watchdog counter is 0 and it has run for 5000 nanoseconds. -/
def rlimit_example : Sched :=
  { rqs := fun _ => blank_rq
    tasks := fun _ =>
      { example_task 0 [0, 1] with
        rlim_cur := 4294967294
        rlim_max := RLIM_INFINITY
        se := { exec_start := 0, sum_exec_runtime := 5000, exec_max := 0 }
        sched_exp := 0 }
    cpu_online := fun _ => true }

/-- The watchdog threshold in the words of the specification: the smaller of the two
limits, in microseconds, converted to ticks of `USEC_PER_SEC / HZ` microseconds and
rounded up, computed without any wrap. -/
def rttime_limit_ticks (K : Kconfig) (soft hard : Nat) : Nat :=
  (min soft hard + (USEC_PER_SEC / K.HZ - 1)) / (USEC_PER_SEC / K.HZ)

/-- Every migration of the chain, made in the state the ones before it have left,
takes one off the running count of its source, adds one to the running count of its
target, and leaves the source with a count that is not below the target's. -/
def moves_keep_order (K : Kconfig) : Sched → List (Nat × Nat × Nat) → Prop
  | _, [] => True
  | s, m :: ms =>
    ((lb_move K s m.1 m.2.1 m.2.2).rqs m.2.1).grr.grr_nr_running + 1
        = (s.rqs m.2.1).grr.grr_nr_running
      ∧ ((lb_move K s m.1 m.2.1 m.2.2).rqs m.2.2).grr.grr_nr_running
          = (s.rqs m.2.2).grr.grr_nr_running + 1
      ∧ ((lb_move K s m.1 m.2.1 m.2.2).rqs m.2.2).grr.grr_nr_running
          ≤ ((lb_move K s m.1 m.2.1 m.2.2).rqs m.2.1).grr.grr_nr_running
      ∧ moves_keep_order K (lb_move K s m.1 m.2.1 m.2.2) ms

/-- The pass of the balancer for group `j` has nothing to move in state `s`: fewer than
two online CPUs serve the group; or their running counts differ by at most one and none is
above `MINLOAD_START + 1`; or the lowest-numbered most loaded CPU `src` is at least two
above the lowest-numbered least loaded CPU `tgt`, whose count is below `MINLOAD_START`,
and the queue of `src` holds no task that `can_move_grr_task` accepts for `tgt`. -/
def lb_settled (K : Kconfig) (s : Sched) (j : Nat) : Prop :=
  (lb_cpus K s j).length < 2
    ∨ ((∀ a ∈ lb_cpus K s j, ∀ b ∈ lb_cpus K s j,
          (s.rqs a).grr.grr_nr_running ≤ (s.rqs b).grr.grr_nr_running + 1)
        ∧ ∀ a ∈ lb_cpus K s j, (s.rqs a).grr.grr_nr_running ≤ MINLOAD_START + 1)
    ∨ ∃ src ∈ lb_cpus K s j, ∃ tgt ∈ lb_cpus K s j,
        (∀ a ∈ lb_cpus K s j, (s.rqs a).grr.grr_nr_running ≤ (s.rqs src).grr.grr_nr_running)
        ∧ (∀ a ∈ lb_cpus K s j,
            (s.rqs a).grr.grr_nr_running = (s.rqs src).grr.grr_nr_running → src ≤ a)
        ∧ (∀ a ∈ lb_cpus K s j, (s.rqs tgt).grr.grr_nr_running ≤ (s.rqs a).grr.grr_nr_running)
        ∧ (∀ a ∈ lb_cpus K s j,
            (s.rqs a).grr.grr_nr_running = (s.rqs tgt).grr.grr_nr_running → tgt ≤ a)
        ∧ (s.rqs tgt).grr.grr_nr_running + 1 < (s.rqs src).grr.grr_nr_running
        ∧ (s.rqs tgt).grr.grr_nr_running < MINLOAD_START
        ∧ (s.rqs src).grr.queue.find? (fun p => can_move_grr_task s p src tgt) = none

/-- The CPUs 0 and 1 serve the foreground group and the CPUs 2 and 3 the background group;
CPU 0 holds the tasks 11 and 12, CPU 2 the tasks 31 and 32, the CPUs 1 and 3 are empty;
every task is assigned to the CPU that holds it and allowed everywhere. -/
def two_group_example : Sched :=
  { rqs := fun c =>
      if c = 0 then example_rq [11, 12]
      else if c = 2 then { example_rq [31, 32] with foreground := false, background := true }
      else if c = 3 then { blank_rq with foreground := false, background := true }
      else blank_rq
    tasks := fun p => example_task (if p < 20 then 0 else 2) [0, 1, 2, 3]
    cpu_online := fun _ => true }

/-- Four CPUs serving the foreground group: the CPUs 0 and 1 hold three tasks each, the
CPUs 2 and 3 one task each; every task is assigned to the CPU that holds it and allowed
everywhere. -/
def pairs_example : Sched :=
  { rqs := fun c =>
      if c = 0 then example_rq [11, 12, 13]
      else if c = 1 then example_rq [21, 22, 23]
      else if c = 2 then example_rq [31]
      else if c = 3 then example_rq [41]
      else blank_rq
    tasks := fun p => example_task (p / 10 - 1) [0, 1, 2, 3]
    cpu_online := fun _ => true }

/-- CPU 1 serves both groups: the CPUs 0, 1 and 3 serve the foreground group and hold
three, one and three tasks, the CPUs 1 and 2 serve the background group and CPU 2 is
empty; every task is assigned to the CPU that holds it and allowed everywhere. -/
def shared_example : Sched :=
  { rqs := fun c =>
      if c = 0 then example_rq [11, 12, 13]
      else if c = 1 then { example_rq [21] with background := true }
      else if c = 2 then { blank_rq with foreground := false, background := true }
      else if c = 3 then example_rq [41, 42, 43]
      else blank_rq
    tasks := fun p => example_task (p / 10 - 1) [0, 1, 2, 3]
    cpu_online := fun _ => true }

/-- The running counts of the CPUs 0 to 3, for reading off examples. -/
def counts0123 (s : Sched) : Nat × Nat × Nat × Nat :=
  ((s.rqs 0).grr.grr_nr_running, (s.rqs 1).grr.grr_nr_running,
    (s.rqs 2).grr.grr_nr_running, (s.rqs 3).grr.grr_nr_running)

/-- One migration is enough for group `j` in state `s`: for a most loaded CPU `a` and a
least loaded CPU `b` among the online CPUs serving the group, the counts differ by at most
three; if they differ by two, `a` is the only CPU with the largest count or `b` the only
one with the smallest; if they differ by three, both are. These are the states in which
moving one task from `a` to `b` leaves counts that differ by at most one. -/
def lb_within_one_move (K : Kconfig) (s : Sched) (j : Nat) : Prop :=
  ∀ a ∈ lb_cpus K s j, ∀ b ∈ lb_cpus K s j,
    (∀ c ∈ lb_cpus K s j, (s.rqs c).grr.grr_nr_running ≤ (s.rqs a).grr.grr_nr_running) →
    (∀ c ∈ lb_cpus K s j, (s.rqs b).grr.grr_nr_running ≤ (s.rqs c).grr.grr_nr_running) →
      (s.rqs a).grr.grr_nr_running ≤ (s.rqs b).grr.grr_nr_running + 3
      ∧ ((s.rqs a).grr.grr_nr_running = (s.rqs b).grr.grr_nr_running + 2 →
          (∀ c ∈ lb_cpus K s j, c ≠ a →
              (s.rqs c).grr.grr_nr_running < (s.rqs a).grr.grr_nr_running)
            ∨ (∀ c ∈ lb_cpus K s j, c ≠ b →
              (s.rqs b).grr.grr_nr_running < (s.rqs c).grr.grr_nr_running))
      ∧ ((s.rqs a).grr.grr_nr_running = (s.rqs b).grr.grr_nr_running + 3 →
          (∀ c ∈ lb_cpus K s j, c ≠ a →
              (s.rqs c).grr.grr_nr_running < (s.rqs a).grr.grr_nr_running)
            ∧ (∀ c ∈ lb_cpus K s j, c ≠ b →
              (s.rqs b).grr.grr_nr_running < (s.rqs c).grr.grr_nr_running))
/-! ## Projections of the state after each primitive -/

section frame

variable (K : Kconfig) (s : Sched) (c c1 p p1 : Nat)

@[simp] theorem set_rq_rqs (r : rq) : (set_rq s c r).rqs = Function.update s.rqs c r := rfl

@[simp] theorem set_rq_tasks (r : rq) : (set_rq s c r).tasks = s.tasks := rfl

@[simp] theorem set_rq_cpu_online (r : rq) : (set_rq s c r).cpu_online = s.cpu_online := rfl

@[simp] theorem set_task_rqs (t : task_struct) : (set_task s p t).rqs = s.rqs := rfl

@[simp] theorem set_task_tasks (t : task_struct) :
    (set_task s p t).tasks = Function.update s.tasks p t := rfl

@[simp] theorem set_task_cpu_online (t : task_struct) :
    (set_task s p t).cpu_online = s.cpu_online := rfl

@[simp] theorem list_del_init_queue :
    ((list_del_init s p).rqs c).grr.queue = (s.rqs c).grr.queue.erase p := rfl

@[simp] theorem list_del_init_count :
    ((list_del_init s p).rqs c).grr.grr_nr_running = (s.rqs c).grr.grr_nr_running := rfl

@[simp] theorem list_del_init_tasks : (list_del_init s p).tasks = s.tasks := rfl

@[simp] theorem list_del_init_cpu_online : (list_del_init s p).cpu_online = s.cpu_online := rfl

theorem dequeue_grr_entity_queue :
    ((dequeue_grr_entity s c p).rqs c1).grr.queue = (s.rqs c1).grr.queue.erase p := by
  by_cases h : c1 = c
  · subst h; simp [dequeue_grr_entity, set_grr_nr_running]
  · simp [dequeue_grr_entity, set_grr_nr_running, h]

theorem dequeue_grr_entity_count_self :
    ((dequeue_grr_entity s c p).rqs c).grr.grr_nr_running
      = ulong_dec (s.rqs c).grr.grr_nr_running := by
  simp [dequeue_grr_entity, set_grr_nr_running]

theorem dequeue_grr_entity_count_other (h : c1 ≠ c) :
    ((dequeue_grr_entity s c p).rqs c1).grr.grr_nr_running
      = (s.rqs c1).grr.grr_nr_running := by
  simp [dequeue_grr_entity, set_grr_nr_running, h]

theorem enqueue_grr_entity_queue_self (head : Bool) :
    ((enqueue_grr_entity s c p head).rqs c).grr.queue
      = if head then p :: (s.rqs c).grr.queue else (s.rqs c).grr.queue ++ [p] := by
  cases head <;> simp [enqueue_grr_entity, set_grr_nr_running, list_add, list_add_tail, set_queue]

theorem enqueue_grr_entity_rq_other (head : Bool) (h : c1 ≠ c) :
    (enqueue_grr_entity s c p head).rqs c1 = s.rqs c1 := by
  cases head <;>
    simp [enqueue_grr_entity, set_grr_nr_running, list_add, list_add_tail, set_queue, h]

theorem enqueue_grr_entity_count_self (head : Bool) :
    ((enqueue_grr_entity s c p head).rqs c).grr.grr_nr_running
      = ulong_inc (s.rqs c).grr.grr_nr_running := by
  cases head <;> simp [enqueue_grr_entity, set_grr_nr_running, list_add, list_add_tail, set_queue]

end frame

/-! ## Counting the linked tasks -/

/-- Distinct task pointers are fewer than the values of a machine word. -/
theorem length_lt_of_nodup_ptr (l : List Nat) (hnd : l.Nodup)
    (hptr : ∀ x ∈ l, is_task_ptr x = true) : l.length < ULONG_SIZE := by
  have hsub : l.toFinset ⊆ Finset.Ioo 0 ULONG_SIZE := by
    intro x hx
    have := hptr x (List.mem_toFinset.mp hx)
    simp [is_task_ptr] at this
    simpa using this
  have hcard := Finset.card_le_card hsub
  rw [List.toFinset_card_of_nodup hnd, Nat.card_Ioo] at hcard
  have : 0 < ULONG_SIZE := by decide
  omega

theorem queue_inv_init (s : Sched) (c : Nat) : queue_inv (init_grr_rq s c) c := by
  simp [queue_inv, init_grr_rq]

theorem queue_inv_enqueue (s : Sched) (c p : Nat) (head : Bool) (h : queue_inv s c)
    (hp : is_task_ptr p = true) (hnot : p ∉ (s.rqs c).grr.queue) :
    queue_inv (enqueue_grr_entity s c p head) c := by
  obtain ⟨hnd, hptr, hcnt⟩ := h
  have hnd1 : ((enqueue_grr_entity s c p head).rqs c).grr.queue.Nodup := by
    rw [enqueue_grr_entity_queue_self]
    cases head
    · simpa [List.nodup_append] using ⟨hnd, hnot⟩
    · simpa using ⟨hnot, hnd⟩
  have hptr1 : ∀ x ∈ ((enqueue_grr_entity s c p head).rqs c).grr.queue, is_task_ptr x = true := by
    rw [enqueue_grr_entity_queue_self]
    intro x hx
    cases head
    · simp at hx
      rcases hx with hx | hx
      · exact hptr x hx
      · exact hx ▸ hp
    · simp at hx
      rcases hx with hx | hx
      · exact hx ▸ hp
      · exact hptr x hx
  refine ⟨hnd1, hptr1, ?_⟩
  have hlt := length_lt_of_nodup_ptr _ hnd1 hptr1
  rw [enqueue_grr_entity_count_self, hcnt]
  rw [enqueue_grr_entity_queue_self] at hlt ⊢
  cases head
  · simp at hlt ⊢
    exact Nat.mod_eq_of_lt hlt
  · simp at hlt ⊢
    exact Nat.mod_eq_of_lt hlt

theorem queue_inv_dequeue (s : Sched) (c p : Nat) (h : queue_inv s c)
    (hin : p ∈ (s.rqs c).grr.queue) : queue_inv (dequeue_grr_entity s c p) c := by
  obtain ⟨hnd, hptr, hcnt⟩ := h
  have hlt := length_lt_of_nodup_ptr _ hnd hptr
  have hpos : 0 < (s.rqs c).grr.queue.length := List.length_pos_of_mem hin
  refine ⟨?_, ?_, ?_⟩
  · rw [dequeue_grr_entity_queue]; exact hnd.erase p
  · rw [dequeue_grr_entity_queue]
    intro x hx; exact hptr x (List.mem_of_mem_erase hx)
  · rw [dequeue_grr_entity_count_self, dequeue_grr_entity_queue, hcnt,
      List.length_erase_of_mem hin]
    rw [ulong_dec, Nat.mod_eq_of_lt hlt, if_neg (by omega)]

theorem queue_inv_run (c : Nat) (ops : List queue_op) :
    ∀ s : Sched, queue_inv s c → queue_ops_valid c s ops = true →
      queue_inv (run_queue_ops c s ops) c := by
  induction ops with
  | nil => intro s h _; simpa [run_queue_ops] using h
  | cons op ops ih =>
    intro s h hv
    cases op with
    | enqueue p head =>
      simp [queue_ops_valid] at hv
      obtain ⟨⟨hp, hnot⟩, hrest⟩ := hv
      exact ih _ (queue_inv_enqueue s c p head h hp hnot) hrest
    | dequeue p =>
      simp [queue_ops_valid] at hv
      obtain ⟨hin, hrest⟩ := hv
      exact ih _ (queue_inv_dequeue s c p h hin) hrest

theorem queue_ops_valid_take (c : Nat) (ops : List queue_op) :
    ∀ (s : Sched) (k : Nat), queue_ops_valid c s ops = true →
      queue_ops_valid c s (ops.take k) = true := by
  induction ops with
  | nil => intro s k h; simpa using h
  | cons op ops ih =>
    intro s k h
    cases k with
    | zero => simp [queue_ops_valid]
    | succ k =>
      cases op with
      | enqueue p head =>
        simp [queue_ops_valid] at h ⊢
        exact ⟨h.1, ih _ k h.2⟩
      | dequeue p =>
        simp [queue_ops_valid] at h ⊢
        exact ⟨h.1, ih _ k h.2⟩

section tickframe

variable (K : Kconfig) (s : Sched) (c c1 p x : Nat)

@[simp] theorem update_curr_grr_rqs : (update_curr_grr K s c).rqs = s.rqs := by
  unfold update_curr_grr; dsimp only; split <;> rfl

@[simp] theorem update_curr_grr_cpu_online :
    (update_curr_grr K s c).cpu_online = s.cpu_online := by
  unfold update_curr_grr; dsimp only; split <;> rfl

/-- Accounting touches nothing of a task but its `se`. -/
theorem update_curr_grr_tasks :
    (update_curr_grr K s c).tasks x
      = { s.tasks x with se := ((update_curr_grr K s c).tasks x).se } := by
  unfold update_curr_grr; dsimp only
  split
  · rfl
  · by_cases h : x = (s.rqs c).curr
    · subst h; simp
    · simp [h]

@[simp] theorem update_curr_grr_grr :
    ((update_curr_grr K s c).tasks x).grr = (s.tasks x).grr := by
  rw [update_curr_grr_tasks]

@[simp] theorem update_curr_grr_need_resched :
    ((update_curr_grr K s c).tasks x).need_resched = (s.tasks x).need_resched := by
  rw [update_curr_grr_tasks]

@[simp] theorem update_curr_grr_cpu :
    ((update_curr_grr K s c).tasks x).cpu = (s.tasks x).cpu := by
  rw [update_curr_grr_tasks]

@[simp] theorem update_curr_grr_cpus_allowed :
    ((update_curr_grr K s c).tasks x).cpus_allowed = (s.tasks x).cpus_allowed := by
  rw [update_curr_grr_tasks]

@[simp] theorem update_curr_grr_on_cpu :
    ((update_curr_grr K s c).tasks x).on_cpu = (s.tasks x).on_cpu := by
  rw [update_curr_grr_tasks]

@[simp] theorem watchdog_rqs : (watchdog K s p).rqs = s.rqs := by
  unfold watchdog; dsimp only; split
  · split <;> rfl
  · rfl

@[simp] theorem watchdog_cpu_online : (watchdog K s p).cpu_online = s.cpu_online := by
  unfold watchdog; dsimp only; split
  · split <;> rfl
  · rfl

@[simp] theorem watchdog_time_slice :
    ((watchdog K s p).tasks x).grr.time_slice = (s.tasks x).grr.time_slice := by
  unfold watchdog; dsimp only
  by_cases h : x = p
  · subst h; split
    · split <;> simp
    · rfl
  · split
    · split <;> simp [h]
    · rfl

@[simp] theorem watchdog_need_resched :
    ((watchdog K s p).tasks x).need_resched = (s.tasks x).need_resched := by
  unfold watchdog; dsimp only
  by_cases h : x = p
  · subst h; split
    · split <;> simp
    · rfl
  · split
    · split <;> simp [h]
    · rfl

/-- The time slice of every task after a tick on `p`. -/
theorem task_tick_grr_time_slice :
    ((task_tick_grr K s c p).tasks x).grr.time_slice
      = if x = p then
          (if uint_dec (s.tasks p).grr.time_slice = 0 then K.GRR_TIMESLICE
            else uint_dec (s.tasks p).grr.time_slice)
        else (s.tasks x).grr.time_slice := by
  rw [task_tick_grr]; simp only []
  simp only [watchdog_time_slice, update_curr_grr_grr]
  by_cases hx : x = p
  · subst hx
    by_cases h0 : uint_dec (s.tasks x).grr.time_slice = 0
    · simp [h0]
      split <;> simp [resched_task, requeue_task_grr, list_move_tail, list_add_tail, set_queue]
    · simp [h0]
  · by_cases h0 : uint_dec (s.tasks p).grr.time_slice = 0
    · simp [h0, hx]
      split <;> simp [resched_task, requeue_task_grr, list_move_tail, list_add_tail, set_queue, hx]
    · simp [h0, hx]

/-- A tick that does not use up the slice leaves the queues alone. -/
theorem task_tick_grr_rqs_running (h : uint_dec (s.tasks p).grr.time_slice ≠ 0) :
    (task_tick_grr K s c p).rqs = s.rqs := by
  rw [task_tick_grr]; simp only []
  simp [h]

/-- A tick that does not use up the slice requests no reschedule. -/
theorem task_tick_grr_need_resched_running (h : uint_dec (s.tasks p).grr.time_slice ≠ 0) :
    ((task_tick_grr K s c p).tasks x).need_resched = (s.tasks x).need_resched := by
  rw [task_tick_grr]; simp only []
  by_cases hx : x = p
  · subst hx; simp [h]
  · simp [h, hx]

/-- A tick on a queue of fewer than two tasks leaves the queues alone. -/
theorem task_tick_grr_rqs_alone (h : (s.rqs c).grr.queue.length < 2) :
    (task_tick_grr K s c p).rqs = s.rqs := by
  rw [task_tick_grr]; simp only []
  have h2 : ¬ 2 ≤ (s.rqs c).grr.queue.length := by omega
  split
  · simp
  · simp [h2]

/-- A tick on a queue of fewer than two tasks requests no reschedule. -/
theorem task_tick_grr_need_resched_alone (h : (s.rqs c).grr.queue.length < 2) :
    ((task_tick_grr K s c p).tasks x).need_resched = (s.tasks x).need_resched := by
  rw [task_tick_grr]; simp only []
  have h2 : ¬ 2 ≤ (s.rqs c).grr.queue.length := by omega
  by_cases hx : x = p
  · subst hx; split
    · simp
    · simp [h2]
  · split
    · simp [hx]
    · simp [h2, hx]

/-- The queues after a tick that uses up the slice on a queue of two tasks or more. -/
theorem task_tick_grr_queue_expire (h0 : uint_dec (s.tasks p).grr.time_slice = 0)
    (h2 : 2 ≤ (s.rqs c).grr.queue.length) :
    ((task_tick_grr K s c p).rqs c1).grr.queue
      = if c1 = c then (s.rqs c).grr.queue.erase p ++ [p]
        else (s.rqs c1).grr.queue.erase p := by
  rw [task_tick_grr]; simp only []
  by_cases hc : c1 = c
  · subst hc
    simp [h0, h2, resched_task, requeue_task_grr, list_move_tail, list_add_tail, set_queue]
  · simp [h0, h2, hc, resched_task, requeue_task_grr, list_move_tail, list_add_tail, set_queue]

/-- A tick never changes a running count. -/
theorem task_tick_grr_count :
    ((task_tick_grr K s c p).rqs c1).grr.grr_nr_running = (s.rqs c1).grr.grr_nr_running := by
  rw [task_tick_grr]; simp only []
  split
  · simp
  · split
    · by_cases hc : c1 = c
      · subst hc
        simp [resched_task, requeue_task_grr, list_move_tail, list_add_tail, set_queue]
      · simp [hc, resched_task, requeue_task_grr, list_move_tail, list_add_tail, set_queue]
    · simp

/-- A tick that uses up the slice on a queue of two tasks or more requests a reschedule
of the task. -/
theorem task_tick_grr_need_resched_expire (h0 : uint_dec (s.tasks p).grr.time_slice = 0)
    (h2 : 2 ≤ (s.rqs c).grr.queue.length) :
    ((task_tick_grr K s c p).tasks p).need_resched = true := by
  rw [task_tick_grr]; simp only []
  simp [h0, h2, resched_task, requeue_task_grr, list_move_tail, list_add_tail, set_queue]

end tickframe
/-! ## Round robin -/

theorem uint_dec_of_pos (j : Nat) (h1 : 1 ≤ j) (h2 : j < UINT_SIZE) : uint_dec j = j - 1 := by
  rw [uint_dec, Nat.mod_eq_of_lt h2, if_neg (by omega)]

/-- A task with `j` ticks left at the head of a queue of two or more is requeued at the
tail by exactly the `j`-th tick. -/
theorem tick_until_requeued_spec (K : Kconfig) (c a : Nat) (rest : List Nat)
    (hrest : rest ≠ []) (hnot : a ∉ rest) :
    ∀ (j fuel : Nat) (t : Sched), 1 ≤ j → j < UINT_SIZE → j ≤ fuel →
      (t.rqs c).grr.queue = a :: rest → (t.tasks a).grr.time_slice = j →
      ∃ t', tick_until_requeued K c a fuel t = some (j, t')
        ∧ (t'.rqs c).grr.queue = rest ++ [a]
        ∧ (t'.rqs c).grr.grr_nr_running = (t.rqs c).grr.grr_nr_running
        ∧ (∀ x, x ≠ a → (t'.tasks x).grr.time_slice = (t.tasks x).grr.time_slice)
        ∧ (t'.tasks a).grr.time_slice = K.GRR_TIMESLICE
        ∧ (t'.tasks a).need_resched = true := by
  intro j
  induction j with
  | zero => intro fuel t h1; omega
  | succ j ih =>
    intro fuel t _ hlt hfuel hq hts
    obtain ⟨fuel, rfl⟩ : ∃ f, fuel = f + 1 := ⟨fuel - 1, by omega⟩
    have hdec : uint_dec (t.tasks a).grr.time_slice = j := by
      rw [hts, uint_dec_of_pos (j + 1) (by omega) hlt]; rfl
    have hlen : 2 ≤ (t.rqs c).grr.queue.length := by
      rw [hq]
      have := List.length_pos_of_ne_nil hrest
      simp; omega
    by_cases hj : j = 0
    · -- the slice is used up by this tick
      subst hj
      have hqueue : ((task_tick_grr K t c a).rqs c).grr.queue = rest ++ [a] := by
        rw [task_tick_grr_queue_expire K t c c a hdec hlen, if_pos rfl, hq]
        simp
      have hhead : ((task_tick_grr K t c a).rqs c).grr.queue.head? ≠ some a := by
        rw [hqueue]
        cases rest with
        | nil => exact absurd rfl hrest
        | cons b rest =>
          simp
          intro hb
          exact hnot (hb ▸ List.mem_cons_self _ _)
      refine ⟨task_tick_grr K t c a, ?_, hqueue, task_tick_grr_count K t c c a, ?_, ?_,
        task_tick_grr_need_resched_expire K t c a hdec hlen⟩
      · simp only [tick_until_requeued]
        rw [if_pos hhead]
      · intro x hx
        rw [task_tick_grr_time_slice, if_neg hx]
      · rw [task_tick_grr_time_slice, if_pos rfl, if_pos hdec]
    · -- the task keeps running
      have hdec0 : uint_dec (t.tasks a).grr.time_slice ≠ 0 := by rw [hdec]; exact hj
      have hrqs := task_tick_grr_rqs_running K t c a hdec0
      have hts1 : ((task_tick_grr K t c a).tasks a).grr.time_slice = j := by
        rw [task_tick_grr_time_slice, if_pos rfl, if_neg hdec0, hdec]
      obtain ⟨t', hrun, hq', hcnt', hothers, hself, hres⟩ :=
        ih fuel (task_tick_grr K t c a) (by omega) (by omega) (by omega)
          (by rw [hrqs]; exact hq) hts1
      refine ⟨t', ?_, hq', by rw [hcnt', hrqs], ?_, hself, hres⟩
      · simp only [tick_until_requeued]
        rw [hrqs, hq, hrun]
        simp
      · intro x hx
        rw [hothers x hx, task_tick_grr_time_slice, if_neg hx]

/-- One turn runs the head of the queue for exactly `GRR_TIMESLICE` ticks and leaves the
queue rotated by one. -/
theorem rr_turn_spec (K : Kconfig) (c fuel a : Nat) (rest : List Nat) (s : Sched)
    (hTS1 : 1 ≤ K.GRR_TIMESLICE) (hTS2 : K.GRR_TIMESLICE < UINT_SIZE)
    (hfuel : K.GRR_TIMESLICE ≤ fuel) (hrest : rest ≠ []) (hnd : (a :: rest).Nodup)
    (hinv : rr_inv K s c (a :: rest)) :
    ∃ s', rr_turn K c fuel s
        = some ({ task := a, ticks := K.GRR_TIMESLICE, resched := true }, s')
      ∧ rr_inv K s' c (rest ++ [a]) := by
  obtain ⟨hq, hcnt, hall⟩ := hinv
  have ha : a ≠ 0 := (hall a (List.mem_cons_self _ _)).1
  have hnot : a ∉ rest := (List.nodup_cons.mp hnd).1
  -- the state in which the picked task is current
  let s1 : Sched :=
    set_task s a { s.tasks a with se := { (s.tasks a).se with exec_start := (s.rqs c).clock } }
  have hpick : pick_next_task_grr s c = some (some a, s1) := by
    simp only [pick_next_task_grr]
    rw [if_neg hcnt, hq]
    simp [ha, s1]
  let s2 : Sched := rr_make_current s1 c a
  have hq2 : (s2.rqs c).grr.queue = a :: rest := by simp [s2, s1, rr_make_current, hq]
  have hcnt2 : (s2.rqs c).grr.grr_nr_running = (s.rqs c).grr.grr_nr_running := by
    simp [s2, s1, rr_make_current]
  have hts2 : ∀ x, (s2.tasks x).grr.time_slice = (s.tasks x).grr.time_slice := by
    intro x
    by_cases hx : x = a
    · subst hx; simp [s2, s1, rr_make_current]
    · simp [s2, s1, rr_make_current, hx]
  obtain ⟨t', hrun, hq', hcnt', hothers, hself, hres⟩ :=
    tick_until_requeued_spec K c a rest hrest hnot K.GRR_TIMESLICE fuel s2 hTS1 hTS2 hfuel hq2
      (by rw [hts2]; exact (hall a (List.mem_cons_self _ _)).2)
  refine ⟨t', ?_, hq', by rw [hcnt', hcnt2]; exact hcnt, ?_⟩
  · simp only [rr_turn]
    rw [hpick]
    simp only []
    rw [hrun]
    simp [hres]
  · intro x hx
    have hx' : x ∈ a :: rest := by
      simp at hx ⊢
      tauto
    refine ⟨(hall x hx').1, ?_⟩
    by_cases hxa : x = a
    · subst hxa; exact hself
    · rw [hothers x hxa, hts2]; exact (hall x hx').2

/-- The log of the first `m` turns: turn `i` runs the head of the queue rotated `i` times,
for `GRR_TIMESLICE` ticks, and ends with a reschedule request. -/
theorem rr_run_spec (K : Kconfig) (c fuel : Nat)
    (hTS1 : 1 ≤ K.GRR_TIMESLICE) (hTS2 : K.GRR_TIMESLICE < UINT_SIZE)
    (hfuel : K.GRR_TIMESLICE ≤ fuel) :
    ∀ (m : Nat) (q : List Nat) (s : Sched), 2 ≤ q.length → q.Nodup → rr_inv K s c q →
      ∃ s', rr_run K c fuel m s
          = some ((List.range m).map (fun i =>
              { task := (q.rotate i).headI, ticks := K.GRR_TIMESLICE, resched := true }), s')
        ∧ rr_inv K s' c (q.rotate m) := by
  intro m
  induction m with
  | zero =>
    intro q s _ _ hinv
    exact ⟨s, by simp [rr_run], by simpa using hinv⟩
  | succ m ih =>
    intro q s hlen hnd hinv
    cases q with
    | nil => simp at hlen
    | cons a rest =>
      have hrest : rest ≠ [] := by
        intro h; subst h; simp at hlen
      obtain ⟨s1, hturn, hinv1⟩ := rr_turn_spec K c fuel a rest s hTS1 hTS2 hfuel hrest hnd hinv
      have hrot1 : (a :: rest).rotate 1 = rest ++ [a] := by simp [List.rotate_cons_succ]
      have hnd1 : (rest ++ [a]).Nodup := by
        rw [← hrot1]; exact List.nodup_rotate.mpr hnd
      have hlen1 : 2 ≤ (rest ++ [a]).length := by simpa using hlen
      obtain ⟨s2, hrun, hinv2⟩ := ih (rest ++ [a]) s1 hlen1 hnd1 hinv1
      refine ⟨s2, ?_, ?_⟩
      · simp only [rr_run]
        rw [hturn]
        simp only []
        rw [hrun]
        simp only [List.range_succ_eq_map, List.map_cons, List.map_map]
        have hmap :
            List.map ((fun i => (⟨((a :: rest).rotate i).headI, K.GRR_TIMESLICE, true⟩ :
                rr_turn_log)) ∘ Nat.succ) (List.range m)
            = List.map (fun i => ⟨((rest ++ [a]).rotate i).headI, K.GRR_TIMESLICE, true⟩)
                (List.range m) := by
          apply List.map_congr_left
          intro i _
          simp only [Function.comp]
          rw [← hrot1, List.rotate_rotate, Nat.add_comm]
        rw [hmap]
        simp
      · rw [← hrot1, List.rotate_rotate, Nat.add_comm] at hinv2
        exact hinv2

/-- The head of a rotated list is the entry of the list at the rotation count, taken
cyclically. -/
theorem rotate_headI_eq_getD (q : List Nat) (i : Nat) (h : q ≠ []) :
    (q.rotate i).headI = q.getD (i % q.length) 0 := by
  have hlen : 0 < q.length := List.length_pos_of_ne_nil h
  have hlen' : 0 < (q.rotate i).length := by simpa using hlen
  have h1 : (q.rotate i)[0]? = q[i % q.length]? := by
    rw [List.getElem?_rotate hlen]; simp
  cases hq : q.rotate i with
  | nil => simp [hq] at hlen'
  | cons a l =>
    rw [hq] at h1
    simp at h1
    simp [List.getD, ← h1]

/-! ## Core selection -/

theorem select_step_of_no_skip (K : Kconfig) (s : Sched) (p orig : Nat) (acc : Nat × Nat)
    (i : Nat) (hskip : select_skip_group K s p orig = false) :
    select_step K s p orig acc i
      = if (s.tasks p).cpus_allowed i = true ∧ (s.rqs i).grr.grr_nr_running < acc.1 then
          ((s.rqs i).grr.grr_nr_running, i)
        else acc := by
  simp only [select_step, hskip]
  by_cases ha : (s.tasks p).cpus_allowed i = true
  · by_cases hc : (s.rqs i).grr.grr_nr_running < acc.1 <;> simp [ha, hc]
  · simp [ha]

theorem select_step_of_skip (K : Kconfig) (s : Sched) (p orig : Nat) (acc : Nat × Nat)
    (i : Nat) (hskip : select_skip_group K s p orig = true) :
    select_step K s p orig acc i = acc := by
  simp [select_step, hskip]

theorem select_skip_group_of_nogroups (K : Kconfig) (s : Sched) (p orig : Nat)
    (hg : K.CONFIG_GRR_GROUPS = false) : select_skip_group K s p orig = false := by
  simp [select_skip_group, hg]

/-- What the scan returns on an ascending list of CPUs when the group test lets every CPU
through: the pair it started from if no allowed CPU has a smaller count, and otherwise
the first allowed CPU with the least count. -/
theorem select_scan_spec (K : Kconfig) (s : Sched) (p orig : Nat)
    (hskip : select_skip_group K s p orig = false) (L : List Nat) :
    L.Pairwise (· < ·) → ∀ (v0 c0 : Nat),
      (∀ i ∈ L, (s.tasks p).cpus_allowed i = true →
          (L.foldl (select_step K s p orig) (v0, c0)).1 ≤ (s.rqs i).grr.grr_nr_running)
      ∧ (((L.foldl (select_step K s p orig) (v0, c0)) = (v0, c0)
            ∧ ∀ i ∈ L, (s.tasks p).cpus_allowed i = true → v0 ≤ (s.rqs i).grr.grr_nr_running)
          ∨ ((L.foldl (select_step K s p orig) (v0, c0)).1 < v0
            ∧ (L.foldl (select_step K s p orig) (v0, c0)).2 ∈ L
            ∧ (s.tasks p).cpus_allowed (L.foldl (select_step K s p orig) (v0, c0)).2 = true
            ∧ (s.rqs (L.foldl (select_step K s p orig) (v0, c0)).2).grr.grr_nr_running
                = (L.foldl (select_step K s p orig) (v0, c0)).1
            ∧ ∀ i ∈ L, (s.tasks p).cpus_allowed i = true →
                (s.rqs i).grr.grr_nr_running = (L.foldl (select_step K s p orig) (v0, c0)).1 →
                (L.foldl (select_step K s p orig) (v0, c0)).2 ≤ i)) := by
  induction L with
  | nil =>
    intro _ v0 c0
    simp
  | cons a L ih =>
    intro hs v0 c0
    have hsL : L.Pairwise (· < ·) := (List.pairwise_cons.mp hs).2
    have haL : ∀ i ∈ L, a < i := (List.pairwise_cons.mp hs).1
    simp only [List.foldl_cons]
    rw [select_step_of_no_skip K s p orig (v0, c0) a hskip]
    by_cases hcond : (s.tasks p).cpus_allowed a = true ∧ (s.rqs a).grr.grr_nr_running < v0
    · rw [if_pos hcond]
      obtain ⟨hmin, hcase⟩ := ih hsL (s.rqs a).grr.grr_nr_running a
      rcases hcase with ⟨heq, hall⟩ | ⟨hlt, hmem, hallow, hcnt, hfirst⟩
      · rw [heq] at hmin ⊢
        refine ⟨?_, Or.inr ⟨hcond.2, List.mem_cons_self _ _, hcond.1, rfl, ?_⟩⟩
        · intro i hi hal
          rcases List.mem_cons.mp hi with rfl | hi
          · exact le_refl _
          · exact hall i hi hal
        · intro i hi _ _
          rcases List.mem_cons.mp hi with rfl | hi
          · exact le_refl _
          · exact le_of_lt (haL i hi)
      · refine ⟨?_, Or.inr ⟨lt_trans hlt hcond.2, List.mem_cons_of_mem _ hmem, hallow, hcnt, ?_⟩⟩
        · intro i hi hal
          rcases List.mem_cons.mp hi with rfl | hi
          · exact le_of_lt hlt
          · exact hmin i hi hal
        · intro i hi hal hc
          rcases List.mem_cons.mp hi with rfl | hi
          · omega
          · exact hfirst i hi hal hc
    · rw [if_neg hcond]
      obtain ⟨hmin, hcase⟩ := ih hsL v0 c0
      have ha : (s.tasks p).cpus_allowed a = true → v0 ≤ (s.rqs a).grr.grr_nr_running := by
        intro hal
        by_contra hlt
        exact hcond ⟨hal, by omega⟩
      rcases hcase with ⟨heq, hall⟩ | ⟨hlt, hmem, hallow, hcnt, hfirst⟩
      · rw [heq] at hmin ⊢
        refine ⟨?_, Or.inl ⟨rfl, ?_⟩⟩
        · intro i hi hal
          rcases List.mem_cons.mp hi with rfl | hi
          · exact ha hal
          · exact hall i hi hal
        · intro i hi hal
          rcases List.mem_cons.mp hi with rfl | hi
          · exact ha hal
          · exact hall i hi hal
      · refine ⟨?_, Or.inr ⟨hlt, List.mem_cons_of_mem _ hmem, hallow, hcnt, ?_⟩⟩
        · intro i hi hal
          rcases List.mem_cons.mp hi with rfl | hi
          · have := ha hal
            omega
          · exact hmin i hi hal
        · intro i hi hal hc
          rcases List.mem_cons.mp hi with rfl | hi
          · have := ha hal
            omega
          · exact hfirst i hi hal hc

/-- The scan keeps the pair it started from when the group test holds every CPU back. -/
theorem select_scan_of_skip (K : Kconfig) (s : Sched) (p orig : Nat)
    (hskip : select_skip_group K s p orig = true) (L : List Nat) (acc : Nat × Nat) :
    L.foldl (select_step K s p orig) acc = acc := by
  induction L with
  | nil => rfl
  | cons a L ih => rw [List.foldl_cons, select_step_of_skip K s p orig acc a hskip, ih]

theorem online_cpus_sorted (K : Kconfig) (s : Sched) : (online_cpus K s).Pairwise (· < ·) :=
  List.Pairwise.filter _ (List.pairwise_lt_range _)

theorem mem_online_cpus (K : Kconfig) (s : Sched) (i : Nat) :
    i ∈ online_cpus K s ↔ i < K.nr_cpu_ids ∧ s.cpu_online i = true := by
  simp [online_cpus]

/-- The scan of `select_task_rq_grr` with groups disabled, in the words of C5. -/
theorem select_task_rq_grr_nogroups_spec (K : Kconfig) (s : Sched) (p : Nat)
    (hg : K.CONFIG_GRR_GROUPS = false) (hn : (s.tasks p).grr.nr_cpus_allowed ≠ 1) :
    ((∀ i ∈ online_cpus K s, (s.tasks p).cpus_allowed i = true →
          (s.rqs (s.tasks p).cpu).grr.grr_nr_running ≤ (s.rqs i).grr.grr_nr_running) →
        select_task_rq_grr K s p = (s.tasks p).cpu)
      ∧ ((∃ i ∈ online_cpus K s, (s.tasks p).cpus_allowed i = true
            ∧ (s.rqs i).grr.grr_nr_running < (s.rqs (s.tasks p).cpu).grr.grr_nr_running) →
          select_task_rq_grr K s p ∈ online_cpus K s
          ∧ (s.tasks p).cpus_allowed (select_task_rq_grr K s p) = true
          ∧ (∀ i ∈ online_cpus K s, (s.tasks p).cpus_allowed i = true →
              (s.rqs (select_task_rq_grr K s p)).grr.grr_nr_running
                ≤ (s.rqs i).grr.grr_nr_running)
          ∧ (∀ i ∈ online_cpus K s, (s.tasks p).cpus_allowed i = true →
              (s.rqs i).grr.grr_nr_running
                = (s.rqs (select_task_rq_grr K s p)).grr.grr_nr_running →
              select_task_rq_grr K s p ≤ i)) := by
  have hskip := select_skip_group_of_nogroups K s p (s.tasks p).cpu hg
  obtain ⟨hmin, hcase⟩ := select_scan_spec K s p (s.tasks p).cpu hskip (online_cpus K s)
    (online_cpus_sorted K s) (s.rqs (s.tasks p).cpu).grr.grr_nr_running (s.tasks p).cpu
  have hsel : select_task_rq_grr K s p
      = ((online_cpus K s).foldl (select_step K s p (s.tasks p).cpu)
          ((s.rqs (s.tasks p).cpu).grr.grr_nr_running, (s.tasks p).cpu)).2 := by
    simp only [select_task_rq_grr]
    rw [if_neg hn]
  rw [hsel]
  constructor
  · intro hall
    rcases hcase with ⟨heq, _⟩ | ⟨hlt, hmem, hallow, hcnt, _⟩
    · rw [heq]
    · have := hall _ hmem hallow
      omega
  · rintro ⟨i, hi, hal, hlt⟩
    rcases hcase with ⟨heq, hall⟩ | ⟨_, hmem, hallow, hcnt, hfirst⟩
    · have := hall i hi hal
      omega
    · refine ⟨hmem, hallow, ?_, ?_⟩
      · intro j hj hjal
        rw [hcnt]; exact hmin j hj hjal
      · intro j hj hjal hjc
        rw [hcnt] at hjc
        exact hfirst j hj hjal hjc
/-! ## The balancer's scan -/

section lbscan

variable (K : Kconfig) (s : Sched) (j : Nat)

theorem lb_scan_step_skip (st : lb_scan) (i : Nat) (h : lb_eligible K s j i = false) :
    lb_scan_step K s j st i = st := by
  simp [lb_scan_step, h]

theorem lb_scan_step_take (st : lb_scan) (i : Nat) (h : lb_eligible K s j i = true) :
    lb_scan_step K s j st i
      = { cpus_online := st.cpus_online + 1
          maxload :=
            if (s.rqs i).grr.grr_nr_running > st.maxload.nr_running then
              { nr_running := (s.rqs i).grr.grr_nr_running, rq := some i }
            else st.maxload
          minload :=
            if (s.rqs i).grr.grr_nr_running < st.minload.nr_running then
              { nr_running := (s.rqs i).grr.grr_nr_running, rq := some i }
            else st.minload } := by
  simp [lb_scan_step, h]

/-- The scan counts the CPUs it looks at. -/
theorem lb_scan_cpus_online (L : List Nat) :
    ∀ st : lb_scan, (L.foldl (lb_scan_step K s j) st).cpus_online
      = st.cpus_online + (L.filter (lb_eligible K s j)).length := by
  induction L with
  | nil => intro st; simp
  | cons a L ih =>
    intro st
    rw [List.foldl_cons, ih]
    by_cases h : lb_eligible K s j a = true
    · rw [lb_scan_step_take K s j st a h, List.filter_cons_of_pos h]
      simp; omega
    · have h' : lb_eligible K s j a = false := by simpa using h
      rw [lb_scan_step_skip K s j st a h', List.filter_cons_of_neg h]

/-- The most loaded CPU of the scan: the record it started from if no CPU looked at has a
larger count, and otherwise the first CPU with the largest count. -/
theorem lb_scan_maxload (L : List Nat) :
    L.Pairwise (· < ·) → ∀ st : lb_scan,
      (∀ i ∈ L, lb_eligible K s j i = true →
          (s.rqs i).grr.grr_nr_running ≤ (L.foldl (lb_scan_step K s j) st).maxload.nr_running)
      ∧ (((L.foldl (lb_scan_step K s j) st).maxload = st.maxload)
          ∨ ∃ i ∈ L, lb_eligible K s j i = true
              ∧ (L.foldl (lb_scan_step K s j) st).maxload
                  = { nr_running := (s.rqs i).grr.grr_nr_running, rq := some i }
              ∧ st.maxload.nr_running < (s.rqs i).grr.grr_nr_running
              ∧ ∀ k ∈ L, lb_eligible K s j k = true →
                  (s.rqs k).grr.grr_nr_running = (s.rqs i).grr.grr_nr_running → i ≤ k) := by
  induction L with
  | nil => intro _ st; simp
  | cons a L ih =>
    intro hs st
    have hsL : L.Pairwise (· < ·) := (List.pairwise_cons.mp hs).2
    have haL : ∀ i ∈ L, a < i := (List.pairwise_cons.mp hs).1
    rw [List.foldl_cons]
    by_cases h : lb_eligible K s j a = true
    · obtain ⟨hmax, hcase⟩ := ih hsL (lb_scan_step K s j st a)
      rw [lb_scan_step_take K s j st a h] at hmax hcase ⊢
      simp only [] at hmax hcase ⊢
      by_cases hgt : (s.rqs a).grr.grr_nr_running > st.maxload.nr_running
      · simp only [if_pos hgt] at hmax hcase ⊢
        rcases hcase with heq | ⟨i, hi, hel, heq, hlt, hfirst⟩
        · refine ⟨?_, Or.inr ⟨a, List.mem_cons_self _ _, h, heq, hgt, ?_⟩⟩
          · intro i hi hel
            rcases List.mem_cons.mp hi with rfl | hi
            · rw [heq]
            · exact hmax i hi hel
          · intro k hk _ _
            rcases List.mem_cons.mp hk with rfl | hk
            · exact le_refl _
            · exact le_of_lt (haL k hk)
        · refine ⟨?_, Or.inr ⟨i, List.mem_cons_of_mem _ hi, hel, heq, by omega, ?_⟩⟩
          · intro k hk hkel
            rcases List.mem_cons.mp hk with rfl | hk
            · rw [heq]; exact le_of_lt hlt
            · exact hmax k hk hkel
          · intro k hk hkel hkc
            rcases List.mem_cons.mp hk with rfl | hk
            · omega
            · exact hfirst k hk hkel hkc
      · simp only [if_neg hgt] at hmax hcase ⊢
        rcases hcase with heq | ⟨i, hi, hel, heq, hlt, hfirst⟩
        · refine ⟨?_, Or.inl heq⟩
          intro i hi hel
          rcases List.mem_cons.mp hi with rfl | hi
          · rw [heq]; omega
          · exact hmax i hi hel
        · refine ⟨?_, Or.inr ⟨i, List.mem_cons_of_mem _ hi, hel, heq, hlt, ?_⟩⟩
          · intro k hk hkel
            rcases List.mem_cons.mp hk with rfl | hk
            · rw [heq]; simp only []; omega
            · exact hmax k hk hkel
          · intro k hk hkel hkc
            rcases List.mem_cons.mp hk with rfl | hk
            · omega
            · exact hfirst k hk hkel hkc
    · have h' : lb_eligible K s j a = false := by simpa using h
      rw [lb_scan_step_skip K s j st a h']
      obtain ⟨hmax, hcase⟩ := ih hsL st
      refine ⟨?_, ?_⟩
      · intro i hi hel
        rcases List.mem_cons.mp hi with rfl | hi
        · rw [h'] at hel; exact absurd hel (by simp)
        · exact hmax i hi hel
      · rcases hcase with heq | ⟨i, hi, hel, heq, hlt, hfirst⟩
        · exact Or.inl heq
        · refine Or.inr ⟨i, List.mem_cons_of_mem _ hi, hel, heq, hlt, ?_⟩
          intro k hk hkel hkc
          rcases List.mem_cons.mp hk with rfl | hk
          · rw [h'] at hkel; exact absurd hkel (by simp)
          · exact hfirst k hk hkel hkc

/-- The least loaded CPU of the scan: the record it started from if no CPU looked at has a
smaller count, and otherwise the first CPU with the smallest count. -/
theorem lb_scan_minload (L : List Nat) :
    L.Pairwise (· < ·) → ∀ st : lb_scan,
      (∀ i ∈ L, lb_eligible K s j i = true →
          (L.foldl (lb_scan_step K s j) st).minload.nr_running ≤ (s.rqs i).grr.grr_nr_running)
      ∧ (L.foldl (lb_scan_step K s j) st).minload.nr_running ≤ st.minload.nr_running
      ∧ (((L.foldl (lb_scan_step K s j) st).minload = st.minload)
          ∨ ∃ i ∈ L, lb_eligible K s j i = true
              ∧ (L.foldl (lb_scan_step K s j) st).minload
                  = { nr_running := (s.rqs i).grr.grr_nr_running, rq := some i }
              ∧ (s.rqs i).grr.grr_nr_running < st.minload.nr_running
              ∧ ∀ k ∈ L, lb_eligible K s j k = true →
                  (s.rqs k).grr.grr_nr_running = (s.rqs i).grr.grr_nr_running → i ≤ k) := by
  induction L with
  | nil => intro _ st; simp
  | cons a L ih =>
    intro hs st
    have hsL : L.Pairwise (· < ·) := (List.pairwise_cons.mp hs).2
    have haL : ∀ i ∈ L, a < i := (List.pairwise_cons.mp hs).1
    rw [List.foldl_cons]
    by_cases h : lb_eligible K s j a = true
    · obtain ⟨hmin, hle, hcase⟩ := ih hsL (lb_scan_step K s j st a)
      rw [lb_scan_step_take K s j st a h] at hmin hle hcase ⊢
      simp only [] at hmin hle hcase ⊢
      by_cases hlt0 : (s.rqs a).grr.grr_nr_running < st.minload.nr_running
      · simp only [if_pos hlt0] at hmin hle hcase ⊢
        rcases hcase with heq | ⟨i, hi, hel, heq, hlt, hfirst⟩
        · refine ⟨?_, by rw [heq]; exact le_of_lt hlt0,
            Or.inr ⟨a, List.mem_cons_self _ _, h, heq, hlt0, ?_⟩⟩
          · intro i hi hel
            rcases List.mem_cons.mp hi with rfl | hi
            · rw [heq]
            · exact hmin i hi hel
          · intro k hk _ _
            rcases List.mem_cons.mp hk with rfl | hk
            · exact le_refl _
            · exact le_of_lt (haL k hk)
        · refine ⟨?_, by omega, Or.inr ⟨i, List.mem_cons_of_mem _ hi, hel, heq, by omega, ?_⟩⟩
          · intro k hk hkel
            rcases List.mem_cons.mp hk with rfl | hk
            · rw [heq]; exact le_of_lt hlt
            · exact hmin k hk hkel
          · intro k hk hkel hkc
            rcases List.mem_cons.mp hk with rfl | hk
            · omega
            · exact hfirst k hk hkel hkc
      · simp only [if_neg hlt0] at hmin hle hcase ⊢
        rcases hcase with heq | ⟨i, hi, hel, heq, hlt, hfirst⟩
        · refine ⟨?_, hle, Or.inl heq⟩
          intro i hi hel
          rcases List.mem_cons.mp hi with rfl | hi
          · rw [heq]; omega
          · exact hmin i hi hel
        · refine ⟨?_, hle, Or.inr ⟨i, List.mem_cons_of_mem _ hi, hel, heq, hlt, ?_⟩⟩
          · intro k hk hkel
            rcases List.mem_cons.mp hk with rfl | hk
            · rw [heq]; simp only []; omega
            · exact hmin k hk hkel
          · intro k hk hkel hkc
            rcases List.mem_cons.mp hk with rfl | hk
            · omega
            · exact hfirst k hk hkel hkc
    · have h' : lb_eligible K s j a = false := by simpa using h
      rw [lb_scan_step_skip K s j st a h']
      obtain ⟨hmin, hle, hcase⟩ := ih hsL st
      refine ⟨?_, hle, ?_⟩
      · intro i hi hel
        rcases List.mem_cons.mp hi with rfl | hi
        · rw [h'] at hel; exact absurd hel (by simp)
        · exact hmin i hi hel
      · rcases hcase with heq | ⟨i, hi, hel, heq, hlt, hfirst⟩
        · exact Or.inl heq
        · refine Or.inr ⟨i, List.mem_cons_of_mem _ hi, hel, heq, hlt, ?_⟩
          intro k hk hkel hkc
          rcases List.mem_cons.mp hk with rfl | hk
          · rw [h'] at hkel; exact absurd hkel (by simp)
          · exact hfirst k hk hkel hkc

theorem mem_lb_cpus (i : Nat) :
    i ∈ lb_cpus K s j ↔ i ∈ online_cpus K s ∧ lb_eligible K s j i = true := by
  simp [lb_cpus]

end lbscan
/-! ## Moving a task between two queues -/

section move

variable (K : Kconfig) (s : Sched) (c c1 p x src tgt : Nat)

@[simp] theorem dequeue_grr_entity_tasks : (dequeue_grr_entity s c p).tasks = s.tasks := by
  simp [dequeue_grr_entity, set_grr_nr_running]

@[simp] theorem dequeue_grr_entity_cpu_online :
    (dequeue_grr_entity s c p).cpu_online = s.cpu_online := by
  simp [dequeue_grr_entity, set_grr_nr_running]

@[simp] theorem enqueue_grr_entity_tasks (head : Bool) :
    (enqueue_grr_entity s c p head).tasks = s.tasks := by
  cases head <;> simp [enqueue_grr_entity, set_grr_nr_running, list_add, list_add_tail, set_queue]

@[simp] theorem enqueue_grr_entity_cpu_online (head : Bool) :
    (enqueue_grr_entity s c p head).cpu_online = s.cpu_online := by
  cases head <;> simp [enqueue_grr_entity, set_grr_nr_running, list_add, list_add_tail, set_queue]

@[simp] theorem list_del_init_foreground :
    ((list_del_init s p).rqs c).foreground = (s.rqs c).foreground := rfl

@[simp] theorem list_del_init_background :
    ((list_del_init s p).rqs c).background = (s.rqs c).background := rfl

theorem dequeue_grr_entity_flags :
    ((dequeue_grr_entity s c p).rqs c1).foreground = (s.rqs c1).foreground
      ∧ ((dequeue_grr_entity s c p).rqs c1).background = (s.rqs c1).background := by
  by_cases h : c1 = c
  · subst h; simp [dequeue_grr_entity, set_grr_nr_running]
  · simp [dequeue_grr_entity, set_grr_nr_running, h]

theorem enqueue_grr_entity_flags (head : Bool) :
    ((enqueue_grr_entity s c p head).rqs c1).foreground = (s.rqs c1).foreground
      ∧ ((enqueue_grr_entity s c p head).rqs c1).background = (s.rqs c1).background := by
  by_cases h : c1 = c
  · subst h
    cases head <;>
      simp [enqueue_grr_entity, set_grr_nr_running, list_add, list_add_tail, set_queue]
  · rw [enqueue_grr_entity_rq_other s c c1 p head h]
    exact ⟨rfl, rfl⟩

@[simp] theorem inc_nr_running_grr : ((inc_nr_running s c).rqs c1).grr = (s.rqs c1).grr := by
  by_cases h : c1 = c
  · subst h; simp [inc_nr_running]
  · simp [inc_nr_running, h]

@[simp] theorem dec_nr_running_grr : ((dec_nr_running s c).rqs c1).grr = (s.rqs c1).grr := by
  by_cases h : c1 = c
  · subst h; simp [dec_nr_running]
  · simp [dec_nr_running, h]

@[simp] theorem inc_nr_running_foreground :
    ((inc_nr_running s c).rqs c1).foreground = (s.rqs c1).foreground := by
  by_cases h : c1 = c
  · subst h; simp [inc_nr_running]
  · simp [inc_nr_running, h]

@[simp] theorem inc_nr_running_background :
    ((inc_nr_running s c).rqs c1).background = (s.rqs c1).background := by
  by_cases h : c1 = c
  · subst h; simp [inc_nr_running]
  · simp [inc_nr_running, h]

@[simp] theorem dec_nr_running_foreground :
    ((dec_nr_running s c).rqs c1).foreground = (s.rqs c1).foreground := by
  by_cases h : c1 = c
  · subst h; simp [dec_nr_running]
  · simp [dec_nr_running, h]

@[simp] theorem dec_nr_running_background :
    ((dec_nr_running s c).rqs c1).background = (s.rqs c1).background := by
  by_cases h : c1 = c
  · subst h; simp [dec_nr_running]
  · simp [dec_nr_running, h]

@[simp] theorem inc_nr_running_tasks : (inc_nr_running s c).tasks = s.tasks := rfl

@[simp] theorem dec_nr_running_tasks : (dec_nr_running s c).tasks = s.tasks := rfl

@[simp] theorem inc_nr_running_cpu_online : (inc_nr_running s c).cpu_online = s.cpu_online :=
  rfl

@[simp] theorem dec_nr_running_cpu_online : (dec_nr_running s c).cpu_online = s.cpu_online :=
  rfl

@[simp] theorem set_task_cpu_rqs : (set_task_cpu s p c).rqs = s.rqs := rfl

@[simp] theorem set_task_cpu_cpu_online : (set_task_cpu s p c).cpu_online = s.cpu_online := rfl

/-- With no flag set `enqueue_task_grr` is an enqueue at the tail. -/
theorem enqueue_task_grr_zero :
    enqueue_task_grr s c p 0 = inc_nr_running (enqueue_grr_entity s c p false) c := by
  simp [enqueue_task_grr, ENQUEUE_WAKEUP, ENQUEUE_HEAD]

/-- The move, spelled out. -/
theorem lb_move_eq :
    lb_move K s p src tgt
      = inc_nr_running
          (enqueue_grr_entity
            (set_task_cpu
              (dec_nr_running (dequeue_grr_entity (update_curr_grr K s src) src p) src) p tgt)
            tgt p false) tgt := by
  simp only [lb_move, activate_task, deactivate_task, dequeue_task_grr, enqueue_task_grr_zero]

/-- The queues after a move. -/
theorem lb_move_queue :
    ((lb_move K s p src tgt).rqs c).grr.queue
      = if c = tgt then (s.rqs c).grr.queue.erase p ++ [p]
        else (s.rqs c).grr.queue.erase p := by
  rw [lb_move_eq, inc_nr_running_grr]
  by_cases h : c = tgt
  · subst h
    rw [enqueue_grr_entity_queue_self, if_pos rfl]
    simp [dequeue_grr_entity_queue]
  · rw [enqueue_grr_entity_rq_other _ _ _ _ _ h, if_neg h]
    simp [dequeue_grr_entity_queue]

/-- The running counts after a move between two different CPUs. -/
theorem lb_move_count (hne : src ≠ tgt) :
    ((lb_move K s p src tgt).rqs c).grr.grr_nr_running
      = if c = src then ulong_dec (s.rqs c).grr.grr_nr_running
        else if c = tgt then ulong_inc (s.rqs c).grr.grr_nr_running
        else (s.rqs c).grr.grr_nr_running := by
  rw [lb_move_eq, inc_nr_running_grr]
  by_cases h : c = tgt
  · subst h
    have hcs : c ≠ src := fun h => hne h.symm
    rw [enqueue_grr_entity_count_self, if_neg hcs, if_pos rfl]
    simp [dequeue_grr_entity_count_other _ _ _ _ hcs]
  · rw [enqueue_grr_entity_rq_other _ _ _ _ _ h, if_neg h]
    by_cases h2 : c = src
    · subst h2
      simp [dequeue_grr_entity_count_self]
    · simp [dequeue_grr_entity_count_other _ _ _ _ h2, h2]

/-- A move leaves the group flags of every CPU alone. -/
theorem lb_move_flags :
    ((lb_move K s p src tgt).rqs c).foreground = (s.rqs c).foreground
      ∧ ((lb_move K s p src tgt).rqs c).background = (s.rqs c).background := by
  rw [lb_move_eq]
  simp [(enqueue_grr_entity_flags _ _ _ _ _).1, (enqueue_grr_entity_flags _ _ _ _ _).2,
    (dequeue_grr_entity_flags _ _ _ _).1, (dequeue_grr_entity_flags _ _ _ _).2]

/-- A move leaves the online mask alone. -/
theorem lb_move_cpu_online : (lb_move K s p src tgt).cpu_online = s.cpu_online := by
  rw [lb_move_eq]; simp

/-- The assigned CPU of every task after a move. -/
theorem lb_move_task_cpu :
    ((lb_move K s p src tgt).tasks x).cpu = if x = p then tgt else (s.tasks x).cpu := by
  rw [lb_move_eq]
  by_cases h : x = p
  · subst h; simp [set_task_cpu]
  · simp [set_task_cpu, h]

end move
/-! ## One pass of the balancer -/

section lbpass

variable (K : Kconfig) (s : Sched) (j : Nat) (mx mn : load)

/-- What the scan of group `j` has found when it ends. -/
theorem lb_scan_cpus_spec :
    (lb_scan_cpus K s j mx mn).cpus_online = (lb_cpus K s j).length
      ∧ (∀ i ∈ lb_cpus K s j,
          (s.rqs i).grr.grr_nr_running ≤ (lb_scan_cpus K s j mx mn).maxload.nr_running)
      ∧ ((lb_scan_cpus K s j mx mn).maxload = { nr_running := 0, rq := mx.rq }
          ∨ ∃ i ∈ lb_cpus K s j,
              (lb_scan_cpus K s j mx mn).maxload
                = { nr_running := (s.rqs i).grr.grr_nr_running, rq := some i }
              ∧ 0 < (s.rqs i).grr.grr_nr_running
              ∧ ∀ k ∈ lb_cpus K s j,
                  (s.rqs k).grr.grr_nr_running = (s.rqs i).grr.grr_nr_running → i ≤ k)
      ∧ (∀ i ∈ lb_cpus K s j,
          (lb_scan_cpus K s j mx mn).minload.nr_running ≤ (s.rqs i).grr.grr_nr_running)
      ∧ (lb_scan_cpus K s j mx mn).minload.nr_running ≤ MINLOAD_START
      ∧ ((lb_scan_cpus K s j mx mn).minload = { nr_running := MINLOAD_START, rq := mn.rq }
          ∨ ∃ i ∈ lb_cpus K s j,
              (lb_scan_cpus K s j mx mn).minload
                = { nr_running := (s.rqs i).grr.grr_nr_running, rq := some i }
              ∧ (s.rqs i).grr.grr_nr_running < MINLOAD_START
              ∧ ∀ k ∈ lb_cpus K s j,
                  (s.rqs k).grr.grr_nr_running = (s.rqs i).grr.grr_nr_running → i ≤ k) := by
  have hs := online_cpus_sorted K s
  obtain ⟨hmax, hmaxc⟩ := lb_scan_maxload K s j (online_cpus K s) hs
    { cpus_online := 0, maxload := { nr_running := 0, rq := mx.rq },
      minload := { nr_running := MINLOAD_START, rq := mn.rq } }
  obtain ⟨hmin, hminle, hminc⟩ := lb_scan_minload K s j (online_cpus K s) hs
    { cpus_online := 0, maxload := { nr_running := 0, rq := mx.rq },
      minload := { nr_running := MINLOAD_START, rq := mn.rq } }
  have hcnt := lb_scan_cpus_online K s j (online_cpus K s)
    { cpus_online := 0, maxload := { nr_running := 0, rq := mx.rq },
      minload := { nr_running := MINLOAD_START, rq := mn.rq } }
  refine ⟨?_, ?_, ?_, ?_, hminle, ?_⟩
  · simpa [lb_scan_cpus, lb_cpus] using hcnt
  · intro i hi
    obtain ⟨hi1, hi2⟩ := (mem_lb_cpus K s j i).mp hi
    exact hmax i hi1 hi2
  · rcases hmaxc with heq | ⟨i, hi, hel, heq, hlt, hfirst⟩
    · exact Or.inl heq
    · refine Or.inr ⟨i, (mem_lb_cpus K s j i).mpr ⟨hi, hel⟩, heq, hlt, ?_⟩
      intro k hk hkc
      obtain ⟨hk1, hk2⟩ := (mem_lb_cpus K s j k).mp hk
      exact hfirst k hk1 hk2 hkc
  · intro i hi
    obtain ⟨hi1, hi2⟩ := (mem_lb_cpus K s j i).mp hi
    exact hmin i hi1 hi2
  · rcases hminc with heq | ⟨i, hi, hel, heq, hlt, hfirst⟩
    · exact Or.inl heq
    · refine Or.inr ⟨i, (mem_lb_cpus K s j i).mpr ⟨hi, hel⟩, heq, hlt, ?_⟩
      intro k hk hkc
      obtain ⟨hk1, hk2⟩ := (mem_lb_cpus K s j k).mp hk
      exact hfirst k hk1 hk2 hkc

theorem minload_start_succ_mod (n : Nat) (h : n ≤ MINLOAD_START) :
    (n + 1) % ULONG_SIZE = n + 1 := by
  apply Nat.mod_eq_of_lt
  have : MINLOAD_START + 1 < ULONG_SIZE := by decide
  omega

/-- A pass over a group whose counts differ by at most one, none above
`MINLOAD_START + 1`, moves nothing, whatever the records `maxload` and `minload` hold when
it is entered. -/
theorem lb_pass_balanced
    (hbal : ∀ a ∈ lb_cpus K s j, ∀ b ∈ lb_cpus K s j,
      (s.rqs a).grr.grr_nr_running ≤ (s.rqs b).grr.grr_nr_running + 1)
    (hsmall : ∀ a ∈ lb_cpus K s j, (s.rqs a).grr.grr_nr_running ≤ MINLOAD_START + 1) :
    (∃ mx1 mn1, grr_load_balance_pass K s j mx mn = some (lb_flow.next s mx1 mn1))
      ∨ grr_load_balance_pass K s j mx mn = some (lb_flow.ret s) := by
  obtain ⟨_, _, hmaxc, _, hminle, hminc⟩ := lb_scan_cpus_spec K s j mx mn
  simp only [grr_load_balance_pass]
  by_cases h2 : (lb_scan_cpus K s j mx mn).cpus_online < 2
  · rw [if_pos h2]; exact Or.inr rfl
  rw [if_neg h2]
  have hno : ¬ (lb_scan_cpus K s j mx mn).maxload.nr_running
      > ((lb_scan_cpus K s j mx mn).minload.nr_running + 1) % ULONG_SIZE := by
    rw [minload_start_succ_mod _ hminle]
    rcases hmaxc with heq | ⟨i, hi, heq, _, _⟩
    · rw [heq]; simp
    · rw [heq]
      simp only []
      rcases hminc with hmeq | ⟨k, hk, hmeq, _, _⟩
      · rw [hmeq]
        have := hsmall i hi
        simp only []
        omega
      · rw [hmeq]
        have := hbal i hi k hk
        simp only []
        omega
  rw [if_neg hno]
  by_cases hg : K.CONFIG_GRR_GROUPS = true
  · rw [if_pos hg]; exact Or.inl ⟨_, _, rfl⟩
  · rw [if_neg hg]; exact Or.inr rfl

/-- The group loop moves nothing when every pass moves nothing. -/
theorem lb_loop_balanced (js : List Nat)
    (h : ∀ j ∈ js, ∀ mx mn : load,
      (∃ mx1 mn1, grr_load_balance_pass K s j mx mn = some (lb_flow.next s mx1 mn1))
        ∨ grr_load_balance_pass K s j mx mn = some (lb_flow.ret s)) :
    ∀ mx mn : load, lb_loop K js s mx mn = some s := by
  induction js with
  | nil => intro _ _; rfl
  | cons j js ih =>
    intro mx mn
    simp only [lb_loop]
    rcases h j (List.mem_cons_self _ _) mx mn with ⟨mx1, mn1, h1⟩ | h1
    · rw [h1]
      exact ih (fun k hk => h k (List.mem_cons_of_mem _ hk)) mx1 mn1
    · rw [h1]

theorem two_le_length_of_mem_ne (l : List Nat) (a b : Nat) (ha : a ∈ l) (hb : b ∈ l)
    (hab : a ≠ b) : 2 ≤ l.length := by
  cases l with
  | nil => simp at ha
  | cons x l =>
    cases l with
    | nil =>
      simp at ha hb
      exact absurd (ha.trans hb.symm) hab
    | cons y l => simp

/-- What the scan stores when `src` is the lowest-numbered CPU with the largest count,
`tgt` the lowest-numbered CPU with the smallest count, the count of `src` is not zero and
the count of `tgt` is below the start constant. -/
theorem lb_scan_cpus_found (src tgt : Nat)
    (hsrc : src ∈ lb_cpus K s j) (htgt : tgt ∈ lb_cpus K s j)
    (hmax : ∀ a ∈ lb_cpus K s j,
      (s.rqs a).grr.grr_nr_running ≤ (s.rqs src).grr.grr_nr_running)
    (hsrc_first : ∀ a ∈ lb_cpus K s j,
      (s.rqs a).grr.grr_nr_running = (s.rqs src).grr.grr_nr_running → src ≤ a)
    (hmin : ∀ a ∈ lb_cpus K s j,
      (s.rqs tgt).grr.grr_nr_running ≤ (s.rqs a).grr.grr_nr_running)
    (htgt_first : ∀ a ∈ lb_cpus K s j,
      (s.rqs a).grr.grr_nr_running = (s.rqs tgt).grr.grr_nr_running → tgt ≤ a)
    (hpos : 0 < (s.rqs src).grr.grr_nr_running)
    (hsmall : (s.rqs tgt).grr.grr_nr_running < MINLOAD_START) :
    (lb_scan_cpus K s j mx mn).maxload
        = { nr_running := (s.rqs src).grr.grr_nr_running, rq := some src }
      ∧ (lb_scan_cpus K s j mx mn).minload
        = { nr_running := (s.rqs tgt).grr.grr_nr_running, rq := some tgt } := by
  obtain ⟨_, hmaxb, hmaxc, hminb, _, hminc⟩ := lb_scan_cpus_spec K s j mx mn
  constructor
  · rcases hmaxc with heq | ⟨i, hi, heq, _, hfirst⟩
    · have := hmaxb src hsrc
      rw [heq] at this
      simp only [] at this
      omega
    · have h1 := hmaxb src hsrc
      rw [heq] at h1
      simp only [] at h1
      have h2 := hmax i hi
      have hc : (s.rqs i).grr.grr_nr_running = (s.rqs src).grr.grr_nr_running := by omega
      have hi1 := hfirst src hsrc hc.symm
      have hi2 := hsrc_first i hi hc
      have : i = src := by omega
      rw [heq, this]
  · rcases hminc with heq | ⟨i, hi, heq, _, hfirst⟩
    · have := hminb tgt htgt
      rw [heq] at this
      simp only [] at this
      omega
    · have h1 := hminb tgt htgt
      rw [heq] at h1
      simp only [] at h1
      have h2 := hmin i hi
      have hc : (s.rqs i).grr.grr_nr_running = (s.rqs tgt).grr.grr_nr_running := by omega
      have hi1 := hfirst tgt htgt hc.symm
      have hi2 := htgt_first i hi hc
      have : i = tgt := by omega
      rw [heq, this]

/-- A pass over a group whose most loaded CPU `src` holds at least two tasks more than
its least loaded CPU `tgt` (the lowest-numbered such CPUs) moves to `tgt` the first task
of the queue of `src` that `can_move_grr_task` accepts, and nothing if there is none,
whatever the records `maxload` and `minload` hold when it is entered. -/
theorem lb_pass_unbalanced (src tgt : Nat)
    (hsrc : src ∈ lb_cpus K s j) (htgt : tgt ∈ lb_cpus K s j)
    (hmax : ∀ a ∈ lb_cpus K s j,
      (s.rqs a).grr.grr_nr_running ≤ (s.rqs src).grr.grr_nr_running)
    (hsrc_first : ∀ a ∈ lb_cpus K s j,
      (s.rqs a).grr.grr_nr_running = (s.rqs src).grr.grr_nr_running → src ≤ a)
    (hmin : ∀ a ∈ lb_cpus K s j,
      (s.rqs tgt).grr.grr_nr_running ≤ (s.rqs a).grr.grr_nr_running)
    (htgt_first : ∀ a ∈ lb_cpus K s j,
      (s.rqs a).grr.grr_nr_running = (s.rqs tgt).grr.grr_nr_running → tgt ≤ a)
    (hgap : (s.rqs tgt).grr.grr_nr_running + 1 < (s.rqs src).grr.grr_nr_running)
    (hsmall : (s.rqs tgt).grr.grr_nr_running < MINLOAD_START) :
    (∀ p, (s.rqs src).grr.queue.find? (fun p => can_move_grr_task s p src tgt) = some p →
        grr_load_balance_pass K s j mx mn
          = some (lb_flow.next (lb_move K s p src tgt)
              { nr_running := (s.rqs src).grr.grr_nr_running, rq := some src }
              { nr_running := (s.rqs tgt).grr.grr_nr_running, rq := some tgt }))
      ∧ ((s.rqs src).grr.queue.find? (fun p => can_move_grr_task s p src tgt) = none →
        grr_load_balance_pass K s j mx mn
          = some (lb_flow.next s
              { nr_running := (s.rqs src).grr.grr_nr_running, rq := some src }
              { nr_running := (s.rqs tgt).grr.grr_nr_running, rq := some tgt })) := by
  obtain ⟨hlen, _, _, _, _, _⟩ := lb_scan_cpus_spec K s j mx mn
  have hne : src ≠ tgt := by
    intro h; rw [h] at hgap; omega
  have h2 : ¬ (lb_scan_cpus K s j mx mn).cpus_online < 2 := by
    rw [hlen]
    have := two_le_length_of_mem_ne _ src tgt hsrc htgt hne
    omega
  obtain ⟨hmaxeq, hmineq⟩ := lb_scan_cpus_found K s j mx mn src tgt hsrc htgt hmax hsrc_first
    hmin htgt_first (by omega) hsmall
  have hmod : ((s.rqs tgt).grr.grr_nr_running + 1) % ULONG_SIZE
      = (s.rqs tgt).grr.grr_nr_running + 1 :=
    minload_start_succ_mod _ (le_of_lt hsmall)
  have hpass : grr_load_balance_pass K s j mx mn
      = match (s.rqs src).grr.queue.find? (fun p => can_move_grr_task s p src tgt) with
        | some p => some (lb_flow.next (lb_move K s p src tgt)
            { nr_running := (s.rqs src).grr.grr_nr_running, rq := some src }
            { nr_running := (s.rqs tgt).grr.grr_nr_running, rq := some tgt })
        | none => some (lb_flow.next s
            { nr_running := (s.rqs src).grr.grr_nr_running, rq := some src }
            { nr_running := (s.rqs tgt).grr.grr_nr_running, rq := some tgt }) := by
    simp only [grr_load_balance_pass]
    rw [if_neg h2, hmaxeq, hmineq]
    simp only []
    rw [hmod, if_pos (by omega), if_neg (by omega)]
  constructor
  · intro p hp
    rw [hpass, hp]
  · intro hp
    rw [hpass, hp]

end lbpass

theorem ulong_dec_of_pos (n : Nat) (h1 : 0 < n) (h2 : n < ULONG_SIZE) : ulong_dec n = n - 1 := by
  rw [ulong_dec, Nat.mod_eq_of_lt h2, if_neg (by omega)]

theorem ulong_inc_of_lt (n : Nat) (h : n + 1 < ULONG_SIZE) : ulong_inc n = n + 1 := by
  rw [ulong_inc, Nat.mod_eq_of_lt h]

/-- With groups disabled the pass does not depend on the group index. -/
theorem lb_pass_nogroups (K : Kconfig) (s : Sched) (j : Nat) (mx mn : load)
    (hg : K.CONFIG_GRR_GROUPS = false) :
    grr_load_balance_pass K s j mx mn = grr_load_balance_pass K s 1 mx mn := by
  have hstep : lb_scan_step K s j = lb_scan_step K s 1 := by
    funext st i
    simp [lb_scan_step, lb_eligible, hg]
  simp only [grr_load_balance_pass, lb_scan_cpus, hstep]

/-- With groups disabled the balancer is one pass. -/
theorem grr_load_balance_nogroups (K : Kconfig) (s s1 : Sched) (j : Nat)
    (hg : K.CONFIG_GRR_GROUPS = false)
    (h : (∃ mx1 mn1,
        grr_load_balance_pass K s j lb_unset lb_unset = some (lb_flow.next s1 mx1 mn1))
      ∨ grr_load_balance_pass K s j lb_unset lb_unset = some (lb_flow.ret s1)) :
    grr_load_balance K s = some s1 := by
  rw [lb_pass_nogroups K s j _ _ hg] at h
  simp only [grr_load_balance, lb_groups, hg, lb_loop]
  rcases h with ⟨mx1, mn1, h⟩ | h <;> rw [h]

/-- A move changes neither the CPUs a group's scan looks at nor their order. -/
theorem lb_cpus_lb_move (K : Kconfig) (s : Sched) (j p src tgt : Nat) :
    lb_cpus K (lb_move K s p src tgt) j = lb_cpus K s j := by
  have hel : lb_eligible K (lb_move K s p src tgt) j = lb_eligible K s j := by
    funext i
    simp only [lb_eligible, (lb_move_flags K s i p src tgt).1, (lb_move_flags K s i p src tgt).2]
  simp only [lb_cpus, online_cpus, lb_move_cpu_online, hel]

/-- After the move from the most loaded CPU `src` to the least loaded CPU `tgt` the group
is balanced when the two counts differ by two and `src` or `tgt` is the only CPU with its
count, and when they differ by three and both are the only CPUs with their counts. -/
theorem lb_move_settles (K : Kconfig) (s : Sched) (j src tgt p : Nat)
    (hsrc : src ∈ lb_cpus K s j)
    (hmax : ∀ a ∈ lb_cpus K s j,
      (s.rqs a).grr.grr_nr_running ≤ (s.rqs src).grr.grr_nr_running)
    (hmin : ∀ a ∈ lb_cpus K s j,
      (s.rqs tgt).grr.grr_nr_running ≤ (s.rqs a).grr.grr_nr_running)
    (hgap : (s.rqs tgt).grr.grr_nr_running + 2 ≤ (s.rqs src).grr.grr_nr_running)
    (hsmall : ∀ a ∈ lb_cpus K s j, (s.rqs a).grr.grr_nr_running ≤ MINLOAD_START + 1)
    (hone : (s.rqs src).grr.grr_nr_running ≤ (s.rqs tgt).grr.grr_nr_running + 3
      ∧ ((s.rqs src).grr.grr_nr_running = (s.rqs tgt).grr.grr_nr_running + 2 →
          (∀ c ∈ lb_cpus K s j, c ≠ src →
              (s.rqs c).grr.grr_nr_running < (s.rqs src).grr.grr_nr_running)
            ∨ (∀ c ∈ lb_cpus K s j, c ≠ tgt →
              (s.rqs tgt).grr.grr_nr_running < (s.rqs c).grr.grr_nr_running))
      ∧ ((s.rqs src).grr.grr_nr_running = (s.rqs tgt).grr.grr_nr_running + 3 →
          (∀ c ∈ lb_cpus K s j, c ≠ src →
              (s.rqs c).grr.grr_nr_running < (s.rqs src).grr.grr_nr_running)
            ∧ (∀ c ∈ lb_cpus K s j, c ≠ tgt →
              (s.rqs tgt).grr.grr_nr_running < (s.rqs c).grr.grr_nr_running))) :
    (∀ a ∈ lb_cpus K (lb_move K s p src tgt) j, ∀ b ∈ lb_cpus K (lb_move K s p src tgt) j,
        ((lb_move K s p src tgt).rqs a).grr.grr_nr_running
          ≤ ((lb_move K s p src tgt).rqs b).grr.grr_nr_running + 1)
      ∧ ∀ a ∈ lb_cpus K (lb_move K s p src tgt) j,
          ((lb_move K s p src tgt).rqs a).grr.grr_nr_running ≤ MINLOAD_START + 1 := by
  have hne : src ≠ tgt := by
    intro h; rw [h] at hgap; omega
  have hU : MINLOAD_START + 2 < ULONG_SIZE := by decide
  have hs1 := hsmall src hsrc
  have hcnt : ∀ c, (c = src ∧ ((lb_move K s p src tgt).rqs c).grr.grr_nr_running + 1
          = (s.rqs src).grr.grr_nr_running)
      ∨ (c = tgt ∧ ((lb_move K s p src tgt).rqs c).grr.grr_nr_running
          = (s.rqs tgt).grr.grr_nr_running + 1)
      ∨ (c ≠ src ∧ c ≠ tgt ∧ ((lb_move K s p src tgt).rqs c).grr.grr_nr_running
          = (s.rqs c).grr.grr_nr_running) := by
    intro c
    rw [lb_move_count K s c p src tgt hne]
    by_cases h1 : c = src
    · left
      subst h1
      rw [if_pos rfl, ulong_dec_of_pos _ (by omega) (by omega)]
      exact ⟨rfl, by omega⟩
    · rw [if_neg h1]
      by_cases h2 : c = tgt
      · right; left
        subst h2
        rw [if_pos rfl, ulong_inc_of_lt _ (by omega)]
        exact ⟨rfl, rfl⟩
      · right; right
        rw [if_neg h2]
        exact ⟨h1, h2, rfl⟩
  obtain ⟨h3, hu2, hu3⟩ := hone
  rw [lb_cpus_lb_move]
  constructor
  · intro a ha b hb
    have ha1 := hmax a ha
    have ha2 := hmin a ha
    have hb1 := hmax b hb
    have hb2 := hmin b hb
    have hca := hcnt a
    have hcb := hcnt b
    by_cases hg2 : (s.rqs src).grr.grr_nr_running = (s.rqs tgt).grr.grr_nr_running + 2
    · rcases hu2 hg2 with hu | hu
      · have fa : a = src ∨ (s.rqs a).grr.grr_nr_running < (s.rqs src).grr.grr_nr_running := by
          by_cases h : a = src
          · exact Or.inl h
          · exact Or.inr (hu a ha h)
        omega
      · have fb : b = tgt ∨ (s.rqs tgt).grr.grr_nr_running < (s.rqs b).grr.grr_nr_running := by
          by_cases h : b = tgt
          · exact Or.inl h
          · exact Or.inr (hu b hb h)
        omega
    · obtain ⟨hu, hv⟩ := hu3 (by omega)
      have fa : a = src ∨ (s.rqs a).grr.grr_nr_running < (s.rqs src).grr.grr_nr_running := by
        by_cases h : a = src
        · exact Or.inl h
        · exact Or.inr (hu a ha h)
      have fb : b = tgt ∨ (s.rqs tgt).grr.grr_nr_running < (s.rqs b).grr.grr_nr_running := by
        by_cases h : b = tgt
        · exact Or.inl h
        · exact Or.inr (hv b hb h)
      omega
  · intro a ha
    have ha1 := hmax a ha
    have ha2 := hsmall a ha
    have hca := hcnt a
    omega

/-- The balancer moves nothing when in every group of its loop the running counts of the
online CPUs serving the group differ by at most one and none exceeds
`MINLOAD_START + 1`: it returns the state it was called in. -/
theorem grr_load_balance_balanced (K : Kconfig) (s : Sched)
    (hbal : ∀ j ∈ lb_groups K, ∀ a ∈ lb_cpus K s j, ∀ b ∈ lb_cpus K s j,
      (s.rqs a).grr.grr_nr_running ≤ (s.rqs b).grr.grr_nr_running + 1)
    (hsmall : ∀ j ∈ lb_groups K, ∀ a ∈ lb_cpus K s j,
      (s.rqs a).grr.grr_nr_running ≤ MINLOAD_START + 1) :
    grr_load_balance K s = some s :=
  lb_loop_balanced K s (lb_groups K)
    (fun j hj mx mn => lb_pass_balanced K s j mx mn (hbal j hj) (hsmall j hj)) lb_unset lb_unset

/-! ## What the dispatch methods do to a task's slice -/

section slice

variable (K : Kconfig) (s : Sched) (c p x flags : Nat)

/-- An enqueue touches no task's `grr` fields but the watchdog counter of the task
enqueued, which a wakeup sets to zero. -/
theorem enqueue_task_grr_grr :
    ((enqueue_task_grr s c p flags).tasks x).grr
      = if x = p ∧ flags &&& ENQUEUE_WAKEUP ≠ 0 then { (s.tasks x).grr with timeout := 0 }
        else (s.tasks x).grr := by
  simp only [enqueue_task_grr, inc_nr_running_tasks, enqueue_grr_entity_tasks]
  by_cases hw : flags &&& ENQUEUE_WAKEUP ≠ 0
  · rw [if_pos hw]
    by_cases hx : x = p
    · subst hx; simp [hw]
    · simp [hx]
  · rw [if_neg hw]
    simp [hw]

theorem enqueue_task_grr_time_slice :
    ((enqueue_task_grr s c p flags).tasks x).grr.time_slice = (s.tasks x).grr.time_slice := by
  rw [enqueue_task_grr_grr]
  split <;> rfl

theorem dequeue_task_grr_grr :
    ((dequeue_task_grr K s c p flags).tasks x).grr = (s.tasks x).grr := by
  simp [dequeue_task_grr]

theorem requeue_task_grr_tasks (head : Bool) : (requeue_task_grr s c p head).tasks = s.tasks := by
  cases head <;> simp [requeue_task_grr, list_move, list_move_tail, list_add, list_add_tail, set_queue]

theorem yield_task_grr_tasks : (yield_task_grr s c).tasks = s.tasks := by
  simp [yield_task_grr, requeue_task_grr_tasks]

/-- Whatever `pick_next_task_grr` returns, the run queues are as before and no task's
`grr` fields have changed. -/
theorem pick_next_task_grr_frame (r : Option Nat × Sched)
    (h : pick_next_task_grr s c = some r) :
    r.2.rqs = s.rqs ∧ ∀ y, (r.2.tasks y).grr = (s.tasks y).grr := by
  simp only [pick_next_task_grr] at h
  split at h
  · simp only [Option.some.injEq] at h
    subst h; exact ⟨rfl, fun _ => rfl⟩
  · split at h
    · simp at h
    · split at h
      · simp only [Option.some.injEq] at h
        subst h; exact ⟨rfl, fun _ => rfl⟩
      · simp only [Option.some.injEq] at h
        subst h
        refine ⟨rfl, fun y => ?_⟩
        rename_i q a rest hq ha
        by_cases hy : y = a
        · subst hy; simp
        · simp [hy]

theorem put_prev_task_grr_grr :
    ((put_prev_task_grr K s c p).tasks x).grr = (s.tasks x).grr := by
  simp only [put_prev_task_grr]
  by_cases hx : x = p
  · subst hx; simp
  · simp [hx]

end slice


/-! ## The watchdog -/

/-- With no finite soft limit the watchdog changes nothing. -/
theorem watchdog_infinite (K : Kconfig) (s : Sched) (p : Nat)
    (h : (s.tasks p).rlim_cur = RLIM_INFINITY) : watchdog K s p = s := by
  unfold watchdog
  simp [h]

/-- The watchdog with a finite soft limit, as long as neither the counter nor the sum
`min(soft, hard) + d - 1` leaves the range of an `unsigned long`: the counter goes up by
one, and the deadline is marked as elapsed exactly when the new counter exceeds the limit
in ticks, rounded up. -/
theorem watchdog_in_range (K : Kconfig) (s : Sched) (p : Nat)
    (hfin : (s.tasks p).rlim_cur ≠ RLIM_INFINITY)
    (hcnt : (s.tasks p).grr.timeout + 1 < ULONG_SIZE)
    (hsum : min (s.tasks p).rlim_cur (s.tasks p).rlim_max + (USEC_PER_SEC / K.HZ - 1)
      < ULONG_SIZE) :
    ((watchdog K s p).tasks p).grr.timeout = (s.tasks p).grr.timeout + 1
      ∧ ((watchdog K s p).tasks p).sched_exp
          = (if (s.tasks p).grr.timeout + 1
                > rttime_limit_ticks K (s.tasks p).rlim_cur (s.tasks p).rlim_max
              then (s.tasks p).se.sum_exec_runtime else (s.tasks p).sched_exp)
      ∧ (watchdog K s p).rqs = s.rqs := by
  have hinc : ulong_inc (s.tasks p).grr.timeout = (s.tasks p).grr.timeout + 1 :=
    ulong_inc_of_lt _ hcnt
  have hnext : (min (s.tasks p).rlim_cur (s.tasks p).rlim_max + (USEC_PER_SEC / K.HZ - 1))
      % ULONG_SIZE / (USEC_PER_SEC / K.HZ)
      = rttime_limit_ticks K (s.tasks p).rlim_cur (s.tasks p).rlim_max := by
    rw [Nat.mod_eq_of_lt hsum]; rfl
  refine ⟨?_, ?_, watchdog_rqs K s p⟩
  · unfold watchdog
    simp only [hfin, ne_eq, not_false_eq_true, if_true, hinc]
    split <;> simp
  · unfold watchdog
    simp only [hfin, ne_eq, not_false_eq_true, if_true, hinc, hnext]
    split <;> simp

/-! ## Work stealing -/

section steal

variable (K : Kconfig) (s : Sched) (c p x src target dest : Nat)

@[simp] theorem resched_task_rqs : (resched_task s p).rqs = s.rqs := rfl

@[simp] theorem resched_task_cpu_online : (resched_task s p).cpu_online = s.cpu_online := rfl

theorem resched_task_cpu : ((resched_task s p).tasks x).cpu = (s.tasks x).cpu := by
  by_cases h : x = p
  · subst h; simp [resched_task]
  · simp [resched_task, h]

@[simp] theorem check_preempt_curr_rqs (flags : Nat) :
    (check_preempt_curr s c p flags).rqs = s.rqs := by
  simp only [check_preempt_curr]
  split
  · rfl
  · split <;> rfl

@[simp] theorem check_preempt_curr_cpu_online (flags : Nat) :
    (check_preempt_curr s c p flags).cpu_online = s.cpu_online := by
  simp only [check_preempt_curr]
  split
  · rfl
  · split <;> rfl

theorem check_preempt_curr_cpu (flags : Nat) :
    ((check_preempt_curr s c p flags).tasks x).cpu = (s.tasks x).cpu := by
  simp only [check_preempt_curr]
  split
  · rfl
  · split
    · exact resched_task_cpu _ _ _
    · rfl

/-- The run queues after a steal are those after the balancer's move of the same task. -/
theorem steal_move_rqs :
    (steal_move K s p src target dest).rqs = (lb_move K s p src target).rqs := by
  simp only [steal_move, check_preempt_curr_rqs, lb_move, activate_task, deactivate_task,
    enqueue_task_grr_zero]
  simp [inc_nr_running, enqueue_grr_entity, list_add_tail, set_queue, set_grr_nr_running]

/-- The queues after a steal. -/
theorem steal_move_queue :
    ((steal_move K s p src target dest).rqs c).grr.queue
      = if c = target then (s.rqs c).grr.queue.erase p ++ [p]
        else (s.rqs c).grr.queue.erase p := by
  rw [steal_move_rqs, lb_move_queue]

/-- The running counts after a steal between two different CPUs. -/
theorem steal_move_count (hne : src ≠ target) :
    ((steal_move K s p src target dest).rqs c).grr.grr_nr_running
      = if c = src then ulong_dec (s.rqs c).grr.grr_nr_running
        else if c = target then ulong_inc (s.rqs c).grr.grr_nr_running
        else (s.rqs c).grr.grr_nr_running := by
  rw [steal_move_rqs, lb_move_count K s c p src target hne]

/-- The assigned CPU of every task after a steal. -/
theorem steal_move_task_cpu :
    ((steal_move K s p src target dest).tasks x).cpu
      = if x = p then dest else (s.tasks x).cpu := by
  simp only [steal_move, check_preempt_curr_cpu, enqueue_task_grr_zero, inc_nr_running_tasks,
    enqueue_grr_entity_tasks]
  by_cases h : x = p
  · subst h; simp [set_task_cpu]
  · simp [set_task_cpu, dequeue_task_grr, h]

/-- What makes a task the one `try_steal_task` takes from a queue. -/
theorem steal_candidate_some (h : steal_candidate s src target = some p) :
    p ∈ (s.rqs src).grr.queue ∧ can_move_grr_task s p src target = true
      ∧ (s.tasks p).policy = SCHED_GRR ∧ (s.tasks p).on_rq = true := by
  have hmem := List.mem_of_find?_eq_some h
  have hp := List.find?_some h
  simp only [Bool.and_eq_true, decide_eq_true_eq] at hp
  exact ⟨hmem, hp.1.1, hp.1.2, hp.2⟩

theorem steal_candidate_none (h : steal_candidate s src target = none)
    (hp : p ∈ (s.rqs src).grr.queue) :
    can_move_grr_task s p src target = false ∨ (s.tasks p).policy ≠ SCHED_GRR
      ∨ (s.tasks p).on_rq = false := by
  have := List.find?_eq_none.mp h p hp
  simp only [Bool.and_eq_true, decide_eq_true_eq, not_and, Bool.not_eq_true] at this
  by_cases h1 : can_move_grr_task s p src target = true
  · by_cases h2 : (s.tasks p).policy = SCHED_GRR
    · exact Or.inr (Or.inr (this ⟨h1, h2⟩))
    · exact Or.inr (Or.inl h2)
  · left; simpa using h1

/-- No queue offers a task when every task in it fails one of the tests. -/
theorem steal_candidate_eq_none
    (h : ∀ q ∈ (s.rqs src).grr.queue, can_move_grr_task s q src target = false
      ∨ (s.tasks q).policy ≠ SCHED_GRR ∨ (s.tasks q).on_rq = false) :
    steal_candidate s src target = none := by
  apply List.find?_eq_none.mpr
  intro q hq
  rcases h q hq with h1 | h1 | h1
  · simp [h1]
  · simp [h1]
  · simp [h1]

theorem steal_skip_false (h : steal_skip K s src target = false) : src ≠ target := by
  intro heq
  simp [steal_skip, heq] at h

/-- The scan moves nothing when every CPU it visits is passed over or offers no task. -/
theorem try_steal_loop_none (L : List Nat)
    (h : ∀ i ∈ L, steal_skip K s i target = true ∨ steal_candidate s i target = none) :
    try_steal_loop K target dest L s = s := by
  induction L with
  | nil => rfl
  | cons a L ih =>
    have ihL := ih (fun i hi => h i (List.mem_cons_of_mem _ hi))
    simp only [try_steal_loop]
    rcases h a (List.mem_cons_self _ _) with h1 | h1
    · rw [if_pos h1]; exact ihL
    · by_cases hs : steal_skip K s a target = true
      · rw [if_pos hs]; exact ihL
      · rw [if_neg hs]
        split
        · exact ihL
        · rw [h1]; exact ihL

/-- The scan stops at the first CPU that is not passed over and offers a task, and moves
that task. -/
theorem try_steal_loop_first (L1 L2 : List Nat)
    (h1 : ∀ i ∈ L1, steal_skip K s i target = true ∨ steal_candidate s i target = none)
    (hskip : steal_skip K s src target = false)
    (hcand : steal_candidate s src target = some p) :
    try_steal_loop K target dest (L1 ++ src :: L2) s = steal_move K s p src target dest := by
  induction L1 with
  | nil =>
    simp only [List.nil_append, try_steal_loop]
    have hne : (s.rqs src).grr.queue.isEmpty = false := by
      have hmem := (steal_candidate_some s p src target hcand).1
      cases hq : (s.rqs src).grr.queue with
      | nil => rw [hq] at hmem; simp at hmem
      | cons a l => rfl
    rw [if_neg (by simp [hskip]), if_neg (by simp [hne]), hcand]
  | cons a L1 ih =>
    have ihL := ih (fun i hi => h1 i (List.mem_cons_of_mem _ hi))
    simp only [List.cons_append, try_steal_loop]
    rcases h1 a (List.mem_cons_self _ _) with ha | ha
    · rw [if_pos ha]; exact ihL
    · by_cases hs : steal_skip K s a target = true
      · rw [if_pos hs]; exact ihL
      · rw [if_neg hs]
        split
        · exact ihL
        · rw [ha]; exact ihL

/-- The scan ends in the state it started from or after the steal of one task. -/
theorem try_steal_loop_shape (L : List Nat) :
    try_steal_loop K target dest L s = s
      ∨ ∃ i ∈ L, ∃ q, steal_skip K s i target = false ∧ steal_candidate s i target = some q
          ∧ try_steal_loop K target dest L s = steal_move K s q i target dest := by
  induction L with
  | nil => exact Or.inl rfl
  | cons a L ih =>
    have ih' : try_steal_loop K target dest L s = s
        ∨ ∃ i ∈ a :: L, ∃ q, steal_skip K s i target = false
            ∧ steal_candidate s i target = some q
            ∧ try_steal_loop K target dest L s = steal_move K s q i target dest := by
      rcases ih with h | ⟨i, hi, q, h1, h2, h3⟩
      · exact Or.inl h
      · exact Or.inr ⟨i, List.mem_cons_of_mem _ hi, q, h1, h2, h3⟩
    simp only [try_steal_loop]
    by_cases hs : steal_skip K s a target = true
    · rw [if_pos hs]; exact ih'
    · rw [if_neg hs]
      split
      · exact ih'
      · cases hc : steal_candidate s a target with
        | none => exact ih'
        | some q =>
          exact Or.inr ⟨a, List.mem_cons_self _ _, q, by simpa using hs, hc, rfl⟩

end steal

/-! ## A move keeps the state well formed -/

/-- The queues after task `p`, linked in the queue of `src` only, has been unlinked and
appended to the queue of `tgt`. -/
theorem moved_queues (s s1 : Sched) (p src tgt : Nat)
    (hq : ∀ c, (s1.rqs c).grr.queue
      = if c = tgt then (s.rqs c).grr.queue.erase p ++ [p] else (s.rqs c).grr.queue.erase p)
    (hwf : linked_once s) (hin : p ∈ (s.rqs src).grr.queue) (hne : src ≠ tgt) :
    (s1.rqs src).grr.queue = (s.rqs src).grr.queue.erase p
      ∧ (s1.rqs tgt).grr.queue = (s.rqs tgt).grr.queue ++ [p]
      ∧ (∀ c, c ≠ src → c ≠ tgt → (s1.rqs c).grr.queue = (s.rqs c).grr.queue)
      ∧ p ∉ (s.rqs tgt).grr.queue
      ∧ p ∉ (s1.rqs src).grr.queue
      ∧ p ∈ (s1.rqs tgt).grr.queue := by
  have hnot : ∀ c, c ≠ src → p ∉ (s.rqs c).grr.queue := by
    intro c hc hmem
    exact hc (hwf.2 c src p hmem hin)
  have h1 : (s1.rqs src).grr.queue = (s.rqs src).grr.queue.erase p := by
    rw [hq, if_neg hne]
  have h2 : (s1.rqs tgt).grr.queue = (s.rqs tgt).grr.queue ++ [p] := by
    rw [hq, if_pos rfl, List.erase_of_not_mem (hnot tgt (Ne.symm hne))]
  refine ⟨h1, h2, ?_, hnot tgt (Ne.symm hne), ?_, ?_⟩
  · intro c hc1 hc2
    rw [hq, if_neg hc2, List.erase_of_not_mem (hnot c hc1)]
  · rw [h1]
    intro hmem
    exact ((hwf.1 src).mem_erase_iff.mp hmem).1 rfl
  · rw [h2]; simp

/-- Membership in the queues after the move, in terms of the queues before. -/
theorem moved_mem (s s1 : Sched) (p src tgt : Nat)
    (hq : ∀ c, (s1.rqs c).grr.queue
      = if c = tgt then (s.rqs c).grr.queue.erase p ++ [p] else (s.rqs c).grr.queue.erase p)
    (hwf : linked_once s) (hin : p ∈ (s.rqs src).grr.queue) (hne : src ≠ tgt) (c x : Nat) :
    x ∈ (s1.rqs c).grr.queue ↔ (x = p ∧ c = tgt) ∨ (x ≠ p ∧ x ∈ (s.rqs c).grr.queue) := by
  obtain ⟨h1, h2, h3, hnt, _, _⟩ := moved_queues s s1 p src tgt hq hwf hin hne
  by_cases hcs : c = src
  · subst hcs
    rw [h1, (hwf.1 c).mem_erase_iff]
    constructor
    · rintro ⟨hx, hmem⟩; exact Or.inr ⟨hx, hmem⟩
    · rintro (⟨_, hc⟩ | ⟨hx, hmem⟩)
      · exact absurd hc hne
      · exact ⟨hx, hmem⟩
  · by_cases hct : c = tgt
    · subst hct
      rw [h2, List.mem_append, List.mem_singleton]
      constructor
      · rintro (hmem | hx)
        · refine Or.inr ⟨?_, hmem⟩
          intro hx; subst hx; exact hnt hmem
        · exact Or.inl ⟨hx, rfl⟩
      · rintro (⟨hx, _⟩ | ⟨_, hmem⟩)
        · exact Or.inr hx
        · exact Or.inl hmem
    · rw [h3 c hcs hct]
      constructor
      · intro hmem
        refine Or.inr ⟨?_, hmem⟩
        intro hx; subst hx
        exact hcs (hwf.2 c src x hmem hin)
      · rintro (⟨_, hc⟩ | ⟨_, hmem⟩)
        · exact absurd hc hct
        · exact hmem

/-- After the move every task is still linked in at most one queue, at most once. -/
theorem moved_linked_once (s s1 : Sched) (p src tgt : Nat)
    (hq : ∀ c, (s1.rqs c).grr.queue
      = if c = tgt then (s.rqs c).grr.queue.erase p ++ [p] else (s.rqs c).grr.queue.erase p)
    (hwf : linked_once s) (hin : p ∈ (s.rqs src).grr.queue) (hne : src ≠ tgt) :
    linked_once s1 := by
  obtain ⟨h1, h2, h3, hnt, _, _⟩ := moved_queues s s1 p src tgt hq hwf hin hne
  constructor
  · intro c
    by_cases hcs : c = src
    · subst hcs; rw [h1]; exact (hwf.1 c).erase p
    · by_cases hct : c = tgt
      · subst hct
        rw [h2]
        exact List.nodup_append.mpr ⟨hwf.1 c, by simp, by simpa using hnt⟩
      · rw [h3 c hcs hct]; exact hwf.1 c
  · intro c1 c2 x hx1 hx2
    rcases (moved_mem s s1 p src tgt hq hwf hin hne c1 x).mp hx1 with ⟨hxe, hc1⟩ | ⟨hxp, hm1⟩
    · rcases (moved_mem s s1 p src tgt hq hwf hin hne c2 x).mp hx2 with ⟨_, hc2⟩ | ⟨hxp, _⟩
      · rw [hc1, hc2]
      · exact absurd hxe hxp
    · rcases (moved_mem s s1 p src tgt hq hwf hin hne c2 x).mp hx2 with ⟨hx, _⟩ | ⟨_, hm2⟩
      · exact absurd hx hxp
      · exact hwf.2 c1 c2 x hm1 hm2

/-- After the move every queued task is still a task pointer. -/
theorem moved_ptrs (s s1 : Sched) (p src tgt : Nat)
    (hq : ∀ c, (s1.rqs c).grr.queue
      = if c = tgt then (s.rqs c).grr.queue.erase p ++ [p] else (s.rqs c).grr.queue.erase p)
    (hwf : linked_once s) (hin : p ∈ (s.rqs src).grr.queue) (hne : src ≠ tgt)
    (hptr : queued_are_ptrs s) : queued_are_ptrs s1 := by
  intro c x hx
  rcases (moved_mem s s1 p src tgt hq hwf hin hne c x).mp hx with ⟨hxp, _⟩ | ⟨_, hm⟩
  · rw [hxp]; exact hptr src p hin
  · exact hptr c x hm

/-- After the move every running count is still the length of its queue. -/
theorem moved_counts_match (s s1 : Sched) (p src tgt : Nat)
    (hq : ∀ c, (s1.rqs c).grr.queue
      = if c = tgt then (s.rqs c).grr.queue.erase p ++ [p] else (s.rqs c).grr.queue.erase p)
    (hc : ∀ c, (s1.rqs c).grr.grr_nr_running
      = if c = src then ulong_dec (s.rqs c).grr.grr_nr_running
        else if c = tgt then ulong_inc (s.rqs c).grr.grr_nr_running
        else (s.rqs c).grr.grr_nr_running)
    (hwf : linked_once s) (hin : p ∈ (s.rqs src).grr.queue) (hne : src ≠ tgt)
    (hptr : queued_are_ptrs s) (hcnt : counts_match s) : counts_match s1 := by
  obtain ⟨h1, h2, h3, _, _, _⟩ := moved_queues s s1 p src tgt hq hwf hin hne
  have hwf1 := moved_linked_once s s1 p src tgt hq hwf hin hne
  have hptr1 := moved_ptrs s s1 p src tgt hq hwf hin hne hptr
  intro c
  rw [hc c]
  by_cases hcs : c = src
  · subst hcs
    have hlt := length_lt_of_nodup_ptr _ (hwf.1 c) (hptr c)
    have hpos : 0 < (s.rqs c).grr.queue.length := List.length_pos_of_mem hin
    rw [if_pos rfl, hcnt c, ulong_dec_of_pos _ hpos hlt, h1, List.length_erase_of_mem hin]
  · rw [if_neg hcs]
    by_cases hct : c = tgt
    · subst hct
      have hlt := length_lt_of_nodup_ptr _ (hwf1.1 c) (hptr1 c)
      rw [h2, List.length_append, List.length_singleton] at hlt
      rw [if_pos rfl, hcnt c, ulong_inc_of_lt _ hlt, h2, List.length_append,
        List.length_singleton]
    · rw [if_neg hct, h3 c hcs hct]
      exact hcnt c

/-- After the move every queued task is assigned to the CPU of its queue, if the moved
task has been assigned to `tgt`. -/
theorem moved_on_own_cpu (s s1 : Sched) (p src tgt : Nat)
    (hq : ∀ c, (s1.rqs c).grr.queue
      = if c = tgt then (s.rqs c).grr.queue.erase p ++ [p] else (s.rqs c).grr.queue.erase p)
    (hcpu : ∀ x, (s1.tasks x).cpu = if x = p then tgt else (s.tasks x).cpu)
    (hwf : linked_once s) (hin : p ∈ (s.rqs src).grr.queue) (hne : src ≠ tgt)
    (hown : queued_on_own_cpu s) : queued_on_own_cpu s1 := by
  intro c x hx
  rw [hcpu x]
  rcases (moved_mem s s1 p src tgt hq hwf hin hne c x).mp hx with ⟨hxp, hct⟩ | ⟨hxp, hm⟩
  · rw [if_pos hxp, hct]
  · rw [if_neg hxp]; exact hown c x hm

/-- The move neither adds a task to the queues nor takes one away. -/
theorem moved_same_tasks (s s1 : Sched) (p src tgt : Nat)
    (hq : ∀ c, (s1.rqs c).grr.queue
      = if c = tgt then (s.rqs c).grr.queue.erase p ++ [p] else (s.rqs c).grr.queue.erase p)
    (hwf : linked_once s) (hin : p ∈ (s.rqs src).grr.queue) (hne : src ≠ tgt) (x : Nat) :
    (∃ c, x ∈ (s1.rqs c).grr.queue) ↔ ∃ c, x ∈ (s.rqs c).grr.queue := by
  constructor
  · rintro ⟨c, hx⟩
    rcases (moved_mem s s1 p src tgt hq hwf hin hne c x).mp hx with ⟨hxp, _⟩ | ⟨_, hm⟩
    · exact ⟨src, hxp ▸ hin⟩
    · exact ⟨c, hm⟩
  · rintro ⟨c, hx⟩
    by_cases hxp : x = p
    · exact ⟨tgt, (moved_mem s s1 p src tgt hq hwf hin hne tgt x).mpr (Or.inl ⟨hxp, rfl⟩)⟩
    · exact ⟨c, (moved_mem s s1 p src tgt hq hwf hin hne c x).mpr (Or.inr ⟨hxp, hx⟩)⟩

/-! ## The example states are well formed -/

theorem steal_example_queue (c : Nat) :
    (steal_example.rqs c).grr.queue
      = if c = 1 then [11] else if c = 2 then [21, 22, 23] else [] := by
  simp only [steal_example]
  split
  · rfl
  · split <;> rfl

theorem steal_example_linked_once : linked_once steal_example := by
  constructor
  · intro c
    rw [steal_example_queue]
    split
    · decide
    · split <;> decide
  · intro c1 c2 x h1 h2
    rw [steal_example_queue] at h1 h2
    by_cases ha : c1 = 1 <;> by_cases hb : c1 = 2 <;> by_cases hc : c2 = 1 <;>
      by_cases hd : c2 = 2 <;> simp [ha, hb, hc, hd] at h1 h2 <;> omega

theorem steal_example_on_own_cpu : queued_on_own_cpu steal_example := by
  intro c x h
  rw [steal_example_queue] at h
  by_cases ha : c = 1 <;> by_cases hb : c = 2 <;> simp [ha, hb] at h
  · omega
  · subst h; subst ha; rfl
  · subst hb
    rcases h with h | h | h <;> subst h <;> rfl

theorem steal_example_counts_match : counts_match steal_example := by
  intro c
  simp only [steal_example]
  split
  · rfl
  · split <;> rfl

theorem steal_example_ptrs : queued_are_ptrs steal_example := by
  intro c x h
  rw [steal_example_queue] at h
  by_cases ha : c = 1 <;> by_cases hb : c = 2 <;> simp [ha, hb] at h
  · omega
  · subst h; decide
  · rcases h with h | h | h <;> subst h <;> decide

theorem unqueued_example_queue (c : Nat) :
    (unqueued_example.rqs c).grr.queue = if c = 0 then [5] else [] := by
  simp only [unqueued_example]
  split <;> rfl

theorem unqueued_example_linked_once : linked_once unqueued_example := by
  constructor
  · intro c
    rw [unqueued_example_queue]
    split <;> decide
  · intro c1 c2 x h1 h2
    rw [unqueued_example_queue] at h1 h2
    by_cases ha : c1 = 0 <;> by_cases hb : c2 = 0 <;> simp [ha, hb] at h1 h2
    omega

theorem unqueued_example_counts_match : counts_match unqueued_example := by
  intro c
  simp only [unqueued_example]
  split <;> rfl

theorem gap_example_queue (c : Nat) :
    (gap_example.rqs c).grr.queue = if c = 0 then [11, 12] else [] := by
  simp only [gap_example]
  split <;> rfl

theorem gap_example_linked_once : linked_once gap_example := by
  constructor
  · intro c
    rw [gap_example_queue]
    split <;> decide
  · intro c1 c2 x h1 h2
    rw [gap_example_queue] at h1 h2
    by_cases ha : c1 = 0 <;> by_cases hb : c2 = 0 <;> simp [ha, hb] at h1 h2
    omega

theorem gap_example_counts_match : counts_match gap_example := by
  intro c
  simp only [gap_example]
  split <;> rfl

theorem gap_example_ptrs : queued_are_ptrs gap_example := by
  intro c x h
  rw [gap_example_queue] at h
  by_cases ha : c = 0 <;> simp [ha] at h
  rcases h with h | h <;> subst h <;> decide

/-- The ways a pass can end. It leaves the state alone, or it moves the first task that
`can_move_grr_task` accepts from the queue of the most loaded CPU of this scan, after the
test under the locks, to the queue stored in `minload.rq`: the least loaded CPU of this
scan, with a count below the start constant, or, when no CPU of the group is below the
start constant, the queue an earlier pass has stored. -/
theorem lb_pass_cases (K : Kconfig) (s : Sched) (j : Nat) (mx mn : load) (f : lb_flow)
    (h : grr_load_balance_pass K s j mx mn = some f) :
    (∃ mx1 mn1, f = lb_flow.next s mx1 mn1
        ∧ (mn1.rq = mn.rq
          ∨ ∃ t, mn1.rq = some t ∧ (s.rqs t).grr.grr_nr_running < MINLOAD_START))
      ∨ f = lb_flow.ret s
      ∨ ∃ p src tgt mx1 mn1, f = lb_flow.next (lb_move K s p src tgt) mx1 mn1
          ∧ mn1.rq = some tgt
          ∧ src ∈ lb_cpus K s j
          ∧ (s.rqs src).grr.queue.find? (fun p => can_move_grr_task s p src tgt) = some p
          ∧ ¬ (s.rqs src).grr.grr_nr_running
              ≤ ((s.rqs tgt).grr.grr_nr_running + 1) % ULONG_SIZE
          ∧ ((tgt ∈ lb_cpus K s j ∧ (s.rqs tgt).grr.grr_nr_running < MINLOAD_START)
            ∨ (mn.rq = some tgt ∧ MINLOAD_START + 1 < (s.rqs src).grr.grr_nr_running)) := by
  obtain ⟨_, _, hmaxc, _, hminle, hminc⟩ := lb_scan_cpus_spec K s j mx mn
  have hcarry : (lb_scan_cpus K s j mx mn).minload.rq = mn.rq
      ∨ ∃ t, (lb_scan_cpus K s j mx mn).minload.rq = some t
          ∧ (s.rqs t).grr.grr_nr_running < MINLOAD_START := by
    rcases hminc with heq | ⟨k, _, heq, hk, _⟩
    · left; rw [heq]
    · right; exact ⟨k, by rw [heq], hk⟩
  simp only [grr_load_balance_pass] at h
  split at h
  · simp only [Option.some.injEq] at h
    exact Or.inr (Or.inl h.symm)
  · split at h
    · rename_i hbranch
      rw [minload_start_succ_mod _ hminle] at hbranch
      split at h
      · rename_i source target hsrc htgt
        split at h
        · simp only [Option.some.injEq] at h
          exact Or.inl ⟨_, _, h.symm, hcarry⟩
        · rename_i hrecheck
          split at h
          · rename_i p hfind
            simp only [Option.some.injEq] at h
            right; right
            -- the most loaded CPU is one this scan has found
            have hsource : source ∈ lb_cpus K s j
                ∧ (lb_scan_cpus K s j mx mn).maxload.nr_running
                    = (s.rqs source).grr.grr_nr_running := by
              rcases hmaxc with heq | ⟨i, hi, heq, _, _⟩
              · rw [heq] at hbranch
                simp only [] at hbranch
                omega
              · rw [heq] at hsrc
                simp only [Option.some.injEq] at hsrc
                rw [← hsrc, heq]
                exact ⟨hi, rfl⟩
            refine ⟨p, source, target, _, _, h.symm, htgt, hsource.1, hfind, hrecheck, ?_⟩
            rcases hminc with heq | ⟨k, hk, heq, hklt, _⟩
            · right
              rw [heq] at htgt hbranch
              simp only [] at htgt hbranch
              rw [hsource.2] at hbranch
              exact ⟨htgt, hbranch⟩
            · left
              rw [heq] at htgt
              simp only [Option.some.injEq] at htgt
              rw [← htgt]
              exact ⟨hk, hklt⟩
          · simp only [Option.some.injEq] at h
            exact Or.inl ⟨_, _, h.symm, hcarry⟩
      · simp at h
    · split at h
      · simp only [Option.some.injEq] at h
        exact Or.inl ⟨_, _, h.symm, hcarry⟩
      · simp only [Option.some.injEq] at h
        exact Or.inr (Or.inl h.symm)

/-- A pass that moves a task moves it from a CPU whose running count is at least two
above the target's: afterwards the source has one task less, the target one more, and the
source's count is not below the target's. The queue that `minload.rq` holds when the pass
is entered is taken not to be at the largest `unsigned long` count. -/
theorem lb_pass_move_counts (K : Kconfig) (s : Sched) (j : Nat) (mx mn : load) (f : lb_flow)
    (hrange : ∀ c, (s.rqs c).grr.grr_nr_running < ULONG_SIZE)
    (hmn : ∀ t, mn.rq = some t → (s.rqs t).grr.grr_nr_running + 1 < ULONG_SIZE)
    (h : grr_load_balance_pass K s j mx mn = some f) :
    (∃ mx1 mn1, f = lb_flow.next s mx1 mn1
        ∧ (mn1.rq = mn.rq
          ∨ ∃ t, mn1.rq = some t ∧ (s.rqs t).grr.grr_nr_running < MINLOAD_START))
      ∨ f = lb_flow.ret s
      ∨ ∃ p src tgt mx1 mn1, f = lb_flow.next (lb_move K s p src tgt) mx1 mn1
          ∧ (mn1.rq = mn.rq
            ∨ ∃ t, mn1.rq = some t ∧ (s.rqs t).grr.grr_nr_running < MINLOAD_START)
          ∧ p ∈ (s.rqs src).grr.queue
          ∧ src ≠ tgt
          ∧ (s.rqs tgt).grr.grr_nr_running + 1 < (s.rqs src).grr.grr_nr_running
          ∧ ((lb_move K s p src tgt).rqs src).grr.grr_nr_running + 1
              = (s.rqs src).grr.grr_nr_running
          ∧ ((lb_move K s p src tgt).rqs tgt).grr.grr_nr_running
              = (s.rqs tgt).grr.grr_nr_running + 1
          ∧ ((lb_move K s p src tgt).rqs tgt).grr.grr_nr_running
              ≤ ((lb_move K s p src tgt).rqs src).grr.grr_nr_running := by
  rcases lb_pass_cases K s j mx mn f h with hf | hf
    | ⟨p, src, tgt, mx1, mn1, hf, hmn1, _, hfind, hrecheck, hwhich⟩
  · exact Or.inl hf
  · exact Or.inr (Or.inl hf)
  · right; right
    have hU : MINLOAD_START + 1 < ULONG_SIZE := by decide
    have htlt : (s.rqs tgt).grr.grr_nr_running + 1 < ULONG_SIZE := by
      rcases hwhich with ⟨_, hlt⟩ | ⟨hst, _⟩
      · omega
      · exact hmn tgt hst
    rw [Nat.mod_eq_of_lt htlt] at hrecheck
    have hgap : (s.rqs tgt).grr.grr_nr_running + 1 < (s.rqs src).grr.grr_nr_running := by
      omega
    have hne : src ≠ tgt := by
      intro e; rw [e] at hgap; omega
    have hsrc' : ((lb_move K s p src tgt).rqs src).grr.grr_nr_running
        = (s.rqs src).grr.grr_nr_running - 1 := by
      rw [lb_move_count K s src p src tgt hne, if_pos rfl,
        ulong_dec_of_pos _ (by omega) (hrange src)]
    have htgt' : ((lb_move K s p src tgt).rqs tgt).grr.grr_nr_running
        = (s.rqs tgt).grr.grr_nr_running + 1 := by
      rw [lb_move_count K s tgt p src tgt hne, if_neg (Ne.symm hne),
        if_pos rfl, ulong_inc_of_lt _ htlt]
    refine ⟨p, src, tgt, mx1, mn1, hf, ?_, List.mem_of_find?_eq_some hfind, hne, hgap,
      ?_, htgt', ?_⟩
    · rcases hwhich with ⟨_, hlt⟩ | ⟨hst, _⟩
      · exact Or.inr ⟨tgt, hmn1, hlt⟩
      · left; rw [hmn1, hst]
    · rw [hsrc']; omega
    · rw [hsrc', htgt']; omega

/-- A move from a CPU with a count above the target's raises no running count by more
than one and keeps every count in the range of an `unsigned long`. -/
theorem lb_move_range (K : Kconfig) (s : Sched) (p src tgt : Nat)
    (hrange : ∀ c, (s.rqs c).grr.grr_nr_running < ULONG_SIZE)
    (hgap : (s.rqs tgt).grr.grr_nr_running + 1 < (s.rqs src).grr.grr_nr_running) :
    ∀ c, ((lb_move K s p src tgt).rqs c).grr.grr_nr_running ≤ (s.rqs c).grr.grr_nr_running + 1
      ∧ ((lb_move K s p src tgt).rqs c).grr.grr_nr_running < ULONG_SIZE := by
  intro c
  have hne : src ≠ tgt := by
    intro e; rw [e] at hgap; omega
  have hs := hrange src
  rw [lb_move_count K s c p src tgt hne]
  split
  · rename_i hc
    subst hc
    rw [ulong_dec_of_pos _ (by omega) (hrange c)]
    omega
  · split
    · rename_i hc
      subst hc
      rw [ulong_inc_of_lt _ (by omega)]
      omega
    · have := hrange c
      omega

/-- The migrations of the group loop, one after the other, each keep the order of the
counts of its source and its target. The queue that `minload.rq` holds on entry is taken
to have a count that the passes to come cannot take to the largest `unsigned long`; a
queue stored by a scan of the same call has a count below the start constant. -/
theorem lb_loop_moves_keep_order (K : Kconfig) (js : List Nat) :
    ∀ (s s1 : Sched) (mx mn : load), js.length + MINLOAD_START < ULONG_SIZE →
      (∀ c, (s.rqs c).grr.grr_nr_running < ULONG_SIZE) →
      (∀ t, mn.rq = some t → (s.rqs t).grr.grr_nr_running + js.length < ULONG_SIZE) →
      lb_loop K js s mx mn = some s1 →
      ∃ moves : List (Nat × Nat × Nat),
        moves.length ≤ js.length ∧ s1 = apply_moves K s moves
          ∧ moves_keep_order K s moves := by
  induction js with
  | nil =>
    intro s s1 mx mn _ _ _ h
    simp only [lb_loop, Option.some.injEq] at h
    exact ⟨[], by simp, by rw [← h]; rfl, trivial⟩
  | cons j js ih =>
    intro s s1 mx mn hlen hrange hmn h
    simp only [List.length_cons] at hlen hmn
    simp only [lb_loop] at h
    cases hp : grr_load_balance_pass K s j mx mn with
    | none => rw [hp] at h; simp at h
    | some f =>
      rw [hp] at h
      rcases lb_pass_move_counts K s j mx mn f hrange
          (fun t ht => by have := hmn t ht; omega) hp with ⟨mx1, mn1, hf, hc⟩ | hf
        | ⟨p, src, tgt, mx1, mn1, hf, hc, _, hne, hgap, h1, h2, h3⟩
      · subst hf
        simp only [] at h
        obtain ⟨moves, hl, heq, hord⟩ := ih s s1 mx1 mn1 (by omega) hrange
          (by
            intro t ht
            rcases hc with hc | ⟨t1, ht1, hlt⟩
            · have := hmn t (by rw [← hc]; exact ht)
              omega
            · rw [ht1] at ht
              simp only [Option.some.injEq] at ht
              subst ht
              omega) h
        exact ⟨moves, by simp; omega, heq, hord⟩
      · subst hf
        simp only [Option.some.injEq] at h
        exact ⟨[], by simp, by rw [← h]; rfl, trivial⟩
      · subst hf
        simp only [] at h
        have hmv := lb_move_range K s p src tgt hrange hgap
        obtain ⟨moves, hl, heq, hord⟩ := ih _ s1 mx1 mn1 (by omega)
          (fun c => (hmv c).2)
          (by
            intro t ht
            have hle := (hmv t).1
            rcases hc with hc | ⟨t1, ht1, hlt⟩
            · have := hmn t (by rw [← hc]; exact ht)
              omega
            · rw [ht1] at ht
              simp only [Option.some.injEq] at ht
              subst ht
              omega) h
        exact ⟨(p, src, tgt) :: moves, by simp; omega, by rw [heq]; rfl, ⟨h1, h2, h3, hord⟩⟩

theorem gap_example_range (c : Nat) :
    (gap_example.rqs c).grr.grr_nr_running < ULONG_SIZE := by
  simp only [gap_example]
  split <;> decide

/-! ## Passes that have nothing to move -/

/-- A move changes no CPU's group flags, so no CPU's place in a group's scan. -/
theorem lb_eligible_lb_move (K : Kconfig) (s : Sched) (j p src tgt i : Nat) :
    lb_eligible K (lb_move K s p src tgt) j i = lb_eligible K s j i := by
  simp only [lb_eligible, (lb_move_flags K s i p src tgt).1, (lb_move_flags K s i p src tgt).2]

/-- A move between two CPUs outside a group leaves the counts of the group's CPUs. -/
theorem lb_move_count_foreign (K : Kconfig) (s : Sched) (j p src tgt c : Nat)
    (hne : src ≠ tgt)
    (hs : lb_eligible K s j src = false) (ht : lb_eligible K s j tgt = false)
    (hc : c ∈ lb_cpus K s j) :
    ((lb_move K s p src tgt).rqs c).grr.grr_nr_running = (s.rqs c).grr.grr_nr_running := by
  have hel := ((mem_lb_cpus K s j c).mp hc).2
  have h1 : c ≠ src := by intro e; rw [e, hs] at hel; exact absurd hel (by simp)
  have h2 : c ≠ tgt := by intro e; rw [e, ht] at hel; exact absurd hel (by simp)
  rw [lb_move_count K s c p src tgt hne, if_neg h1, if_neg h2]

/-- A move of task `p` changes the answer of `can_move_grr_task` for no other task. -/
theorem can_move_lb_move_other (K : Kconfig) (s : Sched) (p src tgt x a b : Nat)
    (hx : x ≠ p) :
    can_move_grr_task (lb_move K s p src tgt) x a b = can_move_grr_task s x a b := by
  rw [lb_move_eq]
  simp [can_move_grr_task, set_task_cpu, hx]

/-- After its move to `tgt` task `p` cannot be moved from any other CPU. -/
theorem can_move_lb_move_self (K : Kconfig) (s : Sched) (p src tgt a b : Nat)
    (ha : tgt ≠ a) :
    can_move_grr_task (lb_move K s p src tgt) p a b = false := by
  have hcpu := lb_move_task_cpu K s p p src tgt
  rw [if_pos rfl] at hcpu
  simp [can_move_grr_task, hcpu, ha]

/-- A pass over a group that is settled leaves the state alone, whatever the records hold
when it is entered. -/
theorem lb_settled_pass (K : Kconfig) (s : Sched) (j : Nat) (h : lb_settled K s j)
    (mx mn : load) :
    (∃ mx1 mn1, grr_load_balance_pass K s j mx mn = some (lb_flow.next s mx1 mn1))
      ∨ grr_load_balance_pass K s j mx mn = some (lb_flow.ret s) := by
  rcases h with hlen | ⟨hbal, hsmall⟩
    | ⟨src, hsrc, tgt, htgt, hmax, hsf, hmin, htf, hgap, hsmall, hfind⟩
  · right
    have hc := (lb_scan_cpus_spec K s j mx mn).1
    simp only [grr_load_balance_pass]
    rw [if_pos (by rw [hc]; exact hlen)]
  · exact lb_pass_balanced K s j mx mn hbal hsmall
  · left
    exact ⟨_, _, (lb_pass_unbalanced K s j mx mn src tgt hsrc htgt hmax hsf hmin htf hgap
      hsmall).2 hfind⟩

/-- The group loop returns the state it is entered in when every group is settled. -/
theorem lb_loop_settled (K : Kconfig) (s : Sched) (js : List Nat)
    (h : ∀ j ∈ js, lb_settled K s j) (mx mn : load) :
    lb_loop K js s mx mn = some s :=
  lb_loop_balanced K s js (fun j hj mx mn => lb_settled_pass K s j (h j hj) mx mn) mx mn

/-- A group that is settled stays settled when a task moves between two CPUs that do not
serve the group. -/
theorem lb_settled_lb_move (K : Kconfig) (s : Sched) (j p src tgt : Nat)
    (hne : src ≠ tgt)
    (hs : lb_eligible K s j src = false) (ht : lb_eligible K s j tgt = false)
    (h : lb_settled K s j) :
    lb_settled K (lb_move K s p src tgt) j := by
  have hcnt := fun c hc => lb_move_count_foreign K s j p src tgt c hne hs ht hc
  unfold lb_settled
  rw [lb_cpus_lb_move]
  rcases h with hlen | ⟨hbal, hsmall⟩
    | ⟨a, ha, b, hb, hmax, hsf, hmin, htf, hgap, hsmall, hfind⟩
  · exact Or.inl hlen
  · refine Or.inr (Or.inl ⟨?_, ?_⟩)
    · intro x hx y hy
      rw [hcnt x hx, hcnt y hy]
      exact hbal x hx y hy
    · intro x hx
      rw [hcnt x hx]
      exact hsmall x hx
  · refine Or.inr (Or.inr ⟨a, ha, b, hb, ?_, ?_, ?_, ?_, ?_, ?_, ?_⟩)
    · intro x hx
      rw [hcnt x hx, hcnt a ha]
      exact hmax x hx
    · intro x hx
      rw [hcnt x hx, hcnt a ha]
      exact hsf x hx
    · intro x hx
      rw [hcnt x hx, hcnt b hb]
      exact hmin x hx
    · intro x hx
      rw [hcnt x hx, hcnt b hb]
      exact htf x hx
    · rw [hcnt a ha, hcnt b hb]
      exact hgap
    · rw [hcnt b hb]
      exact hsmall
    · have hela := ((mem_lb_cpus K s j a).mp ha).2
      have hta : tgt ≠ a := by intro e; rw [e, hela] at ht; exact absurd ht (by simp)
      rw [List.find?_eq_none]
      intro x hx
      rw [lb_move_queue, if_neg (Ne.symm hta)] at hx
      have hx0 := List.mem_of_mem_erase hx
      have hno := List.find?_eq_none.mp hfind x hx0
      by_cases hxp : x = p
      · rw [hxp, can_move_lb_move_self K s p src tgt a b hta]
        simp
      · rw [can_move_lb_move_other K s p src tgt x a b hxp]
        exact hno

/-- A pass over a group for which one migration is enough, with no count above
`MINLOAD_START + 1`: the group is settled, or the pass moves one task, whatever the
records hold when it is entered, and the group is settled after the move. -/
theorem lb_pass_one_move (K : Kconfig) (s : Sched) (j : Nat)
    (hone : lb_within_one_move K s j)
    (hsmall : ∀ a ∈ lb_cpus K s j, (s.rqs a).grr.grr_nr_running ≤ MINLOAD_START + 1) :
    lb_settled K s j
      ∨ ∃ p src tgt, src ∈ lb_cpus K s j ∧ tgt ∈ lb_cpus K s j ∧ src ≠ tgt
          ∧ (∀ mx mn : load, ∃ mx1 mn1, grr_load_balance_pass K s j mx mn
              = some (lb_flow.next (lb_move K s p src tgt) mx1 mn1))
          ∧ lb_settled K (lb_move K s p src tgt) j := by
  by_cases hb : ∀ a ∈ lb_cpus K s j, ∀ b ∈ lb_cpus K s j,
      (s.rqs a).grr.grr_nr_running ≤ (s.rqs b).grr.grr_nr_running + 1
  · exact Or.inl (Or.inr (Or.inl ⟨hb, hsmall⟩))
  · push_neg at hb
    obtain ⟨a, ha, b, hbm, hab⟩ := hb
    obtain ⟨_, hmaxb, hmaxc, hminb, _, hminc⟩ := lb_scan_cpus_spec K s j lb_unset lb_unset
    -- the scan finds a most loaded CPU
    obtain ⟨src, hsrc, hmax, hsf⟩ : ∃ src ∈ lb_cpus K s j,
        (∀ x ∈ lb_cpus K s j, (s.rqs x).grr.grr_nr_running ≤ (s.rqs src).grr.grr_nr_running)
        ∧ ∀ x ∈ lb_cpus K s j,
            (s.rqs x).grr.grr_nr_running = (s.rqs src).grr.grr_nr_running → src ≤ x := by
      rcases hmaxc with heq | ⟨i, hi, heq, _, hfirst⟩
      · have := hmaxb a ha
        rw [heq] at this
        simp only [] at this
        omega
      · refine ⟨i, hi, ?_, hfirst⟩
        intro x hx
        have := hmaxb x hx
        rw [heq] at this
        exact this
    -- and a least loaded CPU, below the start constant
    obtain ⟨tgt, htgt, hmin, htf, htsmall⟩ : ∃ tgt ∈ lb_cpus K s j,
        (∀ x ∈ lb_cpus K s j, (s.rqs tgt).grr.grr_nr_running ≤ (s.rqs x).grr.grr_nr_running)
        ∧ (∀ x ∈ lb_cpus K s j,
            (s.rqs x).grr.grr_nr_running = (s.rqs tgt).grr.grr_nr_running → tgt ≤ x)
        ∧ (s.rqs tgt).grr.grr_nr_running < MINLOAD_START := by
      rcases hminc with heq | ⟨i, hi, heq, hlt, hfirst⟩
      · have h1 := hminb b hbm
        rw [heq] at h1
        simp only [] at h1
        have h2 := hsmall a ha
        omega
      · refine ⟨i, hi, ?_, hfirst, hlt⟩
        intro x hx
        have := hminb x hx
        rw [heq] at this
        exact this
    have h1 := hmax a ha
    have h2 := hmin b hbm
    have hgap2 : (s.rqs tgt).grr.grr_nr_running + 2 ≤ (s.rqs src).grr.grr_nr_running := by
      omega
    have hne : src ≠ tgt := by
      intro e; rw [e] at hgap2; omega
    cases hfind : (s.rqs src).grr.queue.find? (fun p => can_move_grr_task s p src tgt) with
    | none =>
      exact Or.inl (Or.inr (Or.inr ⟨src, hsrc, tgt, htgt, hmax, hsf, hmin, htf, by omega,
        htsmall, hfind⟩))
    | some p =>
      refine Or.inr ⟨p, src, tgt, hsrc, htgt, hne, ?_, ?_⟩
      · intro mx mn
        exact ⟨_, _, (lb_pass_unbalanced K s j mx mn src tgt hsrc htgt hmax hsf hmin htf
          (by omega) htsmall).1 p hfind⟩
      · exact Or.inr (Or.inl (lb_move_settles K s j src tgt p hsrc hmax hmin hgap2 hsmall
          (hone src hsrc tgt htgt hmax hmin)))

/-- A move between two CPUs outside a group changes nothing of what the group's pass
looks at in the counts: one migration is still enough, and no count is above
`MINLOAD_START + 1`. -/
theorem lb_within_one_move_lb_move (K : Kconfig) (s : Sched) (j p src tgt : Nat)
    (hne : src ≠ tgt)
    (hs : lb_eligible K s j src = false) (ht : lb_eligible K s j tgt = false)
    (hone : lb_within_one_move K s j)
    (hsmall : ∀ a ∈ lb_cpus K s j, (s.rqs a).grr.grr_nr_running ≤ MINLOAD_START + 1) :
    lb_within_one_move K (lb_move K s p src tgt) j
      ∧ ∀ a ∈ lb_cpus K (lb_move K s p src tgt) j,
          ((lb_move K s p src tgt).rqs a).grr.grr_nr_running ≤ MINLOAD_START + 1 := by
  have hcnt := fun c hc => lb_move_count_foreign K s j p src tgt c hne hs ht hc
  unfold lb_within_one_move
  rw [lb_cpus_lb_move]
  constructor
  · intro a ha b hb hmaxa hminb
    obtain ⟨h3, h2u, h3u⟩ := hone a ha b hb
      (fun c hc => by rw [← hcnt c hc, ← hcnt a ha]; exact hmaxa c hc)
      (fun c hc => by rw [← hcnt c hc, ← hcnt b hb]; exact hminb c hc)
    rw [hcnt a ha, hcnt b hb]
    refine ⟨h3, ?_, ?_⟩
    · intro hg
      rcases h2u hg with hu | hu
      · left
        intro c hc hca
        rw [hcnt c hc]
        exact hu c hc hca
      · right
        intro c hc hcb
        rw [hcnt c hc]
        exact hu c hc hcb
    · intro hg
      obtain ⟨hu, hv⟩ := h3u hg
      constructor
      · intro c hc hca
        rw [hcnt c hc]
        exact hu c hc hca
      · intro c hc hcb
        rw [hcnt c hc]
        exact hv c hc hcb
  · intro a ha
    rw [hcnt a ha]
    exact hsmall a ha

/-- When no CPU serves both groups, a CPU that the scan of one group looks at is not one
the scan of the other group looks at. -/
theorem lb_eligible_partition (K : Kconfig) (s : Sched) (hg : K.CONFIG_GRR_GROUPS = true)
    (hpart : ∀ c, ¬ ((s.rqs c).foreground = true ∧ (s.rqs c).background = true)) (c : Nat) :
    (lb_eligible K s FOREGROUND c = true → lb_eligible K s BACKGROUND c = false)
      ∧ (lb_eligible K s BACKGROUND c = true → lb_eligible K s FOREGROUND c = false) := by
  have := hpart c
  simp only [lb_eligible, hg, FOREGROUND, BACKGROUND]
  cases hf : (s.rqs c).foreground <;> cases hb : (s.rqs c).background <;> simp_all

/-! ## When the balancer reads only queues it has stored -/

/-- A pass over a group whose counts are at most `MINLOAD_START + 1` reads no record that
no scan has stored: it ends, and no count is above `MINLOAD_START + 1` afterwards. -/
theorem lb_pass_defined (K : Kconfig) (s : Sched) (j : Nat) (mx mn : load)
    (hsmall : ∀ c, (s.rqs c).grr.grr_nr_running ≤ MINLOAD_START + 1) :
    ∃ f, grr_load_balance_pass K s j mx mn = some f
      ∧ (f = lb_flow.ret s
        ∨ ∃ s1 mx1 mn1, f = lb_flow.next s1 mx1 mn1
            ∧ ∀ c, (s1.rqs c).grr.grr_nr_running ≤ MINLOAD_START + 1) := by
  have hU : MINLOAD_START + 1 < ULONG_SIZE := by decide
  have hsome : ∃ f, grr_load_balance_pass K s j mx mn = some f := by
    obtain ⟨_, _, hmaxc, hminb, hminle, hminc⟩ := lb_scan_cpus_spec K s j mx mn
    simp only [grr_load_balance_pass]
    split
    · exact ⟨_, rfl⟩
    · split
      · rename_i hbranch
        rw [minload_start_succ_mod _ hminle] at hbranch
        rcases hmaxc with heq | ⟨i, hi, heq, _, _⟩
        · rw [heq] at hbranch
          simp only [] at hbranch
          omega
        · rcases hminc with hmeq | ⟨k, hk, hmeq, _, _⟩
          · rw [heq, hmeq] at hbranch
            simp only [] at hbranch
            have := hsmall i
            omega
          · rw [heq, hmeq]
            simp only []
            split
            · exact ⟨_, rfl⟩
            · split <;> exact ⟨_, rfl⟩
      · split <;> exact ⟨_, rfl⟩
  obtain ⟨f, hf⟩ := hsome
  refine ⟨f, hf, ?_⟩
  rcases lb_pass_cases K s j mx mn f hf with ⟨mx1, mn1, h, _⟩ | h
    | ⟨p, src, tgt, mx1, mn1, h, _, _, _, hrecheck, hwhich⟩
  · exact Or.inr ⟨s, mx1, mn1, h, hsmall⟩
  · exact Or.inl h
  · right
    refine ⟨_, mx1, mn1, h, ?_⟩
    rcases hwhich with ⟨_, hlt⟩ | ⟨_, hbig⟩
    · rw [Nat.mod_eq_of_lt (by omega)] at hrecheck
      have hne : src ≠ tgt := by
        intro e; rw [e] at hrecheck; omega
      intro c
      rw [lb_move_count K s c p src tgt hne]
      split
      · rename_i hc
        subst hc
        rw [ulong_dec_of_pos _ (by omega) (by have := hsmall c; omega)]
        have := hsmall c
        omega
      · split
        · rename_i hc
          subst hc
          rw [ulong_inc_of_lt _ (by omega)]
          omega
        · exact hsmall c
    · have := hsmall src
      omega

/-- The group loop ends when no count is above `MINLOAD_START + 1`. -/
theorem lb_loop_defined (K : Kconfig) (js : List Nat) :
    ∀ (s : Sched) (mx mn : load), (∀ c, (s.rqs c).grr.grr_nr_running ≤ MINLOAD_START + 1) →
      ∃ s1, lb_loop K js s mx mn = some s1 := by
  induction js with
  | nil => intro s _ _ _; exact ⟨s, rfl⟩
  | cons j js ih =>
    intro s mx mn hsmall
    obtain ⟨f, hf, hcase⟩ := lb_pass_defined K s j mx mn hsmall
    simp only [lb_loop, hf]
    rcases hcase with h | ⟨s1, mx1, mn1, h, hs1⟩
    · subst h
      exact ⟨s, rfl⟩
    · subst h
      exact ih s1 mx1 mn1 hs1
/-! ## Claims -/

/-- C1: starting from an initialised run queue, after every step of every sequence of
`enqueue_grr_entity` / `dequeue_grr_entity` calls that enqueues only tasks not linked in the
queue and dequeues only tasks linked in it, `grr_nr_running` equals the number of tasks
linked in the queue. -/
theorem grr_nr_running_eq_length (s : Sched) (c : Nat) (ops : List queue_op)
    (hvalid : queue_ops_valid c (init_grr_rq s c) ops = true) (k : Nat) :
    ((run_queue_ops c (init_grr_rq s c) (ops.take k)).rqs c).grr.grr_nr_running
      = ((run_queue_ops c (init_grr_rq s c) (ops.take k)).rqs c).grr.queue.length :=
  (queue_inv_run c (ops.take k) _ (queue_inv_init s c)
    (queue_ops_valid_take c ops _ k hvalid)).2.2

/-- C1, on the sequence enqueue 7 at the tail, enqueue 9 at the head, dequeue 7,
enqueue 5 at the tail. -/
theorem grr_nr_running_eq_length_witness :
    queue_ops_valid 0 (init_grr_rq blank_sched 0)
        [queue_op.enqueue 7 false, queue_op.enqueue 9 true, queue_op.dequeue 7,
          queue_op.enqueue 5 false] = true
      ∧ ((run_queue_ops 0 (init_grr_rq blank_sched 0)
            ([queue_op.enqueue 7 false, queue_op.enqueue 9 true, queue_op.dequeue 7,
              queue_op.enqueue 5 false].take 4)).rqs 0).grr.grr_nr_running
          = ((run_queue_ops 0 (init_grr_rq blank_sched 0)
            ([queue_op.enqueue 7 false, queue_op.enqueue 9 true, queue_op.dequeue 7,
              queue_op.enqueue 5 false].take 4)).rqs 0).grr.queue.length :=
  ⟨by decide, grr_nr_running_eq_length blank_sched 0 _ (by decide) 4⟩

/-- C2: on a run queue holding `n ≥ 2` distinct tasks `q`, each with a full time slice,
the loop "take the task `pick_next_task_grr` returns as current, tick it until it is
requeued" runs for any number `m` of turns, and turn `i` runs the task `q[i mod n]` (the
cyclic order), for exactly `GRR_TIMESLICE` ticks, ending with that task moved to the tail
(the queue is `q` rotated) and a reschedule of it requested by the last tick. -/
theorem round_robin_order (K : Kconfig) (s : Sched) (c fuel m : Nat) (q : List Nat)
    (hTS1 : 1 ≤ K.GRR_TIMESLICE) (hTS2 : K.GRR_TIMESLICE < UINT_SIZE)
    (hfuel : K.GRR_TIMESLICE ≤ fuel)
    (hlen : 2 ≤ q.length) (hnd : q.Nodup) (hq : (s.rqs c).grr.queue = q)
    (hcnt : (s.rqs c).grr.grr_nr_running = q.length)
    (hptr : ∀ x ∈ q, x ≠ 0)
    (hts : ∀ x ∈ q, (s.tasks x).grr.time_slice = K.GRR_TIMESLICE) :
    ∃ s', rr_run K c fuel m s
        = some ((List.range m).map (fun i =>
            { task := q.getD (i % q.length) 0, ticks := K.GRR_TIMESLICE, resched := true }), s')
      ∧ (s'.rqs c).grr.queue = q.rotate m
      ∧ (s'.rqs c).grr.grr_nr_running = q.length
      ∧ ∀ x ∈ q, (s'.tasks x).grr.time_slice = K.GRR_TIMESLICE := by
  have hne : q ≠ [] := by
    intro h; subst h; simp at hlen
  have hinv : rr_inv K s c q :=
    ⟨hq, by rw [hcnt]; omega, fun x hx => ⟨hptr x hx, hts x hx⟩⟩
  have hcount : ∀ (k : Nat) (t : Sched), (t.rqs c).grr.grr_nr_running = q.length →
      ∀ (r : List rr_turn_log × Sched), rr_run K c fuel k t = some r →
        (r.2.rqs c).grr.grr_nr_running = q.length := by
    intro k
    induction k with
    | zero =>
      intro t ht r hr
      simp only [rr_run, Option.some.injEq] at hr
      subst hr; exact ht
    | succ k ih =>
      intro t ht r hr
      simp only [rr_run] at hr
      cases hturn : rr_turn K c fuel t with
      | none => rw [hturn] at hr; simp at hr
      | some e =>
        rw [hturn] at hr
        simp only [] at hr
        cases hrest : rr_run K c fuel k e.2 with
        | none => rw [hrest] at hr; simp at hr
        | some r1 =>
          rw [hrest] at hr
          simp only [Option.some.injEq] at hr
          subst hr
          refine ih e.2 ?_ r1 hrest
          -- a turn keeps the running count
          simp only [rr_turn] at hturn
          cases hp : pick_next_task_grr t c with
          | none => rw [hp] at hturn; simp at hturn
          | some pr =>
            obtain ⟨po, t1⟩ := pr
            cases po with
            | none => rw [hp] at hturn; simp at hturn
            | some p =>
              rw [hp] at hturn
              simp only [] at hturn
              have ht1 : t1.rqs = t.rqs := by
                simp only [pick_next_task_grr] at hp
                split at hp
                · simp at hp
                · split at hp
                  · simp at hp
                  · split at hp
                    · simp at hp
                    · simp only [Option.some.injEq, Prod.mk.injEq] at hp
                      rw [← hp.2]; rfl
              have hloop : ∀ (f : Nat) (u : Sched) (kk : Nat) (u' : Sched),
                  tick_until_requeued K c p f u = some (kk, u') →
                  (u'.rqs c).grr.grr_nr_running = (u.rqs c).grr.grr_nr_running := by
                intro f
                induction f with
                | zero => intro u kk u' h; simp [tick_until_requeued] at h
                | succ f ihf =>
                  intro u kk u' h
                  simp only [tick_until_requeued] at h
                  split at h
                  · simp only [Option.some.injEq, Prod.mk.injEq] at h
                    rw [← h.2, task_tick_grr_count]
                  · cases hrec : tick_until_requeued K c p f (task_tick_grr K u c p) with
                    | none => rw [hrec] at h; simp at h
                    | some r2 =>
                      rw [hrec] at h
                      simp only [Option.some.injEq, Prod.mk.injEq] at h
                      rw [← h.2, ihf _ r2.1 r2.2 hrec, task_tick_grr_count]
              cases hl : tick_until_requeued K c p fuel (rr_make_current t1 c p) with
              | none => rw [hl] at hturn; simp at hturn
              | some r3 =>
                rw [hl] at hturn
                simp only [Option.some.injEq] at hturn
                rw [← hturn]
                simp only []
                rw [hloop fuel _ r3.1 r3.2 hl]
                simp [rr_make_current, ht1, ht]
  obtain ⟨s', hrun, hq', _, hts'⟩ := rr_run_spec K c fuel hTS1 hTS2 hfuel m q s hlen hnd hinv
  refine ⟨s', ?_, hq', hcount m s hcnt _ hrun, ?_⟩
  · rw [hrun]
    congr 2
    apply List.map_congr_left
    intro i _
    rw [rotate_headI_eq_getD q i hne]
  · intro x hx
    exact (hts' x ((List.mem_rotate).mpr hx)).2

/-- C2 on the queue `[3, 5, 8]`: four turns run 3, 5, 8 and 3 again. -/
theorem round_robin_order_witness :
    ∃ s', rr_run example_K 0 10 4 rr_example
        = some ((List.range 4).map (fun i =>
            { task := [3, 5, 8].getD (i % [3, 5, 8].length) 0,
              ticks := example_K.GRR_TIMESLICE, resched := true }), s')
      ∧ (s'.rqs 0).grr.queue = [3, 5, 8].rotate 4
      ∧ (s'.rqs 0).grr.grr_nr_running = [3, 5, 8].length
      ∧ ∀ x ∈ [3, 5, 8], (s'.tasks x).grr.time_slice = example_K.GRR_TIMESLICE :=
  round_robin_order example_K rr_example 0 10 4 [3, 5, 8] (by decide) (by decide) (by decide)
    (by decide) (by decide) rfl rfl (by decide) (by decide)

/-- C3: on a run queue that holds exactly one task, a tick that brings the task's time
slice to zero resets the slice to `GRR_TIMESLICE`, leaves every run queue as it was (the
task stays at the head, `grr_nr_running` is unchanged) and requests no reschedule. -/
theorem single_task_tick_no_requeue (K : Kconfig) (s : Sched) (c p : Nat)
    (hq : (s.rqs c).grr.queue = [p])
    (h0 : uint_dec (s.tasks p).grr.time_slice = 0) :
    ((task_tick_grr K s c p).tasks p).grr.time_slice = K.GRR_TIMESLICE
      ∧ (task_tick_grr K s c p).rqs = s.rqs
      ∧ ((task_tick_grr K s c p).rqs c).grr.queue = [p]
      ∧ ((task_tick_grr K s c p).rqs c).grr.grr_nr_running = (s.rqs c).grr.grr_nr_running
      ∧ ∀ x, ((task_tick_grr K s c p).tasks x).need_resched = (s.tasks x).need_resched := by
  have hlen : (s.rqs c).grr.queue.length < 2 := by rw [hq]; simp
  have hrqs := task_tick_grr_rqs_alone K s c p hlen
  refine ⟨?_, hrqs, by rw [hrqs, hq], by rw [hrqs], ?_⟩
  · rw [task_tick_grr_time_slice, if_pos rfl, if_pos h0]
  · intro x
    exact task_tick_grr_need_resched_alone K s c p x hlen

/-- C3 on the queue `[3]` with one tick left in the slice of task 3. -/
theorem single_task_tick_no_requeue_witness :
    ((task_tick_grr example_K single_example 0 3).tasks 3).grr.time_slice
        = example_K.GRR_TIMESLICE
      ∧ (task_tick_grr example_K single_example 0 3).rqs = single_example.rqs
      ∧ ((task_tick_grr example_K single_example 0 3).rqs 0).grr.queue = [3]
      ∧ ((task_tick_grr example_K single_example 0 3).rqs 0).grr.grr_nr_running
          = (single_example.rqs 0).grr.grr_nr_running
      ∧ ∀ x, ((task_tick_grr example_K single_example 0 3).tasks x).need_resched
          = (single_example.tasks x).need_resched :=
  single_task_tick_no_requeue example_K single_example 0 3 rfl (by decide)

/-- C4, as stated, fails: task 7 is allowed on CPU 1 only (and its cached count of allowed
CPUs is 1), its current CPU is 0, and `select_task_rq_grr` returns 0, not the single
allowed CPU 1. -/
theorem select_single_allowed_counterexample :
    (∀ i, (pinned_example.tasks 7).cpus_allowed i = true ↔ i = 1)
      ∧ (pinned_example.tasks 7).grr.nr_cpus_allowed = 1
      ∧ select_task_rq_grr example_K pinned_example 7 = 0
      ∧ select_task_rq_grr example_K pinned_example 7 ≠ 1 := by
  refine ⟨?_, rfl, by decide, by decide⟩
  intro i
  simp [pinned_example, example_task]

/-- C4, amended: for a task whose allowed set has exactly one member `m` (and whose cached
count of allowed CPUs is 1), `select_task_rq_grr` returns the task's current CPU, whatever
the running counts are; that is `m` whenever the current CPU is in the allowed set. -/
theorem select_single_allowed_returns_current (K : Kconfig) (s : Sched) (p m : Nat)
    (hone : ∀ i, (s.tasks p).cpus_allowed i = true ↔ i = m)
    (hcnt : (s.tasks p).grr.nr_cpus_allowed = 1) :
    select_task_rq_grr K s p = (s.tasks p).cpu
      ∧ ((s.tasks p).cpus_allowed (s.tasks p).cpu = true → select_task_rq_grr K s p = m) := by
  have h : select_task_rq_grr K s p = (s.tasks p).cpu := by
    simp only [select_task_rq_grr]
    rw [if_pos hcnt]
  exact ⟨h, fun hal => by rw [h]; exact (hone _).mp hal⟩

/-- C4, amended, on task 7 of `pinned_example`: it stays on its current CPU 0. -/
theorem select_single_allowed_returns_current_witness :
    select_task_rq_grr example_K pinned_example 7 = (pinned_example.tasks 7).cpu
      ∧ ((pinned_example.tasks 7).cpus_allowed (pinned_example.tasks 7).cpu = true →
          select_task_rq_grr example_K pinned_example 7 = 1) :=
  select_single_allowed_returns_current example_K pinned_example 7 1
    (by intro i; simp [pinned_example, example_task]) rfl

/-- C5: with groups disabled and a task that is not confined to one CPU,
`select_task_rq_grr` returns the task's original CPU when no online allowed CPU has a
running count below the original CPU's, and otherwise the lowest-numbered online allowed
CPU whose running count is the least over the online allowed CPUs; for the counts 3, 1, 2
on the CPUs 0, 1, 2 (all online and allowed) it returns CPU 1 from every original CPU. -/
theorem select_least_loaded (K : Kconfig) (s : Sched) (p : Nat)
    (hg : K.CONFIG_GRR_GROUPS = false) (hn : (s.tasks p).grr.nr_cpus_allowed ≠ 1) :
    ((∀ i ∈ online_cpus K s, (s.tasks p).cpus_allowed i = true →
          (s.rqs (s.tasks p).cpu).grr.grr_nr_running ≤ (s.rqs i).grr.grr_nr_running) →
        select_task_rq_grr K s p = (s.tasks p).cpu)
      ∧ ((∃ i ∈ online_cpus K s, (s.tasks p).cpus_allowed i = true
            ∧ (s.rqs i).grr.grr_nr_running < (s.rqs (s.tasks p).cpu).grr.grr_nr_running) →
          select_task_rq_grr K s p ∈ online_cpus K s
          ∧ (s.tasks p).cpus_allowed (select_task_rq_grr K s p) = true
          ∧ (∀ i ∈ online_cpus K s, (s.tasks p).cpus_allowed i = true →
              (s.rqs (select_task_rq_grr K s p)).grr.grr_nr_running
                ≤ (s.rqs i).grr.grr_nr_running)
          ∧ (∀ i ∈ online_cpus K s, (s.tasks p).cpus_allowed i = true →
              (s.rqs i).grr.grr_nr_running
                = (s.rqs (select_task_rq_grr K s p)).grr.grr_nr_running →
              select_task_rq_grr K s p ≤ i))
      ∧ (K.nr_cpu_ids = 3 →
          (∀ i, i < 3 → s.cpu_online i = true ∧ (s.tasks p).cpus_allowed i = true) →
          (s.rqs 0).grr.grr_nr_running = 3 → (s.rqs 1).grr.grr_nr_running = 1 →
          (s.rqs 2).grr.grr_nr_running = 2 → (s.tasks p).cpu < 3 →
          select_task_rq_grr K s p = 1) := by
  obtain ⟨h1, h2⟩ := select_task_rq_grr_nogroups_spec K s p hg hn
  refine ⟨h1, h2, ?_⟩
  intro hK hall c0 c1 c2 horig
  have hmem : ∀ i, i ∈ online_cpus K s ↔ i < 3 := by
    intro i
    rw [mem_online_cpus, hK]
    exact ⟨fun h => h.1, fun h => ⟨h, (hall i h).1⟩⟩
  by_cases hcur : (s.tasks p).cpu = 1
  · -- nothing is below the count of CPU 1
    rw [h1, hcur]
    intro i hi _
    rw [hcur, c1]
    have hi3 := (hmem i).mp hi
    interval_cases i <;> omega
  · -- CPU 1 is below the count of the original CPU
    have hlt : (s.rqs 1).grr.grr_nr_running < (s.rqs (s.tasks p).cpu).grr.grr_nr_running := by
      rw [c1]
      interval_cases hc : (s.tasks p).cpu
      · omega
      · exact absurd rfl hcur
      · omega
    obtain ⟨hsel, _, hmin, _⟩ := h2 ⟨1, (hmem 1).mpr (by omega), (hall 1 (by omega)).2, hlt⟩
    have hsel3 := (hmem _).mp hsel
    have hle := hmin 1 ((hmem 1).mpr (by omega)) (hall 1 (by omega)).2
    rw [c1] at hle
    interval_cases hr : select_task_rq_grr K s p
    · omega
    · rfl
    · omega

/-- C5 on the counts 3, 1, 2 with the task coming from CPU 2. -/
theorem select_least_loaded_witness :
    select_task_rq_grr example_K3 (load_example 2) 7 = 1 :=
  (select_least_loaded example_K3 (load_example 2) 7 rfl (by decide)).2.2 rfl
    (by intro i hi; interval_cases i <;> exact ⟨rfl, rfl⟩) rfl rfl rfl (by decide)

/-- C6, the failing input: with groups enabled, task 7 of the background group sits on
CPU 0, which serves its group and holds three tasks; CPU 1 is empty, allowed and serves
the foreground group only. The scan tests the group flags of the original CPU 0 for every
CPU it visits, lets CPU 1 through, and `select_task_rq_grr` returns CPU 1, which does not
serve the task's group. -/
theorem select_ignores_flags_of_scanned_cpu :
    example_K.CONFIG_GRR_GROUPS = true
      ∧ task_is_background group_example 7 = true
      ∧ (group_example.tasks 7).cpu = 0
      ∧ (group_example.rqs 1).background = false
      ∧ select_task_rq_grr example_K group_example 7 = 1
      ∧ cpu_serves_group_of group_example 7 (select_task_rq_grr example_K group_example 7)
          = false := by
  refine ⟨rfl, by decide, rfl, rfl, by decide, by decide⟩

/-- C7: `task_move_group_grr` changes nothing when a check made under the locks fails:
the task's CPU is no longer the source recorded before locking, or the target is not in
the allowed set, or the target is offline, or the task is executing, or the target is the
source, or the task is neither running, waking nor in an active preemption. The state
after the call is the state in which the locks were taken. -/
theorem task_move_group_grr_abort (K : Kconfig) (s0 s : Sched) (p : Nat)
    (h : (s.tasks p).cpu ≠ (s0.tasks p).cpu
      ∨ (s.tasks p).cpus_allowed (select_task_rq_grr K s0 p) = false
      ∨ s.cpu_online (select_task_rq_grr K s0 p) = false
      ∨ (s.tasks p).on_cpu = true
      ∨ select_task_rq_grr K s0 p = (s0.tasks p).cpu
      ∨ ((s.tasks p).state ≠ TASK_RUNNING ∧ (s.tasks p).state ≠ TASK_WAKING
          ∧ (s.tasks p).preempt_active = false)) :
    task_move_group_grr_after K s0 s p = s := by
  simp only [task_move_group_grr_after, task_move_group_grr_locked]
  by_cases h1 : (s.tasks p).cpu ≠ (s0.tasks p).cpu
  · rw [if_pos h1]
  rw [if_neg h1]
  by_cases h2 : (!can_move_grr_task s p (s0.tasks p).cpu (select_task_rq_grr K s0 p)) = true
  · rw [if_pos h2]
  rw [if_neg h2]
  by_cases h3 : select_task_rq_grr K s0 p = (s0.tasks p).cpu
  · rw [if_pos h3]
  rw [if_neg h3]
  by_cases h4 : (s.tasks p).state ≠ TASK_RUNNING ∧ (s.tasks p).state ≠ TASK_WAKING
      ∧ (s.tasks p).preempt_active = false
  · rw [if_pos h4]
  exfalso
  rcases h with h | h | h | h | h | h
  · exact h1 h
  · apply h2; simp [can_move_grr_task, h]
  · apply h2; simp [can_move_grr_task, h]
  · apply h2; simp [can_move_grr_task, h]
  · exact h3 h
  · exact h4 h

/-- C7 on task 7 of `pinned_example`, which another CPU has moved to CPU 2 between the
choice of the queues and the taking of the locks. -/
theorem task_move_group_grr_abort_witness :
    task_move_group_grr_after example_K pinned_example
        (set_task_cpu pinned_example 7 2) 7
      = set_task_cpu pinned_example 7 2 :=
  task_move_group_grr_abort example_K pinned_example (set_task_cpu pinned_example 7 2) 7
    (Or.inl (by decide))

/-- C8: in a state in which, in every group of the balancer's loop, the running counts of
the online CPUs serving the group differ by at most one (the largest is at most the
smallest plus one) and none is above 1000001, every pass of `grr_load_balance` leaves the
state as it is, whatever the records `maxload` and `minload` hold when it is entered, and
the call returns the state it was called in: every run queue, every running count and
every task's assigned CPU is unchanged. -/
theorem load_balance_balanced_noop (K : Kconfig) (s : Sched)
    (hbal : ∀ j ∈ lb_groups K, ∀ a ∈ lb_cpus K s j, ∀ b ∈ lb_cpus K s j,
      (s.rqs a).grr.grr_nr_running ≤ (s.rqs b).grr.grr_nr_running + 1)
    (hsmall : ∀ j ∈ lb_groups K, ∀ a ∈ lb_cpus K s j,
      (s.rqs a).grr.grr_nr_running ≤ MINLOAD_START + 1) :
    (∀ j ∈ lb_groups K, ∀ mx mn : load,
        (∃ mx1 mn1, grr_load_balance_pass K s j mx mn = some (lb_flow.next s mx1 mn1))
          ∨ grr_load_balance_pass K s j mx mn = some (lb_flow.ret s))
      ∧ grr_load_balance K s = some s
      ∧ ∃ s1, grr_load_balance K s = some s1
          ∧ (∀ c, (s1.rqs c).grr.queue = (s.rqs c).grr.queue
              ∧ (s1.rqs c).grr.grr_nr_running = (s.rqs c).grr.grr_nr_running)
          ∧ ∀ x, (s1.tasks x).cpu = (s.tasks x).cpu :=
  ⟨fun j hj mx mn => lb_pass_balanced K s j mx mn (hbal j hj) (hsmall j hj),
    grr_load_balance_balanced K s hbal hsmall,
    s, grr_load_balance_balanced K s hbal hsmall, fun _ => ⟨rfl, rfl⟩, fun _ => rfl⟩

/-- C8 on two CPUs holding two tasks and one task: the balancer leaves them alone. -/
theorem load_balance_balanced_noop_witness :
    (∀ j ∈ lb_groups example_K2, ∀ mx mn : load,
        (∃ mx1 mn1, grr_load_balance_pass example_K2 even_example j mx mn
            = some (lb_flow.next even_example mx1 mn1))
          ∨ grr_load_balance_pass example_K2 even_example j mx mn
              = some (lb_flow.ret even_example))
      ∧ grr_load_balance example_K2 even_example = some even_example
      ∧ ∃ s1, grr_load_balance example_K2 even_example = some s1
          ∧ (∀ c, (s1.rqs c).grr.queue = (even_example.rqs c).grr.queue
              ∧ (s1.rqs c).grr.grr_nr_running = (even_example.rqs c).grr.grr_nr_running)
          ∧ ∀ x, (s1.tasks x).cpu = (even_example.tasks x).cpu :=
  load_balance_balanced_noop example_K2 even_example (by decide) (by decide)

/-- C9, as stated, fails: the CPUs 0 and 1 are online and serve the foreground group,
CPU 0 holds two tasks and CPU 1 none, so the largest count is the smallest plus two; but
both tasks are allowed on CPU 0 only, `can_move_grr_task` rejects them, and the balancer
migrates nothing. -/
theorem load_balance_moves_one_counterexample :
    lb_cpus example_K2 affinity_example FOREGROUND = [0, 1]
      ∧ (affinity_example.rqs 0).grr.grr_nr_running
          = (affinity_example.rqs 1).grr.grr_nr_running + 2
      ∧ grr_load_balance_pass example_K2 affinity_example FOREGROUND lb_unset lb_unset
          = some (lb_flow.next affinity_example
              { nr_running := 2, rq := some 0 } { nr_running := 0, rq := some 1 })
      ∧ grr_load_balance example_K2 affinity_example = some affinity_example
      ∧ (grr_load_balance example_K2 affinity_example).map queues01 = some ([11, 12], []) := by
  refine ⟨by decide, by decide, rfl, rfl, by decide⟩

/-- C9, amended: let `src` be the lowest-numbered CPU with the largest running count and
`tgt` the lowest-numbered CPU with the smallest running count among the online CPUs that
serve group `j`, with the count of `src` two above the count of `tgt`, the count of `tgt`
below 1000000, both counts equal to the lengths of their queues, and no task linked in
two queues. If the queue of `src` holds a task that `can_move_grr_task` accepts, the pass
for group `j` makes exactly one migration: it takes the first such task `p` out of the
queue of `src`, appends it to the queue of `tgt` and assigns it to `tgt`; every other
queue, running count and assigned CPU is unchanged, and on `src` and on `tgt` the
running count again equals the length of the queue. The pass does so whatever the records
`maxload` and `minload` hold when it is entered, and leaves `src` and `tgt` in them. With
groups disabled this pass is the whole call. -/
theorem load_balance_moves_one (K : Kconfig) (s : Sched) (j src tgt : Nat)
    (hsrc : src ∈ lb_cpus K s j) (htgt : tgt ∈ lb_cpus K s j)
    (hmax : ∀ a ∈ lb_cpus K s j,
      (s.rqs a).grr.grr_nr_running ≤ (s.rqs src).grr.grr_nr_running)
    (hsrc_first : ∀ a ∈ lb_cpus K s j,
      (s.rqs a).grr.grr_nr_running = (s.rqs src).grr.grr_nr_running → src ≤ a)
    (hmin : ∀ a ∈ lb_cpus K s j,
      (s.rqs tgt).grr.grr_nr_running ≤ (s.rqs a).grr.grr_nr_running)
    (htgt_first : ∀ a ∈ lb_cpus K s j,
      (s.rqs a).grr.grr_nr_running = (s.rqs tgt).grr.grr_nr_running → tgt ≤ a)
    (hgap : (s.rqs src).grr.grr_nr_running = (s.rqs tgt).grr.grr_nr_running + 2)
    (hsmall : (s.rqs tgt).grr.grr_nr_running < MINLOAD_START)
    (hlen_src : (s.rqs src).grr.grr_nr_running = (s.rqs src).grr.queue.length)
    (hlen_tgt : (s.rqs tgt).grr.grr_nr_running = (s.rqs tgt).grr.queue.length)
    (hone : ∀ c1 c2 x, x ∈ (s.rqs c1).grr.queue → x ∈ (s.rqs c2).grr.queue → c1 = c2)
    (hmov : ∃ p ∈ (s.rqs src).grr.queue, can_move_grr_task s p src tgt = true) :
    ∃ p s1, (s.rqs src).grr.queue.find? (fun p => can_move_grr_task s p src tgt) = some p
      ∧ p ∈ (s.rqs src).grr.queue
      ∧ (∀ mx mn : load, grr_load_balance_pass K s j mx mn
          = some (lb_flow.next s1
              { nr_running := (s.rqs src).grr.grr_nr_running, rq := some src }
              { nr_running := (s.rqs tgt).grr.grr_nr_running, rq := some tgt }))
      ∧ (K.CONFIG_GRR_GROUPS = false → grr_load_balance K s = some s1)
      ∧ (s1.rqs src).grr.queue = (s.rqs src).grr.queue.erase p
      ∧ (s1.rqs tgt).grr.queue = (s.rqs tgt).grr.queue ++ [p]
      ∧ (∀ c, c ≠ src → c ≠ tgt →
          (s1.rqs c).grr.queue = (s.rqs c).grr.queue
          ∧ (s1.rqs c).grr.grr_nr_running = (s.rqs c).grr.grr_nr_running)
      ∧ (s1.tasks p).cpu = tgt
      ∧ (∀ x, x ≠ p → (s1.tasks x).cpu = (s.tasks x).cpu)
      ∧ (s1.rqs src).grr.grr_nr_running = (s1.rqs src).grr.queue.length
      ∧ (s1.rqs tgt).grr.grr_nr_running = (s1.rqs tgt).grr.queue.length := by
  have hne : src ≠ tgt := by
    intro h; rw [h] at hgap; omega
  have hsome := fun mx mn => (lb_pass_unbalanced K s j mx mn src tgt hsrc htgt hmax hsrc_first
    hmin htgt_first (by omega) hsmall).1
  obtain ⟨p0, hp0, hp0mov⟩ := hmov
  cases hfind : (s.rqs src).grr.queue.find? (fun p => can_move_grr_task s p src tgt) with
  | none =>
    have := List.find?_eq_none.mp hfind p0 hp0
    simp [hp0mov] at this
  | some p =>
    have hpmem : p ∈ (s.rqs src).grr.queue := List.mem_of_find?_eq_some hfind
    have hpass := fun mx mn => hsome mx mn p hfind
    have hnot : ∀ c, c ≠ src → p ∉ (s.rqs c).grr.queue := by
      intro c hc hin
      exact hc (hone c src p hin hpmem)
    have hU : MINLOAD_START + 2 < ULONG_SIZE := by decide
    have hqsrc : ((lb_move K s p src tgt).rqs src).grr.queue = (s.rqs src).grr.queue.erase p := by
      rw [lb_move_queue, if_neg hne]
    have hqtgt : ((lb_move K s p src tgt).rqs tgt).grr.queue = (s.rqs tgt).grr.queue ++ [p] := by
      rw [lb_move_queue, if_pos rfl, List.erase_of_not_mem (hnot tgt (Ne.symm hne))]
    refine ⟨p, lb_move K s p src tgt, rfl, hpmem, hpass, ?_, hqsrc, hqtgt, ?_, ?_, ?_, ?_, ?_⟩
    · intro hg
      exact grr_load_balance_nogroups K s _ j hg (Or.inl ⟨_, _, hpass lb_unset lb_unset⟩)
    · intro c hc1 hc2
      constructor
      · rw [lb_move_queue, if_neg hc2, List.erase_of_not_mem (hnot c hc1)]
      · rw [lb_move_count K s c p src tgt hne, if_neg hc1, if_neg hc2]
    · rw [lb_move_task_cpu, if_pos rfl]
    · intro x hx
      rw [lb_move_task_cpu, if_neg hx]
    · rw [hqsrc, lb_move_count K s src p src tgt hne, if_pos rfl,
        ulong_dec_of_pos _ (by omega) (by omega), List.length_erase_of_mem hpmem, hlen_src]
    · rw [hqtgt, lb_move_count K s tgt p src tgt hne, if_neg (Ne.symm hne), if_pos rfl,
        ulong_inc_of_lt _ (by omega), hlen_tgt]
      simp

/-- C9, amended, on CPU 0 holding the tasks 11 and 12 and CPU 1 empty: task 11 moves. -/
theorem load_balance_moves_one_witness :
    ∃ p s1, (gap_example.rqs 0).grr.queue.find?
          (fun p => can_move_grr_task gap_example p 0 1) = some p
      ∧ p ∈ (gap_example.rqs 0).grr.queue
      ∧ (∀ mx mn : load, grr_load_balance_pass example_K2 gap_example FOREGROUND mx mn
          = some (lb_flow.next s1
              { nr_running := (gap_example.rqs 0).grr.grr_nr_running, rq := some 0 }
              { nr_running := (gap_example.rqs 1).grr.grr_nr_running, rq := some 1 }))
      ∧ (example_K2.CONFIG_GRR_GROUPS = false → grr_load_balance example_K2 gap_example = some s1)
      ∧ (s1.rqs 0).grr.queue = (gap_example.rqs 0).grr.queue.erase p
      ∧ (s1.rqs 1).grr.queue = (gap_example.rqs 1).grr.queue ++ [p]
      ∧ (∀ c, c ≠ 0 → c ≠ 1 →
          (s1.rqs c).grr.queue = (gap_example.rqs c).grr.queue
          ∧ (s1.rqs c).grr.grr_nr_running = (gap_example.rqs c).grr.grr_nr_running)
      ∧ (s1.tasks p).cpu = 1
      ∧ (∀ x, x ≠ p → (s1.tasks x).cpu = (gap_example.tasks x).cpu)
      ∧ (s1.rqs 0).grr.grr_nr_running = (s1.rqs 0).grr.queue.length
      ∧ (s1.rqs 1).grr.grr_nr_running = (s1.rqs 1).grr.queue.length :=
  load_balance_moves_one example_K2 gap_example FOREGROUND 0 1 (by decide) (by decide)
    (by decide) (by decide) (by decide) (by decide) (by decide) (by decide) rfl rfl
    (by
      intro c1 c2 x h1 h2
      by_cases hc1 : c1 = 0
      · by_cases hc2 : c2 = 0
        · rw [hc1, hc2]
        · simp [gap_example, hc2, blank_rq] at h2
      · simp [gap_example, hc1, blank_rq] at h1)
    ⟨11, by decide, by decide⟩

/-- C10, as stated, fails: CPU 0 holds four movable tasks and CPU 1 none. The first call
moves task 11 and leaves the counts 3 and 1; the second call does not see a balanced
state and moves task 12: two migrations in two calls. -/
theorem load_balance_twice_counterexample :
    (grr_load_balance example_K2 burst_example).map queues01 = some ([12, 13, 14], [11])
      ∧ (grr_load_balance example_K2 burst_example).map counts01 = some (3, 1)
      ∧ ((grr_load_balance example_K2 burst_example).bind
          (grr_load_balance example_K2)).map queues01 = some ([13, 14], [11, 12])
      ∧ ((grr_load_balance example_K2 burst_example).bind
          (grr_load_balance example_K2)).map counts01 = some (2, 2) := by
  refine ⟨by decide, by decide, by decide, by decide⟩

/-- C10, amended: take a state in which, in every group of the balancer's loop, one
migration is enough: the largest and the smallest running count of the online CPUs serving
the group differ by at most three, the most loaded or the least loaded CPU is the only one
with its count when they differ by two, and both are when they differ by three; no count
is above 1000001 and, with groups enabled, no CPU serves both groups. Then the first call
of `grr_load_balance` returns, having made at most one migration for each group, from one
CPU of the group to another (at most one in all with groups disabled), and a second call
made right after it returns the state it was called in: the two calls together make at
most one migration per group. -/
theorem load_balance_twice (K : Kconfig) (s : Sched)
    (hone : ∀ j ∈ lb_groups K, lb_within_one_move K s j)
    (hsmall : ∀ j ∈ lb_groups K, ∀ a ∈ lb_cpus K s j,
      (s.rqs a).grr.grr_nr_running ≤ MINLOAD_START + 1)
    (hpart : K.CONFIG_GRR_GROUPS = true →
      ∀ c, ¬ ((s.rqs c).foreground = true ∧ (s.rqs c).background = true)) :
    ∃ (s1 : Sched) (moves : List (Nat × Nat × Nat)),
      grr_load_balance K s = some s1
        ∧ s1 = apply_moves K s moves
        ∧ moves.length ≤ (if K.CONFIG_GRR_GROUPS = true then 2 else 1)
        ∧ (∀ m ∈ moves, ∃ j ∈ lb_groups K,
            m.2.1 ∈ lb_cpus K s j ∧ m.2.2 ∈ lb_cpus K s j)
        ∧ (∀ j ∈ lb_groups K,
            moves.countP (fun m => decide (m.2.1 ∈ lb_cpus K s j)) ≤ 1)
        ∧ grr_load_balance K s1 = some s1 := by
  by_cases hg : K.CONFIG_GRR_GROUPS = true
  · have hgr : lb_groups K = [FOREGROUND, BACKGROUND] := by
      simp [lb_groups, hg, FOREGROUND, BACKGROUND, List.range']
    have hF : FOREGROUND ∈ lb_groups K := by rw [hgr]; simp
    have hB : BACKGROUND ∈ lb_groups K := by rw [hgr]; simp
    have hp := lb_eligible_partition K s hg (hpart hg)
    rw [if_pos hg]
    rcases lb_pass_one_move K s FOREGROUND (hone _ hF) (hsmall _ hF) with
      hset1 | ⟨p, src, tgt, hsrc, htgt, hne, hpass1, hset1⟩
    · rcases lb_settled_pass K s FOREGROUND hset1 lb_unset lb_unset with ⟨mx1, mn1, hp1⟩ | hp1
      · rcases lb_pass_one_move K s BACKGROUND (hone _ hB) (hsmall _ hB) with
          hset2 | ⟨q, src2, tgt2, hsrc2, htgt2, hne2, hpass2, hset2⟩
        · have h1 : grr_load_balance K s = some s := by
            rw [grr_load_balance, hgr]
            exact lb_loop_settled K s _ (by
              intro j hj
              simp only [List.mem_cons, List.mem_singleton, List.not_mem_nil, or_false] at hj
              rcases hj with rfl | rfl
              · exact hset1
              · exact hset2) _ _
          exact ⟨s, [], h1, rfl, by simp, by simp, by simp, h1⟩
        · obtain ⟨mx2, mn2, hp2⟩ := hpass2 mx1 mn1
          refine ⟨lb_move K s q src2 tgt2, [(q, src2, tgt2)], ?_, rfl, by simp,
            by
              intro m hm
              simp only [List.mem_singleton] at hm
              subst hm
              exact ⟨BACKGROUND, hB, hsrc2, htgt2⟩,
            fun j _ => (List.countP_le_length _).trans (by simp), ?_⟩
          · rw [grr_load_balance, hgr]
            simp only [lb_loop, hp1, hp2]
          · rw [grr_load_balance, hgr]
            refine lb_loop_settled K _ _ ?_ _ _
            intro j hj
            simp only [List.mem_cons, List.mem_singleton, List.not_mem_nil, or_false] at hj
            rcases hj with rfl | rfl
            · exact lb_settled_lb_move K s FOREGROUND q src2 tgt2 hne2
                ((hp src2).2 ((mem_lb_cpus K s _ _).mp hsrc2).2)
                ((hp tgt2).2 ((mem_lb_cpus K s _ _).mp htgt2).2) hset1
            · exact hset2
      · have h1 : grr_load_balance K s = some s := by
          rw [grr_load_balance, hgr]
          simp only [lb_loop, hp1]
        exact ⟨s, [], h1, rfl, by simp, by simp, by simp, h1⟩
    · obtain ⟨mx1, mn1, hp1⟩ := hpass1 lb_unset lb_unset
      have hsB : lb_eligible K s BACKGROUND src = false :=
        (hp src).1 ((mem_lb_cpus K s _ _).mp hsrc).2
      have htB : lb_eligible K s BACKGROUND tgt = false :=
        (hp tgt).1 ((mem_lb_cpus K s _ _).mp htgt).2
      have hcp := lb_cpus_lb_move K s BACKGROUND p src tgt
      obtain ⟨hone2, hsmall2⟩ := lb_within_one_move_lb_move K s BACKGROUND p src tgt hne hsB htB
        (hone _ hB) (hsmall _ hB)
      rcases lb_pass_one_move K (lb_move K s p src tgt) BACKGROUND hone2 hsmall2 with
        hset2 | ⟨q, src2, tgt2, hsrc2, htgt2, hne2, hpass2, hset2⟩
      · refine ⟨lb_move K s p src tgt, [(p, src, tgt)], ?_, rfl, by simp,
          by
            intro m hm
            simp only [List.mem_singleton] at hm
            subst hm
            exact ⟨FOREGROUND, hF, hsrc, htgt⟩,
          fun j _ => (List.countP_le_length _).trans (by simp), ?_⟩
        · rw [grr_load_balance, hgr]
          simp only [lb_loop, hp1]
          exact lb_loop_settled K _ [BACKGROUND] (by
            intro j hj
            simp only [List.mem_singleton] at hj
            rw [hj]; exact hset2) _ _
        · rw [grr_load_balance, hgr]
          refine lb_loop_settled K _ _ ?_ _ _
          intro j hj
          simp only [List.mem_cons, List.mem_singleton, List.not_mem_nil, or_false] at hj
          rcases hj with rfl | rfl
          · exact hset1
          · exact hset2
      · obtain ⟨mx2, mn2, hp2⟩ := hpass2 mx1 mn1
        rw [hcp] at hsrc2 htgt2
        have hsrcB : src ∉ lb_cpus K s BACKGROUND := by
          intro h
          have := ((mem_lb_cpus K s _ _).mp h).2
          rw [hsB] at this
          exact absurd this (by simp)
        have hsrc2F : src2 ∉ lb_cpus K s FOREGROUND := by
          intro h
          have h1 := ((mem_lb_cpus K s _ _).mp h).2
          rw [(hp src2).2 ((mem_lb_cpus K s _ _).mp hsrc2).2] at h1
          exact absurd h1 (by simp)
        refine ⟨lb_move K (lb_move K s p src tgt) q src2 tgt2, [(p, src, tgt), (q, src2, tgt2)],
          ?_, rfl, by simp,
          by
            intro m hm
            simp only [List.mem_cons, List.mem_singleton, List.not_mem_nil, or_false] at hm
            rcases hm with rfl | rfl
            · exact ⟨FOREGROUND, hF, hsrc, htgt⟩
            · exact ⟨BACKGROUND, hB, hsrc2, htgt2⟩,
          by
            intro j hj
            rw [hgr] at hj
            simp only [List.mem_cons, List.mem_singleton, List.not_mem_nil, or_false] at hj
            rcases hj with rfl | rfl
            · simp [List.countP_cons, hsrc, hsrc2F]
            · simp [List.countP_cons, hsrc2, hsrcB], ?_⟩
        · rw [grr_load_balance, hgr]
          simp only [lb_loop, hp1, hp2]
        · rw [grr_load_balance, hgr]
          refine lb_loop_settled K _ _ ?_ _ _
          intro j hj
          simp only [List.mem_cons, List.mem_singleton, List.not_mem_nil, or_false] at hj
          rcases hj with rfl | rfl
          · refine lb_settled_lb_move K _ FOREGROUND q src2 tgt2 hne2 ?_ ?_ hset1
            · rw [lb_eligible_lb_move]
              exact (hp src2).2 ((mem_lb_cpus K s _ _).mp hsrc2).2
            · rw [lb_eligible_lb_move]
              exact (hp tgt2).2 ((mem_lb_cpus K s _ _).mp htgt2).2
          · exact hset2
  · have hg' : K.CONFIG_GRR_GROUPS = false := by simpa using hg
    have hgr : lb_groups K = [1] := by simp [lb_groups, hg']
    have h1m : 1 ∈ lb_groups K := by rw [hgr]; simp
    rw [if_neg hg]
    rcases lb_pass_one_move K s 1 (hone _ h1m) (hsmall _ h1m) with
      hset1 | ⟨p, src, tgt, hsrc, htgt, hne, hpass1, hset1⟩
    · have h1 : grr_load_balance K s = some s := by
        rw [grr_load_balance, hgr]
        exact lb_loop_settled K s _ (by
          intro j hj
          simp only [List.mem_singleton] at hj
          rw [hj]; exact hset1) _ _
      exact ⟨s, [], h1, rfl, by simp, by simp, by simp, h1⟩
    · obtain ⟨mx1, mn1, hp1⟩ := hpass1 lb_unset lb_unset
      refine ⟨lb_move K s p src tgt, [(p, src, tgt)], ?_, rfl, by simp,
        by
          intro m hm
          simp only [List.mem_singleton] at hm
          subst hm
          exact ⟨1, h1m, hsrc, htgt⟩,
        fun j _ => (List.countP_le_length _).trans (by simp), ?_⟩
      · rw [grr_load_balance, hgr]
        simp only [lb_loop, hp1]
      · rw [grr_load_balance, hgr]
        exact lb_loop_settled K _ _ (by
          intro j hj
          simp only [List.mem_singleton] at hj
          rw [hj]; exact hset1) _ _

/-- C10, amended, on `two_group_example`, with groups enabled: the first call moves task
11 from CPU 0 to CPU 1 for the foreground group and task 31 from CPU 2 to CPU 3 for the
background group, and the second call changes nothing; and on `gap_example` with groups
disabled: the first call moves task 11 and the second call changes nothing. -/
theorem load_balance_twice_witness :
    ((∃ (s1 : Sched) (moves : List (Nat × Nat × Nat)),
      grr_load_balance example_K two_group_example = some s1
        ∧ s1 = apply_moves example_K two_group_example moves
        ∧ moves.length ≤ (if example_K.CONFIG_GRR_GROUPS = true then 2 else 1)
        ∧ (∀ m ∈ moves, ∃ j ∈ lb_groups example_K,
            m.2.1 ∈ lb_cpus example_K two_group_example j
              ∧ m.2.2 ∈ lb_cpus example_K two_group_example j)
        ∧ (∀ j ∈ lb_groups example_K,
            moves.countP (fun m => decide (m.2.1 ∈ lb_cpus example_K two_group_example j)) ≤ 1)
        ∧ grr_load_balance example_K s1 = some s1)
      ∧ (grr_load_balance example_K two_group_example).map counts0123 = some (1, 1, 1, 1)
      ∧ ((grr_load_balance example_K two_group_example).bind
          (grr_load_balance example_K)).map counts0123 = some (1, 1, 1, 1))
    ∧ ((∃ (s1 : Sched) (moves : List (Nat × Nat × Nat)),
      grr_load_balance example_K2_nogroups gap_example = some s1
        ∧ s1 = apply_moves example_K2_nogroups gap_example moves
        ∧ moves.length ≤ (if example_K2_nogroups.CONFIG_GRR_GROUPS = true then 2 else 1)
        ∧ (∀ m ∈ moves, ∃ j ∈ lb_groups example_K2_nogroups,
            m.2.1 ∈ lb_cpus example_K2_nogroups gap_example j
              ∧ m.2.2 ∈ lb_cpus example_K2_nogroups gap_example j)
        ∧ (∀ j ∈ lb_groups example_K2_nogroups,
            moves.countP (fun m => decide (m.2.1 ∈ lb_cpus example_K2_nogroups gap_example j))
              ≤ 1)
        ∧ grr_load_balance example_K2_nogroups s1 = some s1)
      ∧ (grr_load_balance example_K2_nogroups gap_example).map queues01 = some ([12], [11])
      ∧ ((grr_load_balance example_K2_nogroups gap_example).bind
          (grr_load_balance example_K2_nogroups)).map queues01 = some ([12], [11])) :=
  ⟨⟨load_balance_twice example_K two_group_example
      (by
        unfold lb_within_one_move
        set_option synthInstance.maxSize 1000 in decide)
      (by decide)
      (by
        intro _ c
        simp only [two_group_example]
        split
        · decide
        · split
          · decide
          · split <;> decide),
    by decide, by decide⟩,
   ⟨load_balance_twice example_K2_nogroups gap_example
      (by
        unfold lb_within_one_move
        set_option synthInstance.maxSize 1000 in decide)
      (by decide)
      (by intro h; exact absurd h (by decide)),
    by decide, by decide⟩⟩

/-- Two calls of the balancer when neither the most loaded nor the least loaded CPU is the
only one with its count: with the counts 3, 3, 1, 1 the first call leaves 2, 3, 2, 1 and
the second call migrates again. -/
theorem load_balance_twice_needs_unique :
    counts0123 pairs_example = (3, 3, 1, 1)
      ∧ (grr_load_balance example_K pairs_example).map counts0123 = some (2, 3, 2, 1)
      ∧ ((grr_load_balance example_K pairs_example).bind
          (grr_load_balance example_K)).map counts0123 = some (2, 2, 2, 2) := by
  refine ⟨by decide, by decide, by decide⟩

/-- Two calls of the balancer when a CPU serves both groups: in `shared_example` the
foreground counts 3, 1, 3 (CPUs 0, 1, 3) differ by two with one least loaded CPU and the
background counts 1, 0 (CPUs 1, 2) by one; the first call moves a task to CPU 1 for the
foreground group and then one from CPU 1 to CPU 2 for the background group, and the second
call migrates again. -/
theorem load_balance_twice_needs_partition :
    counts0123 shared_example = (3, 1, 0, 3)
      ∧ (grr_load_balance example_K shared_example).map counts0123 = some (2, 1, 1, 3)
      ∧ ((grr_load_balance example_K shared_example).bind
          (grr_load_balance example_K)).map counts0123 = some (2, 2, 1, 2) := by
  refine ⟨by decide, by decide, by decide⟩

/-- C11, as stated, fails: CPU 0 is the idle target; the CPUs 1 and 2 are eligible
sources, CPU 1 holding one movable task and CPU 2, the most loaded, three. The scan visits
the CPUs in ascending order and steals task 11 from CPU 1; the queue of CPU 2 is left as
it was. -/
theorem try_steal_most_loaded_counterexample :
    steal_skip example_K steal_example 1 0 = false
      ∧ steal_skip example_K steal_example 2 0 = false
      ∧ steal_candidate steal_example 1 0 = some 11
      ∧ steal_candidate steal_example 2 0 = some 21
      ∧ (∀ i ∈ online_cpus example_K steal_example,
          (steal_example.rqs i).grr.grr_nr_running
            ≤ (steal_example.rqs 2).grr.grr_nr_running)
      ∧ (steal_example.rqs 1).grr.grr_nr_running < (steal_example.rqs 2).grr.grr_nr_running
      ∧ ((try_steal_task example_K steal_example 0 0).rqs 0).grr.queue = [11]
      ∧ ((try_steal_task example_K steal_example 0 0).rqs 1).grr.queue = []
      ∧ ((try_steal_task example_K steal_example 0 0).rqs 2).grr.queue = [21, 22, 23] := by
  refine ⟨by decide, by decide, by decide, by decide, by decide, by decide, by decide,
    by decide, by decide⟩

/-- C11, amended: when some online CPU other than the target, with the target's group
flags, holds a task that can be stolen (`can_move_grr_task` accepts it, its policy is
`SCHED_GRR` and it is `on_rq`), `try_steal_task` moves exactly one task to the target: the
first such task `p` of the lowest-numbered such CPU `src`. It is unlinked from the queue
of `src` and appended to the queue of the target; every other queue and running count is
unchanged. -/
theorem try_steal_takes_first (K : Kconfig) (s : Sched) (target dest_cpu src p : Nat)
    (hsrc : src ∈ online_cpus K s)
    (hskip : steal_skip K s src target = false)
    (hcand : steal_candidate s src target = some p)
    (hfirst : ∀ i ∈ online_cpus K s, i < src →
      steal_skip K s i target = true ∨ steal_candidate s i target = none)
    (hwf : linked_once s) :
    try_steal_task K s target dest_cpu = steal_move K s p src target dest_cpu
      ∧ p ∈ (s.rqs src).grr.queue
      ∧ ((try_steal_task K s target dest_cpu).rqs src).grr.queue
          = (s.rqs src).grr.queue.erase p
      ∧ ((try_steal_task K s target dest_cpu).rqs target).grr.queue
          = (s.rqs target).grr.queue ++ [p]
      ∧ ∀ c, c ≠ src → c ≠ target →
          ((try_steal_task K s target dest_cpu).rqs c).grr.queue = (s.rqs c).grr.queue
          ∧ ((try_steal_task K s target dest_cpu).rqs c).grr.grr_nr_running
              = (s.rqs c).grr.grr_nr_running := by
  obtain ⟨L1, L2, hL⟩ := List.append_of_mem hsrc
  have hsorted := online_cpus_sorted K s
  rw [hL] at hsorted
  have hbefore : ∀ i ∈ L1, i < src := by
    intro i hi
    exact (List.pairwise_append.mp hsorted).2.2 i hi src (List.mem_cons_self _ _)
  have h1 : ∀ i ∈ L1, steal_skip K s i target = true ∨ steal_candidate s i target = none := by
    intro i hi
    exact hfirst i (by rw [hL]; exact List.mem_append_left _ hi) (hbefore i hi)
  have hsteal : try_steal_task K s target dest_cpu = steal_move K s p src target dest_cpu := by
    simp only [try_steal_task]
    rw [hL]
    exact try_steal_loop_first K s p src target dest_cpu L1 L2 h1 hskip hcand
  have hin := (steal_candidate_some s p src target hcand).1
  have hne := steal_skip_false K s src target hskip
  obtain ⟨hq1, hq2, hq3, _, _, _⟩ := moved_queues s (steal_move K s p src target dest_cpu)
    p src target (fun c => steal_move_queue K s c p src target dest_cpu) hwf hin hne
  rw [hsteal]
  refine ⟨rfl, hin, hq1, hq2, ?_⟩
  intro c hc1 hc2
  refine ⟨hq3 c hc1 hc2, ?_⟩
  rw [steal_move_count K s c p src target dest_cpu hne, if_neg hc1, if_neg hc2]

/-- C11, amended, on `steal_example` with CPU 0 as the target: task 11 of CPU 1 is
taken. -/
theorem try_steal_takes_first_witness :
    try_steal_task example_K steal_example 0 0 = steal_move example_K steal_example 11 1 0 0
      ∧ 11 ∈ (steal_example.rqs 1).grr.queue
      ∧ ((try_steal_task example_K steal_example 0 0).rqs 1).grr.queue
          = (steal_example.rqs 1).grr.queue.erase 11
      ∧ ((try_steal_task example_K steal_example 0 0).rqs 0).grr.queue
          = (steal_example.rqs 0).grr.queue ++ [11]
      ∧ ∀ c, c ≠ 1 → c ≠ 0 →
          ((try_steal_task example_K steal_example 0 0).rqs c).grr.queue
            = (steal_example.rqs c).grr.queue
          ∧ ((try_steal_task example_K steal_example 0 0).rqs c).grr.grr_nr_running
              = (steal_example.rqs c).grr.grr_nr_running :=
  try_steal_takes_first example_K steal_example 0 0 1 11 (by decide) (by decide) (by decide)
    (by decide) steal_example_linked_once

/-- C12: `try_steal_task` changes nothing when nothing can be stolen: when the queue of
every other online CPU is empty, or when on every online CPU that it does not pass over
(another CPU with the target's group flags) every queued task fails a test: the target is
not in its allowed set, the target is offline, its assigned CPU is not the source, it is
executing, or its policy is not `SCHED_GRR`. The state after the call is the state
before, with every run queue, running count and assigned CPU unchanged. -/
theorem try_steal_noop (K : Kconfig) (s : Sched) (target dest_cpu : Nat)
    (h : (∀ i ∈ online_cpus K s, i ≠ target → (s.rqs i).grr.queue = [])
      ∨ (∀ i ∈ online_cpus K s, steal_skip K s i target = false →
          ∀ q ∈ (s.rqs i).grr.queue,
            (s.tasks q).cpus_allowed target = false ∨ s.cpu_online target = false
              ∨ (s.tasks q).cpu ≠ i ∨ (s.tasks q).on_cpu = true
              ∨ (s.tasks q).policy ≠ SCHED_GRR)) :
    try_steal_task K s target dest_cpu = s := by
  simp only [try_steal_task]
  apply try_steal_loop_none
  intro i hi
  by_cases hs : steal_skip K s i target = true
  · exact Or.inl hs
  · right
    have hs' : steal_skip K s i target = false := by simpa using hs
    rcases h with h | h
    · have hq := h i hi (steal_skip_false K s i target hs')
      simp [steal_candidate, hq]
    · apply steal_candidate_eq_none
      intro q hq
      rcases h i hi hs' q hq with h1 | h1 | h1 | h1 | h1
      · left; simp [can_move_grr_task, h1]
      · left; simp [can_move_grr_task, h1]
      · left; simp [can_move_grr_task, h1]
      · left; simp [can_move_grr_task, h1]
      · right; left; exact h1

/-- C12 on `affinity_example`, whose queued tasks are allowed on CPU 0 only, with CPU 1
as the target. -/
theorem try_steal_noop_witness :
    try_steal_task example_K2 affinity_example 1 1 = affinity_example :=
  try_steal_noop example_K2 affinity_example 1 1
    (Or.inr (by
      intro i _ _ q _
      left
      simp [affinity_example, example_task]))

/-- C13: `try_steal_task(target_rq, dest_cpu)`, called as the function is meant to be, with
`dest_cpu` the idle CPU whose run queue `target_rq` is, keeps a well-formed state well
formed: if every task is linked in at most one queue (once), every queued task is a task
pointer assigned to the CPU of its queue, and every running count is the length of its
queue, the same holds after the call, and the tasks linked in the queues are the same as
before. -/
theorem try_steal_keeps_well_formed (K : Kconfig) (s : Sched) (target : Nat)
    (hwf : linked_once s) (hown : queued_on_own_cpu s) (hcnt : counts_match s)
    (hptr : queued_are_ptrs s) :
    linked_once (try_steal_task K s target target)
      ∧ queued_on_own_cpu (try_steal_task K s target target)
      ∧ counts_match (try_steal_task K s target target)
      ∧ queued_are_ptrs (try_steal_task K s target target)
      ∧ ∀ x, (∃ c, x ∈ ((try_steal_task K s target target).rqs c).grr.queue)
          ↔ ∃ c, x ∈ (s.rqs c).grr.queue := by
  rcases try_steal_loop_shape K s target target (online_cpus K s) with
    h | ⟨src, _, p, hskip, hcand, h⟩
  · simp only [try_steal_task]
    rw [h]
    exact ⟨hwf, hown, hcnt, hptr, fun _ => Iff.rfl⟩
  · simp only [try_steal_task]
    rw [h]
    have hin := (steal_candidate_some s p src target hcand).1
    have hne := steal_skip_false K s src target hskip
    have hq := fun c => steal_move_queue K s c p src target target
    have hc := fun c => steal_move_count K s c p src target target hne
    have hcpu := fun x => steal_move_task_cpu K s p x src target target
    exact ⟨moved_linked_once s _ p src target hq hwf hin hne,
      moved_on_own_cpu s _ p src target hq hcpu hwf hin hne hown,
      moved_counts_match s _ p src target hq hc hwf hin hne hptr hcnt,
      moved_ptrs s _ p src target hq hwf hin hne hptr,
      moved_same_tasks s _ p src target hq hwf hin hne⟩

/-- C13 on `steal_example` with CPU 0 as the target. -/
theorem try_steal_keeps_well_formed_witness :
    linked_once (try_steal_task example_K steal_example 0 0)
      ∧ queued_on_own_cpu (try_steal_task example_K steal_example 0 0)
      ∧ counts_match (try_steal_task example_K steal_example 0 0)
      ∧ queued_are_ptrs (try_steal_task example_K steal_example 0 0)
      ∧ ∀ x, (∃ c, x ∈ ((try_steal_task example_K steal_example 0 0).rqs c).grr.queue)
          ↔ ∃ c, x ∈ (steal_example.rqs c).grr.queue :=
  try_steal_keeps_well_formed example_K steal_example 0 steal_example_linked_once
    steal_example_on_own_cpu steal_example_counts_match steal_example_ptrs

/-- C14: on a run queue whose running count is the length of the queue and whose tasks are
not `NULL`, `pick_next_task_grr` returns the task at the head of the queue when the queue
is non-empty and `NULL` (none) when it is empty, and in both cases leaves every run queue
as it was: the sequence and `grr_nr_running` are unchanged and the picked task stays
linked at the head. -/
theorem pick_next_returns_head (s : Sched) (c : Nat)
    (hcnt : (s.rqs c).grr.grr_nr_running = (s.rqs c).grr.queue.length)
    (hptr : ∀ x ∈ (s.rqs c).grr.queue, x ≠ 0) :
    ∃ r, pick_next_task_grr s c = some r ∧ r.1 = (s.rqs c).grr.queue.head?
      ∧ r.2.rqs = s.rqs
      ∧ (r.2.rqs c).grr.queue = (s.rqs c).grr.queue
      ∧ (r.2.rqs c).grr.grr_nr_running = (s.rqs c).grr.grr_nr_running := by
  cases hq : (s.rqs c).grr.queue with
  | nil =>
    refine ⟨(none, s), ?_, rfl, rfl, hq, rfl⟩
    simp only [pick_next_task_grr]
    rw [if_pos (by rw [hcnt, hq]; rfl)]
  | cons a rest =>
    have ha : a ≠ 0 := hptr a (by rw [hq]; exact List.mem_cons_self _ _)
    have hne : (s.rqs c).grr.grr_nr_running ≠ 0 := by rw [hcnt, hq]; simp
    refine ⟨(some a, set_task s a
      { s.tasks a with se := { (s.tasks a).se with exec_start := (s.rqs c).clock } }),
      ?_, rfl, rfl, hq, rfl⟩
    simp only [pick_next_task_grr]
    rw [if_neg hne, hq]
    simp [ha]

/-- C14 on the queue `[3, 5, 8]` of CPU 0 and on the empty queue of CPU 1. -/
theorem pick_next_returns_head_witness :
    (∃ r, pick_next_task_grr rr_example 0 = some r ∧ r.1 = some 3
      ∧ r.2.rqs = rr_example.rqs
      ∧ (r.2.rqs 0).grr.queue = [3, 5, 8]
      ∧ (r.2.rqs 0).grr.grr_nr_running = 3)
    ∧ (∃ r, pick_next_task_grr rr_example 1 = some r ∧ r.1 = none
      ∧ r.2.rqs = rr_example.rqs
      ∧ (r.2.rqs 1).grr.queue = []
      ∧ (r.2.rqs 1).grr.grr_nr_running = 0) :=
  ⟨pick_next_returns_head rr_example 0 rfl (by decide),
    pick_next_returns_head rr_example 1 rfl (by decide)⟩

/-- C15, the failing input: in `unqueued_example` every running count is the length of its
queue and every task is linked in at most one queue; task 7 is runnable and assigned to
CPU 0 but not linked in its queue. `task_move_group_grr` does not look at its parameter
`on_rq`: it picks CPU 1, passes every check, and `deactivate_task` decrements the count of
CPU 0 without unlinking anything, so CPU 0 is left with the count 0 and the one-task queue
`[5]`. -/
theorem task_move_group_unlinked_breaks_count :
    counts_match unqueued_example ∧ linked_once unqueued_example
      ∧ (unqueued_example.tasks 7).cpu = 0
      ∧ select_task_rq_grr example_K2 unqueued_example 7 = 1
      ∧ ((task_move_group_grr example_K2 unqueued_example 7).rqs 0).grr.queue = [5]
      ∧ ((task_move_group_grr example_K2 unqueued_example 7).rqs 0).grr.grr_nr_running = 0
      ∧ ((task_move_group_grr example_K2 unqueued_example 7).rqs 0).grr.grr_nr_running
          ≠ ((task_move_group_grr example_K2 unqueued_example 7).rqs 0).grr.queue.length := by
  refine ⟨unqueued_example_counts_match, unqueued_example_linked_once, rfl, by decide,
    by decide, by decide, by decide⟩

/-- What `task_move_group_grr` does keep: in a state in which every running count is the
length of its queue and every task is linked in at most one queue (once, and queued tasks
are task pointers), the call on a task that is linked in the queue of its assigned CPU leaves
every running count equal to the length of its queue, on the source, on the target and
elsewhere, whether it aborts or moves the task; when it moves the task, the task is no
longer in the source queue, its assigned CPU is the target, and it is linked in the
target queue. -/
theorem task_move_group_keeps_counts (K : Kconfig) (s : Sched) (p : Nat)
    (hcnt : counts_match s) (hwf : linked_once s) (hptr : queued_are_ptrs s)
    (hin : p ∈ (s.rqs (s.tasks p).cpu).grr.queue) :
    counts_match (task_move_group_grr K s p)
      ∧ (task_move_group_grr K s p = s
        ∨ (task_move_group_grr K s p
              = lb_move K s p (s.tasks p).cpu (select_task_rq_grr K s p)
            ∧ select_task_rq_grr K s p ≠ (s.tasks p).cpu
            ∧ p ∉ ((task_move_group_grr K s p).rqs (s.tasks p).cpu).grr.queue
            ∧ ((task_move_group_grr K s p).tasks p).cpu = select_task_rq_grr K s p
            ∧ p ∈ ((task_move_group_grr K s p).rqs (select_task_rq_grr K s p)).grr.queue)) := by
  have hshape : task_move_group_grr K s p = s
      ∨ (task_move_group_grr K s p
            = lb_move K s p (s.tasks p).cpu (select_task_rq_grr K s p)
          ∧ select_task_rq_grr K s p ≠ (s.tasks p).cpu) := by
    simp only [task_move_group_grr, task_move_group_grr_after, task_move_group_grr_locked]
    split
    · exact Or.inl rfl
    · split
      · exact Or.inl rfl
      · split
        · exact Or.inl rfl
        · split
          · exact Or.inl rfl
          · rename_i h3 _
            exact Or.inr ⟨rfl, h3⟩
  rcases hshape with h | ⟨h, hne⟩
  · rw [h]
    exact ⟨hcnt, Or.inl rfl⟩
  · have hne' : (s.tasks p).cpu ≠ select_task_rq_grr K s p := fun e => hne e.symm
    have hq := fun c => lb_move_queue K s c p (s.tasks p).cpu (select_task_rq_grr K s p)
    have hc := fun c =>
      lb_move_count K s c p (s.tasks p).cpu (select_task_rq_grr K s p) hne'
    obtain ⟨_, _, _, _, hout, hinto⟩ := moved_queues s _ p _ _ hq hwf hin hne'
    refine ⟨?_, Or.inr ⟨h, hne, ?_, ?_, ?_⟩⟩
    · rw [h]
      exact moved_counts_match s _ p _ _ hq hc hwf hin hne' hptr hcnt
    · rw [h]; exact hout
    · rw [h, lb_move_task_cpu, if_pos rfl]
    · rw [h]; exact hinto

/-- The lemma before on task 11 of `gap_example`, which moves from CPU 0 to CPU 1. -/
theorem task_move_group_keeps_counts_witness :
    counts_match (task_move_group_grr example_K2 gap_example 11)
      ∧ (task_move_group_grr example_K2 gap_example 11 = gap_example
        ∨ (task_move_group_grr example_K2 gap_example 11
              = lb_move example_K2 gap_example 11 (gap_example.tasks 11).cpu
                  (select_task_rq_grr example_K2 gap_example 11)
            ∧ select_task_rq_grr example_K2 gap_example 11 ≠ (gap_example.tasks 11).cpu
            ∧ 11 ∉ ((task_move_group_grr example_K2 gap_example 11).rqs
                (gap_example.tasks 11).cpu).grr.queue
            ∧ ((task_move_group_grr example_K2 gap_example 11).tasks 11).cpu
                = select_task_rq_grr example_K2 gap_example 11
            ∧ 11 ∈ ((task_move_group_grr example_K2 gap_example 11).rqs
                (select_task_rq_grr example_K2 gap_example 11)).grr.queue)) :=
  task_move_group_keeps_counts example_K2 gap_example 11 gap_example_counts_match
    gap_example_linked_once gap_example_ptrs (by decide)

/-- C16, as stated, fails: task 7 has 4 ticks of its slice left when it is enqueued with
the wakeup flag; afterwards its watchdog counter is 0 but its time slice is still 4, not
`GRR_TIMESLICE = 10`. -/
theorem enqueue_wakeup_counterexample :
    ENQUEUE_WAKEUP &&& ENQUEUE_WAKEUP ≠ 0
      ∧ (sleeper_example.tasks 7).grr.time_slice = 4
      ∧ ((enqueue_task_grr sleeper_example 0 7 ENQUEUE_WAKEUP).tasks 7).grr.time_slice = 4
      ∧ ((enqueue_task_grr sleeper_example 0 7 ENQUEUE_WAKEUP).tasks 7).grr.time_slice
          ≠ example_K.GRR_TIMESLICE
      ∧ ((enqueue_task_grr sleeper_example 0 7 ENQUEUE_WAKEUP).tasks 7).grr.timeout = 0 := by
  refine ⟨by decide, by decide, by decide, by decide, by decide⟩

/-- C16, amended: `enqueue_task_grr` called with the wakeup flag sets the task's watchdog
counter to 0 and leaves its time slice, and every other task's, as it was; the slice is
`GRR_TIMESLICE` afterwards exactly when it was before. -/
theorem enqueue_wakeup_resets_timeout_only (K : Kconfig) (s : Sched) (c p flags : Nat)
    (hw : flags &&& ENQUEUE_WAKEUP ≠ 0) :
    ((enqueue_task_grr s c p flags).tasks p).grr.timeout = 0
      ∧ (∀ x, ((enqueue_task_grr s c p flags).tasks x).grr.time_slice
          = (s.tasks x).grr.time_slice)
      ∧ (((enqueue_task_grr s c p flags).tasks p).grr.time_slice = K.GRR_TIMESLICE
          ↔ (s.tasks p).grr.time_slice = K.GRR_TIMESLICE) := by
  refine ⟨?_, fun x => enqueue_task_grr_time_slice s c p x flags, ?_⟩
  · rw [enqueue_task_grr_grr, if_pos ⟨rfl, hw⟩]
  · rw [enqueue_task_grr_time_slice]

/-- C16, amended, on the wakeup of task 7 of `sleeper_example`. -/
theorem enqueue_wakeup_resets_timeout_only_witness :
    ((enqueue_task_grr sleeper_example 0 7 ENQUEUE_WAKEUP).tasks 7).grr.timeout = 0
      ∧ (∀ x, ((enqueue_task_grr sleeper_example 0 7 ENQUEUE_WAKEUP).tasks x).grr.time_slice
          = (sleeper_example.tasks x).grr.time_slice)
      ∧ (((enqueue_task_grr sleeper_example 0 7 ENQUEUE_WAKEUP).tasks 7).grr.time_slice
            = example_K.GRR_TIMESLICE
          ↔ (sleeper_example.tasks 7).grr.time_slice = example_K.GRR_TIMESLICE) :=
  enqueue_wakeup_resets_timeout_only example_K sleeper_example 0 7 ENQUEUE_WAKEUP (by decide)

/-- C17, the failing input: task 7 has the finite soft limit 4294967294 microseconds and
no hard limit, with `HZ = 100`, so a tick is 10000 microseconds and the limit is 429497
ticks, rounded up. `DIV_ROUND_UP` adds 9999 to the limit in `unsigned long`, the sum wraps
to 9997 and the threshold comes out as 0: the first watchdog call takes the counter from
0 to 1 and already marks the deadline as elapsed, though 1 does not exceed 429497. -/
theorem watchdog_threshold_wraps :
    (rlimit_example.tasks 7).rlim_cur ≠ RLIM_INFINITY
      ∧ rttime_limit_ticks example_K (rlimit_example.tasks 7).rlim_cur
          (rlimit_example.tasks 7).rlim_max = 429497
      ∧ (rlimit_example.tasks 7).grr.timeout = 0
      ∧ ((watchdog example_K rlimit_example 7).tasks 7).grr.timeout = 1
      ∧ ¬ (((watchdog example_K rlimit_example 7).tasks 7).grr.timeout
          > rttime_limit_ticks example_K (rlimit_example.tasks 7).rlim_cur
              (rlimit_example.tasks 7).rlim_max)
      ∧ (rlimit_example.tasks 7).sched_exp = 0
      ∧ ((watchdog example_K rlimit_example 7).tasks 7).sched_exp
          = (rlimit_example.tasks 7).se.sum_exec_runtime
      ∧ ((watchdog example_K rlimit_example 7).tasks 7).sched_exp = 5000 := by
  refine ⟨by decide, by decide, by decide, by decide, by decide, by decide, by decide,
    by decide⟩

/-- C18: with running counts that are `unsigned long` values, whenever a pass of
`grr_load_balance` moves a task `p` from `src` to `tgt`, the count of `src` was at least
two above the count of `tgt`, and afterwards the count of `src` is exactly one less, the
count of `tgt` exactly one more, and the count of `src` is still greater than or equal to
the count of `tgt`. This holds whether `tgt` is the least loaded CPU that the scan of this
pass has found or the queue that a pass before it has left in `minload.rq` (a queue that
does not hold the largest `unsigned long` count). The state a whole call returns is
reached by at most one such migration for each group of the loop, each made in the state
the one before it left; and the call does return whenever no count is above 1000001. -/
theorem load_balance_move_keeps_order (K : Kconfig) (s : Sched)
    (hrange : ∀ c, (s.rqs c).grr.grr_nr_running < ULONG_SIZE) :
    (∀ (j : Nat) (mx mn : load) (f : lb_flow),
        (∀ t, mn.rq = some t → (s.rqs t).grr.grr_nr_running + 1 < ULONG_SIZE) →
        grr_load_balance_pass K s j mx mn = some f →
        (∃ mx1 mn1, f = lb_flow.next s mx1 mn1) ∨ f = lb_flow.ret s
          ∨ ∃ p src tgt mx1 mn1, f = lb_flow.next (lb_move K s p src tgt) mx1 mn1
              ∧ p ∈ (s.rqs src).grr.queue
              ∧ src ≠ tgt
              ∧ (s.rqs tgt).grr.grr_nr_running + 1 < (s.rqs src).grr.grr_nr_running
              ∧ ((lb_move K s p src tgt).rqs src).grr.grr_nr_running + 1
                  = (s.rqs src).grr.grr_nr_running
              ∧ ((lb_move K s p src tgt).rqs tgt).grr.grr_nr_running
                  = (s.rqs tgt).grr.grr_nr_running + 1
              ∧ ((lb_move K s p src tgt).rqs tgt).grr.grr_nr_running
                  ≤ ((lb_move K s p src tgt).rqs src).grr.grr_nr_running)
      ∧ (∀ s1, grr_load_balance K s = some s1 →
          ∃ moves : List (Nat × Nat × Nat),
            moves.length ≤ (lb_groups K).length ∧ s1 = apply_moves K s moves
              ∧ moves_keep_order K s moves)
      ∧ ((∀ c, (s.rqs c).grr.grr_nr_running ≤ MINLOAD_START + 1) →
          ∃ s1, grr_load_balance K s = some s1) := by
  refine ⟨?_, ?_, ?_⟩
  · intro j mx mn f hmn h
    rcases lb_pass_move_counts K s j mx mn f hrange hmn h with ⟨mx1, mn1, hf, _⟩ | hf
      | ⟨p, src, tgt, mx1, mn1, hf, _, hin, hne, hgap, h1, h2, h3⟩
    · exact Or.inl ⟨mx1, mn1, hf⟩
    · exact Or.inr (Or.inl hf)
    · exact Or.inr (Or.inr ⟨p, src, tgt, mx1, mn1, hf, hin, hne, hgap, h1, h2, h3⟩)
  · intro s1 h
    have hlen : (lb_groups K).length + MINLOAD_START < ULONG_SIZE := by
      unfold lb_groups
      split <;> decide
    exact lb_loop_moves_keep_order K (lb_groups K) s s1 lb_unset lb_unset hlen hrange
      (by intro t ht; simp [lb_unset] at ht) h
  · intro hsmall
    exact lb_loop_defined K (lb_groups K) s lb_unset lb_unset hsmall

/-- C18 on `gap_example`: the call moves task 11 from CPU 0, with two tasks, to the empty
CPU 1, and leaves one task on each. -/
theorem load_balance_move_keeps_order_witness :
    (∃ moves : List (Nat × Nat × Nat),
        moves.length ≤ (lb_groups example_K2).length
          ∧ lb_move example_K2 gap_example 11 0 1 = apply_moves example_K2 gap_example moves
          ∧ moves_keep_order example_K2 gap_example moves)
      ∧ counts01 gap_example = (2, 0)
      ∧ counts01 (lb_move example_K2 gap_example 11 0 1) = (1, 1) :=
  ⟨(load_balance_move_keeps_order example_K2 gap_example gap_example_range).2.1
      (lb_move example_K2 gap_example 11 0 1) rfl,
    by decide, by decide⟩

/-- C19: for every task and every assignment of running counts, with groups enabled or
not, the CPU `select_task_rq_grr` returns is the task's original CPU or an online CPU in
the task's allowed set whose running count is strictly below the original CPU's; so if
the original CPU is allowed, the result is allowed. -/
theorem select_stays_allowed (K : Kconfig) (s : Sched) (p : Nat) :
    (select_task_rq_grr K s p = (s.tasks p).cpu
        ∨ (select_task_rq_grr K s p ∈ online_cpus K s
          ∧ (s.tasks p).cpus_allowed (select_task_rq_grr K s p) = true
          ∧ (s.rqs (select_task_rq_grr K s p)).grr.grr_nr_running
              < (s.rqs (s.tasks p).cpu).grr.grr_nr_running))
      ∧ ((s.tasks p).cpus_allowed (s.tasks p).cpu = true →
          (s.tasks p).cpus_allowed (select_task_rq_grr K s p) = true) := by
  have hmain : select_task_rq_grr K s p = (s.tasks p).cpu
      ∨ (select_task_rq_grr K s p ∈ online_cpus K s
        ∧ (s.tasks p).cpus_allowed (select_task_rq_grr K s p) = true
        ∧ (s.rqs (select_task_rq_grr K s p)).grr.grr_nr_running
            < (s.rqs (s.tasks p).cpu).grr.grr_nr_running) := by
    by_cases hn : (s.tasks p).grr.nr_cpus_allowed = 1
    · left
      simp only [select_task_rq_grr]
      rw [if_pos hn]
    · have hsel : select_task_rq_grr K s p
          = ((online_cpus K s).foldl (select_step K s p (s.tasks p).cpu)
              ((s.rqs (s.tasks p).cpu).grr.grr_nr_running, (s.tasks p).cpu)).2 := by
        simp only [select_task_rq_grr]
        rw [if_neg hn]
      rw [hsel]
      cases hskip : select_skip_group K s p (s.tasks p).cpu with
      | true =>
        left
        rw [select_scan_of_skip K s p (s.tasks p).cpu hskip]
      | false =>
        obtain ⟨_, hcase⟩ := select_scan_spec K s p (s.tasks p).cpu hskip (online_cpus K s)
          (online_cpus_sorted K s) (s.rqs (s.tasks p).cpu).grr.grr_nr_running (s.tasks p).cpu
        rcases hcase with ⟨heq, _⟩ | ⟨hlt, hmem, hallow, hcnt, _⟩
        · left; rw [heq]
        · right
          exact ⟨hmem, hallow, by rw [hcnt]; exact hlt⟩
  refine ⟨hmain, fun hal => ?_⟩
  rcases hmain with h | ⟨_, h, _⟩
  · rw [h]; exact hal
  · exact h

/-- C20: a tick on a task whose time slice is in `[1, GRR_TIMESLICE]` (a value of the
unsigned counter) leaves it in `[1, GRR_TIMESLICE]`: one less, or `GRR_TIMESLICE` again
when the decrement reaches zero. Enqueue, dequeue, yield, pick-next and put-prev change no
task's time slice. A tick on a task whose time slice is 0 wraps the counter to its largest
value and neither resets it nor requeues the task. -/
theorem time_slice_stays_in_range (K : Kconfig) (s : Sched) (c p : Nat) :
    ((1 ≤ (s.tasks p).grr.time_slice ∧ (s.tasks p).grr.time_slice ≤ K.GRR_TIMESLICE
        ∧ K.GRR_TIMESLICE < UINT_SIZE) →
      ((task_tick_grr K s c p).tasks p).grr.time_slice
          = (if (s.tasks p).grr.time_slice = 1 then K.GRR_TIMESLICE
              else (s.tasks p).grr.time_slice - 1)
        ∧ 1 ≤ ((task_tick_grr K s c p).tasks p).grr.time_slice
        ∧ ((task_tick_grr K s c p).tasks p).grr.time_slice ≤ K.GRR_TIMESLICE)
      ∧ (∀ x flags, ((enqueue_task_grr s c p flags).tasks x).grr.time_slice
          = (s.tasks x).grr.time_slice)
      ∧ (∀ x flags, ((dequeue_task_grr K s c p flags).tasks x).grr.time_slice
          = (s.tasks x).grr.time_slice)
      ∧ (∀ x, ((yield_task_grr s c).tasks x).grr.time_slice = (s.tasks x).grr.time_slice)
      ∧ (∀ r, pick_next_task_grr s c = some r →
          ∀ x, (r.2.tasks x).grr.time_slice = (s.tasks x).grr.time_slice)
      ∧ (∀ x, ((put_prev_task_grr K s c p).tasks x).grr.time_slice
          = (s.tasks x).grr.time_slice)
      ∧ ((s.tasks p).grr.time_slice = 0 →
          ((task_tick_grr K s c p).tasks p).grr.time_slice = UINT_SIZE - 1
          ∧ (task_tick_grr K s c p).rqs = s.rqs) := by
  refine ⟨?_, ?_, ?_, ?_, ?_, ?_, ?_⟩
  · rintro ⟨h1, h2, h3⟩
    have hdec : uint_dec (s.tasks p).grr.time_slice = (s.tasks p).grr.time_slice - 1 :=
      uint_dec_of_pos _ h1 (by omega)
    have hts := task_tick_grr_time_slice K s c p p
    rw [if_pos rfl, hdec] at hts
    rw [hts]
    by_cases hone : (s.tasks p).grr.time_slice = 1
    · rw [if_pos (by omega), if_pos hone]
      omega
    · rw [if_neg (by omega), if_neg hone]
      omega
  · intro x flags
    exact enqueue_task_grr_time_slice s c p x flags
  · intro x flags
    rw [dequeue_task_grr_grr]
  · intro x
    rw [yield_task_grr_tasks]
  · intro r hr x
    rw [(pick_next_task_grr_frame s c r hr).2 x]
  · intro x
    rw [put_prev_task_grr_grr]
  · intro h0
    have hdec : uint_dec (s.tasks p).grr.time_slice = UINT_SIZE - 1 := by
      rw [h0]; decide
    have hne : uint_dec (s.tasks p).grr.time_slice ≠ 0 := by
      rw [hdec]; decide
    refine ⟨?_, task_tick_grr_rqs_running K s c p hne⟩
    rw [task_tick_grr_time_slice, if_pos rfl, if_neg hne, hdec]

/-- C20 on the last tick of the slice of task 3 of `single_example`, and on a tick on
task 9 after its slice has been set to 0. -/
theorem time_slice_stays_in_range_witness :
    ((task_tick_grr example_K single_example 0 3).tasks 3).grr.time_slice = 10
      ∧ ((task_tick_grr example_K
            (set_task single_example 9
              { single_example.tasks 9 with
                grr := { time_slice := 0, timeout := 0, nr_cpus_allowed := 4 } }) 0 9).tasks
          9).grr.time_slice = 4294967295 :=
  ⟨((time_slice_stays_in_range example_K single_example 0 3).1
      ⟨by decide, by decide, by decide⟩).1,
    ((time_slice_stays_in_range example_K
        (set_task single_example 9
          { single_example.tasks 9 with
            grr := { time_slice := 0, timeout := 0, nr_cpus_allowed := 4 } }) 0 9).2.2.2.2.2.2
      (by decide)).1⟩

end GRR
